import Mathlib

/-!
Solana token deployer CLI: minting, image upload and token listing.

A shallow embedding of `src/config.js`, `src/mint-tokens.js`,
`src/image-uploader.js` and `src/token-viewer.js`.

Every call that leaves the process (file system, RPC node, HTTP upload) is
answered by a field of a world structure, so each theorem below quantifies over
all possible answers of the outside world.  A function returns the list of the
external calls it made, in order, together with its JavaScript result.
-/

namespace TokenCli

/-! ## JavaScript helpers -/

/-- JavaScript truthiness of a value that is either `undefined`/`null` or a string. -/
def truthy : Option String → Bool
  | some s => s != ""
  | none => false

/-- The JavaScript expression `a || b` on possibly-missing strings. -/
def orElse (a b : Option String) : Option String :=
  if truthy a then a else b

/-- `s.startsWith(p)` on strings. -/
def startsWith (s p : String) : Bool :=
  p.toList.isPrefixOf s.toList

/-- `s.endsWith(p)` on strings. -/
def endsWith (s p : String) : Bool :=
  p.toList.isSuffixOf s.toList

/-- `s.includes(t)` on strings. -/
def includes (s t : String) : Bool :=
  decide (t.toList <:+: s.toList)

/-- A parsed JSON value.  Numbers are integers; other numbers are outside the
model. -/
inductive Json where
  | null
  | bool (b : Bool)
  | num (n : Int)
  | str (s : String)
  | arr (items : List Json)
  | obj (fields : List (String × Json))

/-- Property access `value.key` on a parsed JSON value that is not `null`: `none` is
`undefined`.  Of a repeated key `JSON.parse` keeps the last value. -/
def Json.get (value : Json) (key : String) : Option Json :=
  match value with
  | .obj fields => (fields.reverse.find? fun field => field.1 == key).map Prod.snd
  | _ => none

/-- JavaScript truthiness of a parsed JSON value or `undefined`. -/
def Json.truthy : Option Json → Bool
  | none => false
  | some .null => false
  | some (.bool b) => b
  | some (.num n) => n != 0
  | some (.str s) => s != ""
  | some _ => true

/-- Library functions of the host platform that the program calls and that have no
effect: `String.prototype.toLowerCase`, `path.extname`, `path.resolve`,
`path.join`, the `mime-types` lookup table (`none` is the result `false`),
`JSON.parse` (`none` when it throws) and the constant `TOKEN_OUTPUT_DIR` of
`config.js`, which depends on where the package is installed. -/
structure Host where
  toLowerCase : String → String
  extname : String → String
  resolve : String → String
  join : List String → String
  mimeLookup : String → Option String
  jsonParse : String → Option Json
  TOKEN_OUTPUT_DIR : String

/-- The environment variables read by `config.js`. -/
structure ProcessEnv where
  SOLANA_NETWORK : Option String
  SOLANA_RPC_URL : Option String
  IMGBB_API_KEY : Option String
  NFT_STORAGE_API_KEY : Option String
  WALLET_PATH : Option String
  HOME : Option String
  USERPROFILE : Option String

/-- `NETWORK` of `config.js`. -/
def NETWORK (env : ProcessEnv) : String :=
  (orElse env.SOLANA_NETWORK (some "devnet")).getD "devnet"

/-- `EXPLORER_URL` of `config.js`. -/
def EXPLORER_URL (env : ProcessEnv) : String :=
  if NETWORK env = "mainnet-beta" then "https://explorer.solana.com"
  else "https://explorer.solana.com/?cluster=" ++ NETWORK env

/-- `IMGBB_API_KEY` of `config.js`: the variable, or the empty string. -/
def IMGBB_API_KEY (env : ProcessEnv) : String :=
  (orElse env.IMGBB_API_KEY (some "")).getD ""

/-- `NFT_STORAGE_API_KEY` of `config.js`: the variable, or the empty string. -/
def NFT_STORAGE_API_KEY (env : ProcessEnv) : String :=
  (orElse env.NFT_STORAGE_API_KEY (some "")).getD ""

/-- `getWalletPath` of `config.js`.  `existsSync` answers `fs.existsSync`.  When
neither `HOME` nor `USERPROFILE` is set, `path.join` receives `undefined` and
throws its argument-type error. -/
def getWalletPath (h : Host) (env : ProcessEnv) (existsSync : String → Bool)
    (walletPath : Option String) : Except String String :=
  if truthy walletPath then .ok (h.resolve (walletPath.getD "")) else
  if truthy env.WALLET_PATH then .ok (h.resolve (env.WALLET_PATH.getD "")) else
  match orElse env.HOME env.USERPROFILE with
  | none => .error "The \"path\" argument must be of type string. Received undefined"
  | some homeDir =>
    let defaultWalletPath := h.join [homeDir, ".config", "solana", "id.json"]
    if existsSync defaultWalletPath then .ok defaultWalletPath
    else .error ("Wallet keypair not found. Please provide a wallet path using " ++
      "--wallet option or WALLET_PATH environment variable.")

/-! ## Numbers

`mintTokens` computes the base-unit amount with JavaScript numbers, which are
IEEE-754 binary64 values.  On non-negative integers the arithmetic that the
function performs (conversion from a decimal numeral, a power of ten, one
multiplication, conversion to `BigInt`) is determined by round-to-nearest,
ties-to-even on the exact mathematical value, which is what `roundDouble`
computes. -/

/-- A non-negative JavaScript number: a finite value that is a natural number,
`Infinity`, or `NaN`. -/
inductive JsNum where
  | fin (n : Nat)
  | inf
  | nan
deriving DecidableEq, Repr

/-- Number of binary digits of `n`, by repeated halving (`fuel` bounds the loop). -/
def bitLength : Nat → Nat → Nat
  | 0, _ => 0
  | fuel + 1, n => if n = 0 then 0 else bitLength fuel (n / 2) + 1

/-- Round a natural number to the nearest number with a 53-bit significand, ties to
even. -/
def roundDouble (n : Nat) : Nat :=
  let bits := bitLength n n
  if bits ≤ 53 then n else
  let e := bits - 53
  let q := n / 2 ^ e
  let r := n % 2 ^ e
  let half := 2 ^ (e - 1)
  let q1 := if r > half ∨ (r = half ∧ q % 2 = 1) then q + 1 else q
  q1 * 2 ^ e

/-- The binary64 value nearest to the natural number `n`; a rounded value of more
than 1024 binary digits is beyond the largest finite double and becomes
`Infinity`. -/
def toJsNum (n : Nat) : JsNum :=
  if bitLength (roundDouble n) (roundDouble n) ≤ 1024 then .fin (roundDouble n) else .inf

/-- JavaScript multiplication on non-negative numbers. -/
def JsNum.mul : JsNum → JsNum → JsNum
  | .nan, _ => .nan
  | _, .nan => .nan
  | .inf, .fin n => if n = 0 then .nan else .inf
  | .fin n, .inf => if n = 0 then .nan else .inf
  | .inf, .inf => .inf
  | .fin a, .fin b => toJsNum (a * b)

/-- `BigInt(x)`: throws a `RangeError` unless `x` is an integer. -/
def toBigInt : JsNum → Except String Nat
  | .fin n => .ok n
  | .inf => .error "The number Infinity cannot be converted to a BigInt because it is not an integer"
  | .nan => .error "The number NaN cannot be converted to a BigInt because it is not an integer"

/-- The expression `Number(amount) * (10 ** decimals)` of `mintTokens`, for an
`amount` that is the decimal numeral of a non-negative integer.  Powers of ten up
to `10 ^ 22` are exact binary64 values. -/
def amountToMint (amount decimals : Nat) : JsNum :=
  (toJsNum amount).mul (toJsNum (10 ^ decimals))

/-- A JavaScript value that is not an object: what a key of a parsed JSON record can
hold, or `undefined` for a key that is missing. -/
inductive JsValue where
  | undefined
  | null
  | bool (b : Bool)
  | num (n : Int)
  | str (s : String)
deriving DecidableEq, Repr

/-- Decimal digits of a natural number, most significant first (`fuel` bounds the
loop). -/
def showNatAux : Nat → Nat → List Char → List Char
  | 0, _, acc => acc
  | fuel + 1, n, acc =>
    if n < 10 then Char.ofNat (48 + n) :: acc
    else showNatAux fuel (n / 10) (Char.ofNat (48 + n % 10) :: acc)

/-- Text of a natural number inside a template literal. -/
def showNat (n : Nat) : String :=
  ⟨showNatAux (n + 1) n []⟩

/-- Text of a value inside a template literal. -/
def JsValue.toText : JsValue → String
  | .undefined => "undefined"
  | .null => "null"
  | .bool b => if b then "true" else "false"
  | .num (.ofNat n) => showNat n
  | .num (.negSucc n) => "-" ++ showNat (n + 1)
  | .str s => s

/-- The number that `parseInt` reads from a string that matches `/^\d+$/`; `none` for
a string that does not match.  The value is exact: `parseInt` rounds a numeral
of more than 2^53 to a double, which is still larger than any array length. -/
def parseDigits (s : String) : Option Nat :=
  if s.toList = [] then none else
  s.toList.foldl (fun acc c =>
    match acc with
    | some n => if c.isDigit then some (10 * n + (c.toNat - 48)) else none
    | none => none) (some 0)

/-! ## Token records -/

/-- The `createdAt` field of a record as `listTokens` sees it: falsy or missing
(`absent`), a value of which `new Date` makes a valid date with time value `ms`,
or a value of which `new Date` makes an invalid date. -/
inductive CreatedAt where
  | absent
  | valid (ms : Int)
  | invalid
deriving DecidableEq, Repr

/-- A token record as stored in a JSON file of the token-output directory.  A string
field is `none` when the key is missing or its value is not a string; `mint`
keeps the value as it is, since `getTokenDetails` compares it with `===`; `extra`
holds the keys that have no field of their own, such as `mintAddress`. -/
structure TokenRecord where
  name : Option String
  symbol : Option String
  mint : JsValue
  decimals : Option Nat
  initialSupply : Option Nat
  description : Option String
  imageUrl : Option String
  createdAt : CreatedAt
  explorerUrl : Option String
  metadataAddress : Option String
  metadataUri : Option String
  transaction : Option String
  extra : List (String × JsValue)
deriving DecidableEq, Repr

/-- What `JSON.parse(fs.readFileSync(file))` gives for a file of the directory: an
error (the file cannot be read or is not JSON), the value `null`, or a record. -/
inductive FileContent where
  | unreadable
  | null
  | record (r : TokenRecord)
deriving DecidableEq, Repr

/-- An entry of the token-output directory. -/
structure DirEntry where
  name : String
  content : FileContent
deriving DecidableEq, Repr

/-! ## External calls -/

/-- A transaction as `mintTokens` assembles it. -/
structure Transaction where
  mint : String
  destination : String
  authority : String
  amount : Nat
  recentBlockhash : String
  feePayer : String
deriving DecidableEq, Repr

/-- A call that leaves the process, as recorded in the trace of an operation.  Of the
console output only the messages of `index.js` are recorded. -/
inductive Event where
  | readFile (path : String)
  | getParsedAccountInfo (mint : String)
  | createMintToInstruction (mint destination authority : String) (amount : Nat)
  | getLatestBlockhash
  | sendRawTransaction (tx : Transaction)
  | confirmTransaction (signature : String)
  | uploadToImgBB (imagePath : String)
  | uploadToNFTStorage (imagePath : String) (mimeType : String)
  | getTokenSupply (mint : String)
  | consoleLog (text : String)
  | consoleError (text : String)
  | prompts
  | confirm
  | execSync (command : String)
  | uploadImageData (imagePath : String)
  | uploadMetadataJson (name : String)
  | createMetadataAccount (mint : String) (name symbol : Option String) (uri : String)
  | updateMetadataAccountV2 (metadata updateAuthority : String) (name symbol : Option String)
      (isMutable : Bool)
  | writeFile (path : String) (record : TokenRecord)
  | writeUploadRecord (originalFile url : String)
  | exit (code : Nat)
deriving DecidableEq, Repr

/-- Outcome of a `try` body: the calls made, and the value returned or the message
of the error thrown. -/
abbrev Run (α : Type) := List Event × Except String α

/-- Perform the external call `ev`, whose answer is `r`, then continue with `k`. -/
def call {α β : Type} (ev : Event) (r : Except String α) (k : α → Run β) : Run β :=
  match r with
  | .error e => ([ev], .error e)
  | .ok a => (ev :: (k a).1, (k a).2)

/-- Evaluate a library computation that may throw but makes no external call. -/
def attempt {α β : Type} (r : Except String α) (k : α → Run β) : Run β :=
  match r with
  | .error e => ([], .error e)
  | .ok a => k a

/-! ## `mint-tokens.js` -/

/-- The `info` object of a parsed mint account. -/
structure ParsedMintInfo where
  decimals : Nat
  mintAuthority : Option String
deriving DecidableEq, Repr

/-- The `data` field of an account: a raw buffer, or an object with a `parsed` key. -/
inductive AccountData where
  | raw
  | parsed (info : ParsedMintInfo)
deriving DecidableEq, Repr

/-- The `value` of an RPC account response; `data = none` is a missing `data`. -/
structure AccountInfo where
  data : Option AccountData
deriving DecidableEq, Repr

/-- The answer of `connection.getParsedAccountInfo`. -/
structure ParsedAccountResponse where
  value : Option AccountInfo
deriving DecidableEq, Repr

/-- Answers of the outside world to the calls of `mintTokens`; an `error` is the
message of the error thrown.  `readKeypairFile` is `JSON.parse(fs.readFileSync(_))`;
`createKeypairFromSecretKey` stands for the creation of the UMI instance, of the
keypair and of its signer, and gives the public key of the wallet as a string;
`newPublicKey` stands for `new Connection(RPC_URL)` and `new PublicKey(tokenMint)`;
`sign` stands for `transaction.sign` and `transaction.serialize`. -/
structure MintWorld where
  existsSync : String → Bool
  readKeypairFile : String → Except String (List Nat)
  createKeypairFromSecretKey : List Nat → Except String String
  newPublicKey : String → Except String String
  getParsedAccountInfo : String → Except String ParsedAccountResponse
  getAssociatedTokenAddress : String → String → Except String String
  createMintToInstruction : String → String → String → Nat → Except String Unit
  getLatestBlockhash : Except String String
  sign : Transaction → Except String Unit
  sendRawTransaction : Transaction → Except String String
  confirmTransaction : String → Except String Unit

/-- The object returned by `mintTokens`. -/
structure MintResult where
  success : Bool
  error : Option String
  details : Option String
  signature : Option String
  explorerUrl : Option String
deriving DecidableEq, Repr

/-- Text of `null` or of a string inside a template literal. -/
def showNullable : Option String → String
  | some s => s
  | none => "null"

/-- Message of the early return of `mintTokens` on an authority mismatch. -/
def authorityMismatchError : String :=
  "The provided wallet is not the mint authority for this token. " ++
  "Only the mint authority can mint new tokens."

/-- The `try` body of `mintTokens`.  The argument `amount` is the non-negative
integer whose decimal numeral is passed on the command line. -/
def mintTokensBody (h : Host) (env : ProcessEnv) (w : MintWorld)
    (tokenMint : String) (amount : Nat) (walletPath : Option String) : Run MintResult :=
  attempt (getWalletPath h env w.existsSync walletPath) fun walletKeyPath =>
  call (.readFile walletKeyPath)
    ((w.readKeypairFile walletKeyPath).mapError
      fun e => "Failed to read wallet keypair file: " ++ e) fun userWalletRaw =>
  attempt (w.createKeypairFromSecretKey userWalletRaw) fun publicKey =>
  attempt (w.newPublicKey tokenMint) fun mintKey =>
  call (.getParsedAccountInfo mintKey) (w.getParsedAccountInfo mintKey) fun mintInfo =>
  match mintInfo.value with
  | none => ([], .error ("Failed to fetch mint information for " ++ tokenMint))
  | some value =>
  match value.data with
  | none => ([], .error ("Failed to fetch mint information for " ++ tokenMint))
  | some .raw => ([], .error ("Failed to parse mint data for " ++ tokenMint))
  | some (.parsed info) =>
  let decimals := info.decimals
  let amountToMint := amountToMint amount decimals
  let mintAuthority := info.mintAuthority
  if mintAuthority ≠ some publicKey then
    ([], .ok ⟨false, some authorityMismatchError,
      some ("Expected: " ++ showNullable mintAuthority ++ ", got: " ++ publicKey), none, none⟩)
  else
  attempt (w.getAssociatedTokenAddress mintKey publicKey) fun associatedTokenAddress =>
  attempt (toBigInt amountToMint) fun baseUnits =>
  call (.createMintToInstruction mintKey associatedTokenAddress publicKey baseUnits)
    (w.createMintToInstruction mintKey associatedTokenAddress publicKey baseUnits) fun _ =>
  call .getLatestBlockhash w.getLatestBlockhash fun blockhash =>
  let transaction : Transaction :=
    ⟨mintKey, associatedTokenAddress, publicKey, baseUnits, blockhash, publicKey⟩
  attempt (w.sign transaction) fun _ =>
  call (.sendRawTransaction transaction) (w.sendRawTransaction transaction) fun signature =>
  call (.confirmTransaction signature) (w.confirmTransaction signature) fun _ =>
  ([], .ok ⟨true, none, none, some signature,
    some (EXPLORER_URL env ++ "/tx/" ++ signature)⟩)

/-- The function `mintTokens`: the body, with every thrown error turned into a
failure object by the `catch` clause. -/
def mintTokens (h : Host) (env : ProcessEnv) (w : MintWorld)
    (tokenMint : String) (amount : Nat) (walletPath : Option String) :
    List Event × MintResult :=
  match mintTokensBody h env w tokenMint amount walletPath with
  | (trace, .ok result) => (trace, result)
  | (trace, .error message) => (trace, ⟨false, some message, none, none, none⟩)

/-- An event that builds the mint instruction or submits the transaction. -/
def Event.buildsOrSubmits : Event → Bool
  | .createMintToInstruction _ _ _ _ => true
  | .sendRawTransaction _ => true
  | _ => false

/-! ## `image-uploader.js` -/

/-- What `fs.existsSync` and `fs.readFileSync` find at a path: nothing, an entry
that cannot be read (reading throws `message`), or a file of `size` bytes. -/
inductive FileStat where
  | missing
  | unreadable (message : String)
  | file (size : Nat)
deriving DecidableEq, Repr

/-- The object `response.data.data` of an ImgBB answer. -/
structure ImgbbData where
  url : Option String
  display_url : Option String
  delete_url : Option String
deriving DecidableEq, Repr

/-- The object `response.data.value` of an NFT.Storage answer. -/
structure NftValue where
  cid : Option String
deriving DecidableEq, Repr

/-- The object `response.data` of an NFT.Storage answer. -/
structure NftData where
  ok : Bool
  value : Option NftValue
deriving DecidableEq, Repr

/-- Answers of the outside world to the calls of `uploadImage`.  `postImgBB` answers
with `response.data.data` (`none` when `response.data` or `response.data.data` is
missing), `postNFTStorage` with `response.data`; an `error` is the message of
the error that `axios.post` throws. -/
structure UploadWorld where
  stat : String → FileStat
  postImgBB : String → Except String (Option ImgbbData)
  postNFTStorage : String → String → Except String (Option NftData)

/-- The object returned by `uploadToImgBB`. -/
structure ImgbbResult where
  success : Bool
  url : Option String
  displayUrl : Option String
  deleteUrl : Option String
deriving DecidableEq, Repr

/-- The object returned by `uploadToNFTStorage`. -/
structure NftStorageResult where
  success : Bool
  cid : String
  ipfs : String
  url : String
deriving DecidableEq, Repr

/-- The object returned by `uploadImage`. -/
structure UploadResult where
  success : Bool
  url : Option String
  imgbb : Option ImgbbResult
  nftStorage : Option NftStorageResult
  error : Option String
deriving DecidableEq, Repr

/-- The function `uploadToImgBB`, given the answer to its request. -/
def uploadToImgBB (response : Except String (Option ImgbbData)) : Except String ImgbbResult :=
  match response with
  | .error e => .error e
  | .ok (some data) => .ok ⟨true, data.url, data.display_url, data.delete_url⟩
  | .ok none => .error "Invalid response from ImgBB API"

/-- The function `uploadToNFTStorage`, given the answer to its request. -/
def uploadToNFTStorage (response : Except String (Option NftData)) :
    Except String NftStorageResult :=
  match response with
  | .error e => .error e
  | .ok (some ⟨true, some ⟨some cid⟩⟩) =>
    if cid != "" then .ok ⟨true, cid, "ipfs://" ++ cid, "https://ipfs.io/ipfs/" ++ cid⟩
    else .error "Invalid response from NFT.Storage API"
  | .ok _ => .error "Invalid response from NFT.Storage API"

/-- Two decimal digits of a number below 100. -/
def twoDigits (n : Nat) : String :=
  (if n < 10 then "0" else "") ++ toString n

/-- `x.toFixed(2)` for a non-negative number: the nearest multiple of 1/100, the
larger one on a tie. -/
def toFixed2 (x : ℚ) : String :=
  let n := (⌊x * 100 + 1 / 2⌋).toNat
  toString (n / 100) ++ "." ++ twoDigits (n % 100)

/-- The value `fileSizeMB` of `uploadImage`.  Dividing by `1024 * 1024`, a power of
two, is exact in binary64. -/
def fileSizeMB (size : Nat) : ℚ := (size : ℚ) / (1024 * 1024)

/-- The value `mimeType` of `uploadImage`. -/
def mimeTypeOf (h : Host) (imagePath : String) : String :=
  let ext := h.toLowerCase (h.extname imagePath)
  (orElse (h.mimeLookup ext) (some "application/octet-stream")).getD ""

/-- `fs.existsSync(path)`. -/
def existsSync (w : UploadWorld) (path : String) : Bool :=
  w.stat path != .missing

/-- `fs.readFileSync(path)`: the length of the buffer read, or the error thrown. -/
def readFileSync (w : UploadWorld) (path : String) : Except String Nat :=
  match w.stat path with
  | .file size => .ok size
  | .unreadable message => .error message
  | .missing => .error ("ENOENT: no such file or directory, open '" ++ path ++ "'")

/-- The `try` body of `uploadImage`. -/
def uploadImageBody (h : Host) (env : ProcessEnv) (w : UploadWorld) (imagePath : String) :
    Run UploadResult :=
  if ¬ existsSync w imagePath then ([], .error ("File not found: " ++ imagePath)) else
  let mimeType := mimeTypeOf h imagePath
  if ¬ startsWith mimeType "image/" then
    ([], .error ("File is not a recognized image format: " ++ imagePath)) else
  call (.readFile imagePath) (readFileSync w imagePath) fun size =>
  if fileSizeMB size > 10 then
    ([], .error ("Image file is too large (" ++ toFixed2 (fileSizeMB size) ++
      "MB). Maximum allowed size is 10MB.")) else
  let imgbb : List Event × Option ImgbbResult :=
    if IMGBB_API_KEY env ≠ "" then
      ([.uploadToImgBB imagePath], (uploadToImgBB (w.postImgBB imagePath)).toOption)
    else ([], none)
  let nftStorage : List Event × Option NftStorageResult :=
    if NFT_STORAGE_API_KEY env ≠ "" then
      ([.uploadToNFTStorage imagePath mimeType],
        (uploadToNFTStorage (w.postNFTStorage imagePath mimeType)).toOption)
    else ([], none)
  let imgbbResult := imgbb.2
  let nftStorageResult := nftStorage.2
  let resultUrl :=
    orElse (nftStorageResult.map fun r => r.url) (orElse (imgbbResult.bind fun r => r.url) none)
  if ¬ truthy resultUrl then
    (imgbb.1 ++ nftStorage.1, .error "Failed to upload image to any service.") else
  (imgbb.1 ++ nftStorage.1, .ok ⟨true, resultUrl, imgbbResult, nftStorageResult, none⟩)

/-- The function `uploadImage`: the body, with every thrown error turned into a
failure object by the `catch` clause. -/
def uploadImage (h : Host) (env : ProcessEnv) (w : UploadWorld) (imagePath : String) :
    List Event × UploadResult :=
  match uploadImageBody h env w imagePath with
  | (trace, .ok result) => (trace, result)
  | (trace, .error message) => (trace, ⟨false, none, none, none, some message⟩)

/-- An event that is an upload request to one of the two providers. -/
def Event.isUpload : Event → Bool
  | .uploadToImgBB _ => true
  | .uploadToNFTStorage _ _ => true
  | _ => false

/-! ## `token-viewer.js` -/

/-- One turn of the loop of `listTokens` over the token files: `some token` when the
parsed value is pushed on `tokens` (`token = none` is the value `null`), `none`
when the file is skipped, by `continue` or by the inner `catch`. -/
def loadToken (h : Host) (filter : String) : FileContent → Option (Option TokenRecord)
  | .unreadable => none
  | .null => if filter ≠ "" then none else some none
  | .record r =>
    if filter = "" then some (some r) else
    match r.name with
    | none => none
    | some name =>
      if includes (h.toLowerCase name) (h.toLowerCase filter) then some (some r) else
      match r.symbol with
      | none => none
      | some symbol =>
        if includes (h.toLowerCase symbol) (h.toLowerCase filter) then some (some r) else none

/-- Time value of `a.createdAt ? new Date(a.createdAt) : new Date(0)`; `none` is the
time value `NaN` of an invalid date. -/
def dateOf (a : TokenRecord) : Option Int :=
  match a.createdAt with
  | .absent => some 0
  | .valid ms => some ms
  | .invalid => none

/-- The comparator `(a, b) => dateB - dateA` of `listTokens`; `none` is `NaN`. -/
def compareTokens (a b : TokenRecord) : Option Int :=
  match dateOf a, dateOf b with
  | some dateA, some dateB => some (dateB - dateA)
  | _, _ => none

/-- Whether the sort may leave `a` before `b`: the comparator gives a value that is
not positive (`Array.prototype.sort` reads `NaN` as `0`). -/
def sortsBefore (a b : TokenRecord) : Bool :=
  match compareTokens a b with
  | some v => decide (v ≤ 0)
  | none => true

/-- `tokens.sort(comparator)`.  `Array.prototype.sort` is a stable sort, so for a
comparator that orders the elements consistently its result is the one of
insertion sort. -/
def sortTokens (tokens : List TokenRecord) : List TokenRecord :=
  tokens.insertionSort fun a b => sortsBefore a b = true

/-- The function `listTokens`.  `readdir` answers `fs.readdirSync` on the
token-output directory, with the parsed content of every entry.  A `null` among
the loaded tokens makes the sort or the display loop throw a `TypeError`, which
the outer `catch` turns into the empty list.  The flag `verbose` only selects what
is printed. -/
def listTokens (h : Host) (readdir : Except String (List DirEntry)) (_verbose : Bool)
    (filter : String) : List TokenRecord :=
  match readdir with
  | .error _ => []
  | .ok entries =>
  let tokenFiles := entries.filter fun file => endsWith file.name ".json"
  if tokenFiles.length = 0 then [] else
  let tokens := tokenFiles.filterMap fun file => loadToken h filter file.content
  if tokens.any Option.isNone then [] else
  sortTokens (tokens.filterMap id)

/-- The answer of `connection.getTokenSupply`: `value.uiAmount` (`none` is `null`) and
`value.decimals`. -/
structure TokenSupply where
  uiAmount : Option ℚ
  decimals : Nat
deriving DecidableEq, Repr

/-- Answers of the outside world to the calls of the viewer: the token-output
directory, `new PublicKey(mintAddress)` and `connection.getTokenSupply`. -/
structure ViewWorld where
  readdir : Except String (List DirEntry)
  newPublicKey : JsValue → Except String String
  getTokenSupply : String → Except String TokenSupply

/-- The object returned by `getTokenDetails`, an object literal of the shape
`{ mint, supply, decimals, ...localTokenInfo, isSimulated, explorerUrl }`: a key
of `localTokenInfo` replaces the `mint`, `supply` or `decimals` written before
it, and `isSimulated` (`none` when the key is not written) and `explorerUrl`
come last. -/
structure TokenDetails where
  mint : JsValue
  supply : Option ℚ
  decimals : Nat
  localTokenInfo : Option TokenRecord
  isSimulated : Option Bool
  explorerUrl : String
deriving DecidableEq, Repr

/-- The loop of `getTokenDetails` over the token files: the record of the first file,
in directory order, whose `mint` is strictly equal to `mintAddress`.  A file that
cannot be parsed, or holds `null`, is passed over by the inner `catch`. -/
def findLocalToken (entries : List DirEntry) (mintAddress : JsValue) : Option TokenRecord :=
  ((entries.filter fun file => endsWith file.name ".json").filterMap fun file =>
    match file.content with
    | .record tokenData => if tokenData.mint = mintAddress then some tokenData else none
    | _ => none).head?

/-- The function `getTokenDetails`; an `error` is the error it rethrows. -/
def getTokenDetails (env : ProcessEnv) (w : ViewWorld) (mintAddress : JsValue)
    (simulateOnly : Bool) : Run TokenDetails :=
  attempt w.readdir fun entries =>
  let localTokenInfo := findLocalToken entries mintAddress
  let explorerUrl := EXPLORER_URL env ++ "/address/" ++ mintAddress.toText
  match localTokenInfo, simulateOnly with
  | some info, true =>
    ([], .ok ⟨mintAddress,
      some (match info.initialSupply with | some n => (n : ℚ) | none => 0),
      (match info.decimals with | some d => if d = 0 then 9 else d | none => 9),
      some info, some true, explorerUrl⟩)
  | _, _ =>
    attempt ((w.newPublicKey mintAddress).mapError
      fun e => "Failed to fetch token info: " ++ e) fun key =>
    call (.getTokenSupply key) ((w.getTokenSupply key).mapError
      fun e => "Failed to fetch token info: " ++ e) fun tokenInfo =>
    ([], .ok ⟨mintAddress, tokenInfo.uiAmount, tokenInfo.decimals, localTokenInfo, none,
      explorerUrl⟩)

/-! ## `index.js`: the view command -/

/-- `args.indexOf(word) + 1`, where `indexOf` is `-1` for a word that is absent. -/
def indexAfter (args : List String) (word : String) : Nat :=
  if args.contains word then args.indexOf word + 1 else 0

/-- The function `handleViewToken`.  The value returned is the details that were
displayed, if any; an `error` is an error that leaves the function.  The test
`index < 0 || index >= tokens.length` is the test that `number` is 0 or that
`tokens` has no element at `number - 1`. -/
def handleViewToken (h : Host) (env : ProcessEnv) (w : ViewWorld) (args : List String) :
    Run (Option TokenDetails) :=
  let viewIndex := indexAfter args "view"
  match args.get? viewIndex with
  | none =>
    ([.consoleError "❌ Please provide a token mint address or index.",
      .consoleLog "Usage: solana-token view <MINT_ADDRESS_OR_INDEX>"], .ok none)
  | some identifier =>
  let simulateOnly := args.contains "--simulate"
  match parseDigits identifier with
  | some number =>
    let tokens := listTokens h w.readdir false ""
    let invalid : Run (Option TokenDetails) :=
      ([.consoleError ("❌ Invalid token index. Please choose between 1 and " ++
        showNat tokens.length)], .ok none)
    if number = 0 then invalid else
    match tokens.get? (number - 1) with
    | none => invalid
    | some token =>
      match getTokenDetails env w token.mint simulateOnly with
      | (trace, .ok tokenDetails) => (trace, .ok (some tokenDetails))
      | (trace, .error e) => (trace, .error e)
  | none =>
    match getTokenDetails env w (.str identifier) simulateOnly with
    | (trace, .ok tokenDetails) => (trace, .ok (some tokenDetails))
    | (trace, .error e) =>
      (trace ++ [.consoleError ("❌ Failed to get token details: " ++ e)], .ok none)

/-! ## `update-token-name.js` and `update-token-symbol.js` -/

/-- The arguments that the updaters pass to `updateMetadataAccountV2`; a field that
the call does not set is `none`. -/
structure UpdateArgs where
  metadata : String
  updateAuthority : String
  name : Option String
  symbol : Option String
  isMutable : Bool
deriving DecidableEq, Repr

/-- Answers of the outside world to the calls of the metadata updaters; an `error`
is the message of the error thrown.  `createKeypairFromSecretKey` stands for the
creation of the UMI instance, of the keypair and of its signer and for
`umi.use(signerIdentity(_))`, and gives the public key of the wallet;
`sendAndConfirm` gives the signature of the update transaction.  Registering the
Token Metadata program has its own `try`/`catch` and no influence on the result,
so it has no answer here. -/
structure UpdateWorld where
  existsSync : String → Bool
  newPublicKey : String → Except String String
  readKeypairFile : String → Except String (List Nat)
  createKeypairFromSecretKey : List Nat → Except String String
  findMetadataPda : String → Except String String
  sendAndConfirm : UpdateArgs → Except String String

/-- The object returned by `updateTokenName` and `updateTokenSymbol`. -/
structure UpdateResult where
  success : Bool
  error : Option String
  signature : Option String
  metadataAddress : Option String
  explorerUrl : Option String
deriving DecidableEq, Repr

/-- The `try` body of `updateTokenName`. -/
def updateTokenNameBody (h : Host) (env : ProcessEnv) (w : UpdateWorld)
    (mintAddress newName walletPath : Option String) : Run UpdateResult :=
  if ¬ truthy mintAddress then ([], .error "Mint address is required") else
  if ¬ truthy newName then ([], .error "New name is required") else
  attempt (w.newPublicKey (mintAddress.getD "")) fun mint =>
  attempt (getWalletPath h env w.existsSync walletPath) fun walletKeyPath =>
  call (.readFile walletKeyPath)
    ((w.readKeypairFile walletKeyPath).mapError
      fun e => "Failed to read wallet keypair file: " ++ e) fun userWalletRaw =>
  attempt (w.createKeypairFromSecretKey userWalletRaw) fun userWalletSigner =>
  attempt (w.findMetadataPda mint) fun metadataAddress =>
  let update : UpdateArgs := ⟨metadataAddress, userWalletSigner, newName, none, true⟩
  call (.updateMetadataAccountV2 update.metadata update.updateAuthority update.name
      update.symbol update.isMutable) (w.sendAndConfirm update) fun signature =>
  ([], .ok ⟨true, none, some signature, some metadataAddress,
    some (EXPLORER_URL env ++ "/tx/" ++ signature)⟩)

/-- The function `updateTokenName`: the body, with every thrown error turned into a
failure object by the `catch` clause. -/
def updateTokenName (h : Host) (env : ProcessEnv) (w : UpdateWorld)
    (mintAddress newName walletPath : Option String) : List Event × UpdateResult :=
  match updateTokenNameBody h env w mintAddress newName walletPath with
  | (trace, .ok result) => (trace, result)
  | (trace, .error message) => (trace, ⟨false, some message, none, none, none⟩)

/-- The `try` body of `updateTokenSymbol`. -/
def updateTokenSymbolBody (h : Host) (env : ProcessEnv) (w : UpdateWorld)
    (mintAddress newSymbol walletPath : Option String) : Run UpdateResult :=
  if ¬ truthy mintAddress then ([], .error "Mint address is required") else
  if ¬ truthy newSymbol then ([], .error "New symbol is required") else
  attempt (w.newPublicKey (mintAddress.getD "")) fun mint =>
  attempt (getWalletPath h env w.existsSync walletPath) fun walletKeyPath =>
  call (.readFile walletKeyPath)
    ((w.readKeypairFile walletKeyPath).mapError
      fun e => "Failed to read wallet keypair file: " ++ e) fun userWalletRaw =>
  attempt (w.createKeypairFromSecretKey userWalletRaw) fun userWalletSigner =>
  attempt (w.findMetadataPda mint) fun metadataAddress =>
  let update : UpdateArgs := ⟨metadataAddress, userWalletSigner, none, newSymbol, true⟩
  call (.updateMetadataAccountV2 update.metadata update.updateAuthority update.name
      update.symbol update.isMutable) (w.sendAndConfirm update) fun signature =>
  ([], .ok ⟨true, none, some signature, some metadataAddress,
    some (EXPLORER_URL env ++ "/tx/" ++ signature)⟩)

/-- The function `updateTokenSymbol`: the body, with every thrown error turned into a
failure object by the `catch` clause. -/
def updateTokenSymbol (h : Host) (env : ProcessEnv) (w : UpdateWorld)
    (mintAddress newSymbol walletPath : Option String) : List Event × UpdateResult :=
  match updateTokenSymbolBody h env w mintAddress newSymbol walletPath with
  | (trace, .ok result) => (trace, result)
  | (trace, .error message) => (trace, ⟨false, some message, none, none, none⟩)

/-! ## `token-creator.js` -/

/-- Text of an element of an array inside a template literal.  An array nested in an
array is outside the model. -/
def Json.elementText : Json → String
  | .null => ""
  | .bool b => if b then "true" else "false"
  | .num n => (JsValue.num n).toText
  | .str s => s
  | .arr _ => ""
  | .obj _ => "[object Object]"

/-- Text of a parsed JSON value inside a template literal. -/
def Json.toText : Json → String
  | .null => "null"
  | .arr items => ",".intercalate (items.map Json.elementText)
  | value => value.elementText

/-- The class `\s` of JavaScript regular expressions. -/
def isJsSpace (c : Char) : Bool :=
  c.toNat ∈ [9, 10, 11, 12, 13, 32, 160, 5760, 8232, 8233, 8239, 8287, 12288, 65279] ||
  (8192 ≤ c.toNat && c.toNat ≤ 8202)

/-- The rest of `text` after the prefix `literal`, if `text` starts with it. -/
def stripPrefix : List Char → List Char → Option (List Char)
  | [], text => some text
  | _ :: _, [] => none
  | p :: literal, c :: text => if p = c then stripPrefix literal text else none

/-- An anchored match of the regular expressions of `token-creator.js`, which all
have the shape: a literal, then `\s*` (`minSpaces = some 0`), `\s+`
(`some 1`) or nothing (`none`), then the capture `([A-Za-z0-9]+)`, which is
between double quotes when `quoted` is set.  The result is the capture. -/
def matchHere (literal : String) (minSpaces : Option Nat) (quoted : Bool)
    (text : List Char) : Option String :=
  match stripPrefix literal.toList text with
  | none => none
  | some rest =>
    let spaces := match minSpaces with
      | none => []
      | some _ => rest.takeWhile isJsSpace
    if spaces.length < minSpaces.getD 0 then none else
    let afterSpaces := rest.drop spaces.length
    match (if quoted then stripPrefix ['"'] afterSpaces else some afterSpaces) with
    | none => none
    | some body =>
      let capture := body.takeWhile Char.isAlphanum
      if capture = [] then none else
      if quoted then
        match stripPrefix ['"'] (body.drop capture.length) with
        | none => none
        | some _ => some ⟨capture⟩
      else some ⟨capture⟩

/-- The first capture of `text.match(regex)`, for the leftmost match; `none` when the
regular expression does not match. -/
def matchFrom (literal : String) (minSpaces : Option Nat) (quoted : Bool) :
    List Char → Option String
  | [] => matchHere literal minSpaces quoted []
  | c :: text =>
    match matchHere literal minSpaces quoted (c :: text) with
    | some capture => some capture
    | none => matchFrom literal minSpaces quoted text

/-- The match of `/address":\s*"([A-Za-z0-9]+)"/`. -/
def matchJsonAddress (output : String) : Option String :=
  matchFrom "address\":" (some 0) true output.toList

/-- The match of `/signature":\s*"([A-Za-z0-9]+)"/`. -/
def matchJsonSignature (output : String) : Option String :=
  matchFrom "signature\":" (some 0) true output.toList

/-- The 64 characters of the base64 alphabet. -/
def base64Alphabet : List Char :=
  "ABCDEFGHIJKLMNOPQRSTUVWXYZabcdefghijklmnopqrstuvwxyz0123456789+/".toList

/-- The base64 character of a 6-bit value. -/
def base64Char (n : Nat) : Char :=
  base64Alphabet.getD (n % 64) 'A'

/-- `Buffer.from(bytes).toString('base64')`, on bytes below 256. -/
def base64 : List Nat → List Char
  | [] => []
  | [a] => [base64Char (a / 4), base64Char (a % 4 * 16), '=', '=']
  | [a, b] =>
    [base64Char (a / 4), base64Char (a % 4 * 16 + b / 16), base64Char (b % 16 * 4), '=']
  | a :: b :: c :: rest =>
    base64Char (a / 4) :: base64Char (a % 4 * 16 + b / 16) ::
      base64Char (b % 16 * 4 + c / 64) :: base64Char (c % 64) :: base64 rest

/-- The 58 characters of a Solana address. -/
def base58Alphabet : List Char :=
  "123456789ABCDEFGHJKLMNPQRSTUVWXYZabcdefghijkmnopqrstuvwxyz".toList

/-- The object `tokenInfo` that the prompts or a configuration file give.  A field is
`none` when the key is missing; other keys are outside the model. -/
structure TokenInfo where
  name : Option String
  symbol : Option String
  decimals : Option Nat
  initialSupply : Option Nat
  description : Option String
  imageUrl : Option String
  imagePath : Option String
  useMetaplex : Bool
deriving DecidableEq, Repr

/-- The argument `options` of `createToken`. -/
structure CreateOptions where
  tokenInfo : Option TokenInfo
  walletPath : Option String
  wallet : Option String
  simulationMode : Bool
  useMetaplex : Bool
deriving DecidableEq, Repr

/-- The objects returned by the functions of `token-creator.js`; a field is `none`
when the object has no such key or holds `undefined` or `null` there. -/
structure CreateResult where
  success : Option Bool
  error : Option String
  mintAddress : Option String
  mint : Option String
  tokenAccount : Option String
  metadataAddress : Option String
  signature : Option String
  mintSignature : Option String
  metadataUri : Option String
  explorerUrl : Option String
  isSimulated : Bool
  isCliCreated : Bool
deriving DecidableEq, Repr

/-- Answers of the outside world to the calls of `token-creator.js`; an `error` is the
message of the error thrown.  `createKeypairFromFile` gives the public key of the
wallet and stands also for `new web3.Connection` and `Metaplex.make`; `execSync`
gives the trimmed output of a command; `postImage` and `postMetadata` give
`response.data.data` of the ImgBB answer; `findMetadataPda` stands for the
statements of step 5 before the transaction is sent, and
`sendAndConfirmTransaction` gives the signature; `random k` is the byte that the
`k`-th call `Math.floor(Math.random() * 256)` gives; `now` is `Date.now()`. -/
structure CreateWorld where
  existsSync : String → Bool
  createKeypairFromFile : String → Except String String
  execSync : String → Except String String
  readImage : String → Except String Unit
  postImage : String → Except String (Option ImgbbData)
  postMetadata : String → Except String (Option ImgbbData)
  findMetadataPda : String → Except String String
  sendAndConfirmTransaction : String → Except String String
  writeFileSync : String → Except String Unit
  random : Nat → Nat
  now : Nat

/-- A failure object `{ success: false, error }`. -/
def CreateResult.failure (message : String) (isSimulated : Bool) : CreateResult :=
  ⟨some false, some message, none, none, none, none, none, none, none, none, isSimulated, false⟩

/-- The value `simulatedMintAddress` of `handleSimulationMode`: the first 44
characters of the base64 text of 32 random bytes. -/
def simulatedMintAddress (w : CreateWorld) : String :=
  ⟨(base64 ((List.range 32).map fun k => w.random k % 256)).take 44⟩

/-- The function `handleSimulationMode`. -/
def handleSimulationMode (env : ProcessEnv) (w : CreateWorld) (options : CreateOptions) :
    List Event × CreateResult :=
  match options.tokenInfo with
  | none => ([], CreateResult.failure "Token information is required for simulation" true)
  | some _ =>
    ([], ⟨some true, none, some (simulatedMintAddress w), none,
      some "SimulatedTokenAccount", some "SimulatedMetadataAddress",
      some "SIMULATED_TRANSACTION", none, none,
      some (EXPLORER_URL env ++ "/address/" ++ simulatedMintAddress w), true, false⟩)

/-- A value read from a parsed command output, as it is stored in a result: its text
when it is truthy, `none` when it is `undefined` or another falsy value. -/
def Json.toField (value : Option Json) : Option String :=
  match value with
  | some v => if Json.truthy (some v) then some v.toText else none
  | none => none

/-- The two `JSON.parse` tiers of step 1 of `createTokenWithMetaplex`: the mint
address and the signature read from the parsed output, or `none` when the inner
`try` block throws (the output is not JSON, is `null`, or has neither shape). -/
def parseCreateToken (h : Host) (createTokenOutput : String) :
    Option (String × Option String) :=
  match h.jsonParse createTokenOutput with
  | none => none
  | some .null => none
  | some createTokenResult =>
    let commandOutput := createTokenResult.get "commandOutput"
    let address := commandOutput.bind fun o => o.get "address"
    if Json.truthy commandOutput && Json.truthy address then
      let transactionData := commandOutput.bind fun o => o.get "transactionData"
      some ((address.map Json.toText).getD "",
        if Json.truthy transactionData then
          Json.toField (transactionData.bind fun t => t.get "signature")
        else some "unknown")
    else if Json.truthy (createTokenResult.get "address") then
      some (((createTokenResult.get "address").map Json.toText).getD "",
        orElse (Json.toField (createTokenResult.get "signature")) (some "unknown"))
    else none

/-- Step 1 of `createTokenWithMetaplex` after the command has run: the mint address
and the signature, from the parsed output or else from the regular expressions;
the step throws when no tier gives an address. -/
def extractMint (h : Host) (createTokenOutput : String) :
    Except String (String × Option String) :=
  match parseCreateToken h createTokenOutput with
  | some found => .ok found
  | none =>
    match matchJsonAddress createTokenOutput with
    | some mintAddress =>
      .ok (mintAddress, some ((matchJsonSignature createTokenOutput).getD "unknown"))
    | none => .error "Failed to extract token mint address from command output"

/-- The inner `try` block over the output of `spl-token accounts`: the value
`accountsResult.accounts[0].address` (`some none` is `undefined`), or `none`
when the block throws. -/
def parseAccounts (h : Host) (accountsOutput : String) : Option (Option String) :=
  match h.jsonParse accountsOutput with
  | none => none
  | some .null => none
  | some accountsResult =>
    match accountsResult.get "accounts" with
    | some (.arr (first :: _)) =>
      (match first with
       | .null => none
       | account => some (Json.toField (account.get "address")))
    | some (.str text) => if text != "" then some none else none
    | some (.obj fields) =>
      (match (Json.obj fields).get "length", (Json.obj fields).get "0" with
       | some (.num n), some first =>
         if n > 0 then
           (match first with
            | .null => none
            | account => some (Json.toField (account.get "address")))
         else none
       | _, _ => none)
    | _ => none

/-- Step 2 of `createTokenWithMetaplex`: the token account, with the calls made.  No
error leaves this step: the last tier is the address of the wallet. -/
def createTokenAccount (h : Host) (w : CreateWorld) (mintAddress wallet : String) :
    List Event × Option String :=
  let createAccountCmd := "spl-token create-account " ++ mintAddress ++ " --output json"
  match w.execSync createAccountCmd with
  | .error _ => ([.execSync createAccountCmd], some wallet)
  | .ok createAccountOutput =>
    match h.jsonParse createAccountOutput with
    | none => ([.execSync createAccountCmd], some wallet)
    | some _ =>
      match matchJsonAddress createAccountOutput with
      | some account => ([.execSync createAccountCmd], some account)
      | none =>
        let accountsCmd := "spl-token accounts " ++ mintAddress ++ " --output json"
        match w.execSync accountsCmd with
        | .error _ => ([.execSync createAccountCmd, .execSync accountsCmd], some wallet)
        | .ok accountsOutput =>
          ([.execSync createAccountCmd, .execSync accountsCmd],
            match parseAccounts h accountsOutput with
            | some tokenAccount => tokenAccount
            | none => some ((matchJsonAddress accountsOutput).getD wallet))

/-- The value `mintSignature` of step 3, read from the output of `spl-token mint`. -/
def parseMintSignature (h : Host) (mintTokensOutput : String) : Option String :=
  match h.jsonParse mintTokensOutput with
  | none => none
  | some .null => none
  | some mintResult =>
    orElse (Json.toField (mintResult.get "signature"))
      (Json.toField ((mintResult.get "transactionData").bind fun t =>
        if Json.truthy (some t) then t.get "signature" else none))

/-- The truthy `url` of an ImgBB answer, if it has one. -/
def imgbbUrl (response : Option ImgbbData) : Option String :=
  match response with
  | some data => if truthy data.url then data.url else none
  | none => none

/-- The inner `try` block of step 4 that processes `tokenInfo.imagePath`: the calls
made and the new value of `finalImageUrl`. -/
def processImagePath (h : Host) (env : ProcessEnv) (w : CreateWorld) (imagePath : String)
    (finalImageUrl : Option String) : List Event × Option String :=
  if ¬ w.existsSync imagePath then ([], finalImageUrl) else
  if IMGBB_API_KEY env = "" then ([], some ("file://" ++ h.resolve imagePath)) else
  match w.readImage imagePath with
  | .error _ => ([.readFile imagePath], finalImageUrl)
  | .ok _ =>
    match w.postImage imagePath with
    | .error _ => ([.readFile imagePath, .uploadImageData imagePath], finalImageUrl)
    | .ok response =>
      ([.readFile imagePath, .uploadImageData imagePath],
        match imgbbUrl response with
        | some url => some url
        | none => finalImageUrl)

/-- Step 4 of `createTokenWithMetaplex`: the calls made, `finalImageUrl` and
`metadataUri` (`none` is `null`).  No error leaves this step. -/
def uploadMetadata (h : Host) (env : ProcessEnv) (w : CreateWorld) (tokenInfo : TokenInfo) :
    List Event × Option String × Option String :=
  let imageUrl := tokenInfo.imageUrl
  if ¬ (truthy imageUrl || truthy tokenInfo.imagePath) then ([], imageUrl, none) else
  let image : List Event × Option String :=
    if truthy tokenInfo.imagePath && ¬ truthy imageUrl then
      processImagePath h env w (tokenInfo.imagePath.getD "") imageUrl
    else ([], imageUrl)
  if IMGBB_API_KEY env = "" then (image.1, image.2, none) else
  match tokenInfo.symbol with
  | none => (image.1, image.2, none)
  | some tokenSymbol =>
    let name := h.toLowerCase tokenSymbol ++ "-metadata.json"
    match w.postMetadata name with
    | .error _ => (image.1 ++ [.uploadMetadataJson name], image.2, none)
    | .ok response => (image.1 ++ [.uploadMetadataJson name], image.2, imgbbUrl response)

/-- Step 5 of `createTokenWithMetaplex`: the calls made.  The `catch` clause of the
step only prints, so neither an error nor a value leaves it. -/
def createOnChainMetadata (w : CreateWorld) (tokenInfo : TokenInfo) (mintAddress : String)
    (metadataUri : Option String) : List Event :=
  match w.findMetadataPda mintAddress with
  | .error _ => []
  | .ok _ =>
    match w.sendAndConfirmTransaction mintAddress with
    | .error _ =>
      [.createMetadataAccount mintAddress tokenInfo.name tokenInfo.symbol
        ((orElse metadataUri (some "")).getD "")]
    | .ok _ =>
      [.createMetadataAccount mintAddress tokenInfo.name tokenInfo.symbol
        ((orElse metadataUri (some "")).getD "")]

/-- The object `tokenMetadata` that `createTokenWithMetaplex` writes, as the viewer
parses it back. -/
def tokenMetadata (env : ProcessEnv) (tokenInfo : TokenInfo) (mintAddress : String)
    (finalImageUrl metadataUri : Option String) : TokenRecord :=
  ⟨tokenInfo.name, tokenInfo.symbol, .undefined, none, none,
    orElse tokenInfo.description (some "A token created using the Solana Token Deployer"),
    none, .absent, some (EXPLORER_URL env ++ "/address/" ++ mintAddress), none, metadataUri,
    none,
    [("image", .str ((orElse finalImageUrl (some "")).getD "")),
     ("mintAddress", .str mintAddress)]⟩

/-- `DEFAULT_DECIMALS` of `config.js`. -/
def DEFAULT_DECIMALS : Nat := 9

/-- `DEFAULT_INITIAL_SUPPLY` of `config.js`. -/
def DEFAULT_INITIAL_SUPPLY : Nat := 1000000000

/-- The JavaScript expression `a || b` on a possibly-missing number and a number. -/
def orDefault (a : Option Nat) (b : Nat) : Nat :=
  match a with
  | some n => if n = 0 then b else n
  | none => b

/-- The `try` body of `createTokenWithMetaplex`. -/
def createTokenWithMetaplexBody (h : Host) (env : ProcessEnv) (w : CreateWorld)
    (tokenInfo : Option TokenInfo) (walletPath : Option String) : Run CreateResult :=
  match tokenInfo with
  | none => ([], .error "Cannot read properties of undefined (reading 'name')")
  | some tokenInfo =>
  let tokenDecimals := orDefault tokenInfo.decimals DEFAULT_DECIMALS
  let initialSupply := orDefault tokenInfo.initialSupply DEFAULT_INITIAL_SUPPLY
  attempt (if truthy walletPath then .ok (walletPath.getD "")
    else getWalletPath h env w.existsSync none) fun keyPath =>
  call (.readFile keyPath) (w.createKeypairFromFile keyPath) fun wallet =>
  let createTokenCmd :=
    "spl-token create-token --decimals " ++ showNat tokenDecimals ++ " --output json"
  call (.execSync createTokenCmd) (w.execSync createTokenCmd) fun createTokenOutput =>
  attempt (extractMint h createTokenOutput) fun (mintAddress, signature) =>
  let account := createTokenAccount h w mintAddress wallet
  let mintTokensCmd :=
    "spl-token mint " ++ mintAddress ++ " " ++ showNat initialSupply ++ " --output json"
  match w.execSync mintTokensCmd with
  | .error e => (account.1 ++ [.execSync mintTokensCmd], .error e)
  | .ok mintTokensOutput =>
  let mintSignature := parseMintSignature h mintTokensOutput
  let upload := uploadMetadata h env w tokenInfo
  let finalImageUrl := upload.2.1
  let metadataUri := upload.2.2
  let onChain := createOnChainMetadata w tokenInfo mintAddress metadataUri
  let before := account.1 ++ [.execSync mintTokensCmd] ++ upload.1 ++ onChain
  match tokenInfo.symbol with
  | none => (before, .error "Cannot read properties of undefined (reading 'toLowerCase')")
  | some tokenSymbol =>
  let outputFile := h.toLowerCase tokenSymbol ++ "-" ++ showNat w.now ++ ".json"
  let outputPath := h.join [h.TOKEN_OUTPUT_DIR, outputFile]
  let record := tokenMetadata env tokenInfo mintAddress finalImageUrl metadataUri
  match w.writeFileSync outputPath with
  | .error e => (before ++ [.writeFile outputPath record], .error e)
  | .ok _ =>
  let metadataPath := h.join [h.TOKEN_OUTPUT_DIR, h.toLowerCase tokenSymbol ++ "-metadata.json"]
  match w.writeFileSync metadataPath with
  | .error e =>
    (before ++ [.writeFile outputPath record, .writeFile metadataPath record], .error e)
  | .ok _ =>
  (before ++ [.writeFile outputPath record, .writeFile metadataPath record],
    .ok ⟨some true, none, some mintAddress, some mintAddress, account.2, none, signature,
      mintSignature, orElse metadataUri (some metadataPath),
      some (EXPLORER_URL env ++ "/address/" ++ mintAddress), false, false⟩)

/-- The function `createTokenWithMetaplex`: its `catch` clause turns every error of
the body into a failure object, so the promise it returns is never rejected. -/
def createTokenWithMetaplex (h : Host) (env : ProcessEnv) (w : CreateWorld)
    (tokenInfo : Option TokenInfo) (walletPath : Option String) : Run CreateResult :=
  match createTokenWithMetaplexBody h env w tokenInfo walletPath with
  | (trace, .ok result) => (trace, .ok result)
  | (trace, .error message) => (trace, .ok (CreateResult.failure message false))

/-- The function `createTokenViaCli`; an `error` is the error it rethrows. -/
def createTokenViaCli (h : Host) (env : ProcessEnv) (w : CreateWorld)
    (tokenInfo : Option TokenInfo) (walletKeyPath : String) : Run CreateResult :=
  let configCmd := "solana config set -k \"" ++ h.resolve walletKeyPath ++ "\""
  call (.execSync configCmd) (w.execSync configCmd) fun _ =>
  match tokenInfo with
  | none => ([], .error "Cannot read properties of undefined (reading 'decimals')")
  | some tokenInfo =>
  let createCmd := "spl-token create-token --decimals " ++
    (match tokenInfo.decimals with | some d => showNat d | none => "undefined")
  call (.execSync createCmd) (w.execSync createCmd) fun createOutput =>
  match matchFrom "Address:" (some 1) false createOutput.toList with
  | none => ([], .error "Failed to extract token mint address from command output")
  | some mintAddress =>
  let signature :=
    (matchFrom "Signature:" (some 1) false createOutput.toList).getD "UNKNOWN_SIGNATURE"
  let accountCmd := "spl-token create-account " ++ mintAddress
  call (.execSync accountCmd) (w.execSync accountCmd) fun accountOutput =>
  let tokenAccount :=
    (matchFrom "Creating account " none false accountOutput.toList).getD "UNKNOWN_ACCOUNT"
  let mintCmd := "spl-token mint " ++ mintAddress ++ " " ++
    (match tokenInfo.initialSupply with | some n => showNat n | none => "undefined")
  call (.execSync mintCmd) (w.execSync mintCmd) fun _ =>
  ([], .ok ⟨none, none, some mintAddress, some mintAddress, some tokenAccount, none,
    some signature, none, none, some (EXPLORER_URL env ++ "/address/" ++ mintAddress),
    false, true⟩)

/-- The function `createToken`.  Outside simulation mode the outer `catch` clause turns
an error into a failure object. -/
def createToken (h : Host) (env : ProcessEnv) (w : CreateWorld) (options : CreateOptions) :
    List Event × CreateResult :=
  if options.simulationMode then handleSimulationMode env w options else
  let body : Run CreateResult :=
    attempt (if truthy (orElse options.walletPath options.wallet) then
        .ok ((orElse options.walletPath options.wallet).getD "")
      else getWalletPath h env w.existsSync none) fun walletKeyPath =>
    if options.useMetaplex ||
        (match options.tokenInfo with | some info => info.useMetaplex | none => false) then
      createTokenWithMetaplex h env w options.tokenInfo (some walletKeyPath)
    else
      match createTokenWithMetaplex h env w options.tokenInfo (some walletKeyPath) with
      | (trace, .ok result) => (trace, .ok result)
      | (trace, .error _) =>
        ((trace ++ (createTokenViaCli h env w options.tokenInfo walletKeyPath).1),
          (createTokenViaCli h env w options.tokenInfo walletKeyPath).2)
  match body with
  | (trace, .ok result) => (trace, result)
  | (trace, .error message) => (trace, CreateResult.failure message false)

/-! ## `index.js`: the dispatcher -/

/-- The value `args[args.indexOf(name) + 1]` of an option that is present and
followed by a value. -/
def optionAfter (args : List String) (name : String) : Option String :=
  if args.contains name then args.get? (args.indexOf name + 1) else none

/-- `text.replace(/\s+/g, '-')`; `inRun` tells that the character before was white
space. -/
def replaceSpaces : Bool → List Char → List Char
  | _, [] => []
  | inRun, c :: rest =>
    if isJsSpace c then
      if inRun then replaceSpaces true rest else '-' :: replaceSpaces true rest
    else c :: replaceSpaces false rest

/-- Answers of the outside world to the calls of `index.js`, with the worlds of the
operations it runs.  `readConfig` is `JSON.parse(fs.readFileSync(configFile))`,
`none` for a falsy value; `getTokenInfo` is the object that the prompts give;
`getConfirmation` is the answer `proceed`; `mintOther` is the result of
`mintTokens` for an amount that is not the numeral of a natural number, which
the model of `mintTokens` does not cover; `runScript` is `execSync` of an update
script; `now` is `Date.now()` and `isoNow` the time value of `new Date()`. -/
structure MainWorld where
  view : ViewWorld
  mint : MintWorld
  upload : UploadWorld
  create : CreateWorld
  readConfig : String → Except String (Option TokenInfo)
  getTokenInfo : TokenInfo
  getConfirmation : Except String Bool
  mintOther : String → String → Option String → List Event × MintResult
  runScript : String → Except String Unit
  existsSync : String → Bool
  mkdirSync : String → Except String Unit
  writeFileSync : String → Except String Unit
  now : Nat
  isoNow : Int

/-- The function `handleListTokens`; what it prints is not recorded. -/
def handleListTokens (h : Host) (w : MainWorld) (args : List String) : List TokenRecord :=
  listTokens h w.view.readdir (args.contains "--verbose" || args.contains "-v")
    ((optionAfter args "--filter").getD "")

/-- The function `handleMintTokens`. -/
def handleMintTokens (h : Host) (env : ProcessEnv) (w : MainWorld) (args : List String) :
    List Event :=
  let mintIndex := indexAfter args "mint"
  let usage := Event.consoleLog
    "Usage: solana-token mint <TOKEN_MINT_ADDRESS> <AMOUNT> [--wallet <WALLET_PATH>]"
  match args.get? mintIndex with
  | none => [.consoleError "❌ Please provide a token mint address.", usage]
  | some tokenMint =>
  match args.get? (mintIndex + 1) with
  | none => [.consoleError "❌ Please provide an amount to mint.", usage]
  | some amount =>
  let walletPath := optionAfter args "--wallet"
  let run := match parseDigits amount with
    | some n => mintTokens h env w.mint tokenMint n walletPath
    | none => w.mintOther tokenMint amount walletPath
  if run.2.success then
    run.1 ++ [.consoleLog "🎉 Token minting completed successfully!"]
  else
    run.1 ++ [.consoleError "❌ Failed to mint tokens."] ++
      (if truthy run.2.error then [.consoleError (run.2.error.getD "")] else [])

/-- The function `handleImageUpload`. -/
def handleImageUpload (h : Host) (env : ProcessEnv) (w : MainWorld) (args : List String) :
    List Event :=
  match args.get? (indexAfter args "upload-image") with
  | none =>
    [.consoleError "❌ Please provide a path to the image file.",
     .consoleLog "Usage: solana-token upload-image <IMAGE_PATH>"]
  | some imagePath =>
  let run := uploadImage h env w.upload imagePath
  if run.2.success then
    let saved : Run Unit :=
      attempt (if w.existsSync "./image-uploads" then .ok ()
        else w.mkdirSync "./image-uploads") fun _ =>
      call (.writeUploadRecord imagePath (run.2.url.getD "")) (w.writeFileSync imagePath)
        fun _ => ([], .ok ())
    match saved with
    | (trace, .ok _) =>
      run.1 ++ [.consoleLog "✅ Image uploaded successfully!"] ++ trace
    | (trace, .error e) =>
      run.1 ++ [.consoleLog "✅ Image uploaded successfully!"] ++ trace ++
        [.consoleError "❌ Error encountered while uploading image:", .consoleError e]
  else
    run.1 ++ [.consoleError "❌ Failed to upload image."] ++
      (if truthy run.2.error then [.consoleError (run.2.error.getD "")] else [])

/-- The functions `handleUpdateTokenUri`, `handleUpdateTokenName` and
`handleUpdateTokenSymbol`, which differ in the command word, the script and the
messages. -/
def handleUpdateToken (h : Host) (w : MainWorld) (command script what : String)
    (args : List String) : List Event :=
  let filteredArgs := args.filter fun arg => arg != command
  match filteredArgs with
  | mintAddress :: newValue :: more =>
    let cmd := "node " ++ h.join [".", "src", script] ++ " " ++ mintAddress ++ " \"" ++
      " ".intercalate (newValue :: more) ++ "\""
    match w.runScript cmd with
    | .ok _ => [.execSync cmd]
    | .error e =>
      [.execSync cmd, .consoleError ("❌ Error updating token " ++ what ++ ":"), .consoleError e]
  | _ => [.consoleLog ("Usage: solana-token " ++ command ++ " <token_mint_address> <new_value>")]

/-- The object `outputData` that `main` writes, as the viewer parses it back. -/
def outputData (w : MainWorld) (tokenInfo : TokenInfo) (result : CreateResult)
    (mint explorerUrl : Option String) : TokenRecord :=
  ⟨tokenInfo.name, tokenInfo.symbol,
    (if truthy mint then .str (mint.getD "") else .null),
    tokenInfo.decimals, tokenInfo.initialSupply, tokenInfo.description, tokenInfo.imageUrl,
    .valid w.isoNow, explorerUrl,
    orElse result.metadataAddress none,
    some ((orElse result.metadataUri (some "")).getD ""),
    orElse result.signature none,
    (match tokenInfo.imagePath with | some path => [("imagePath", .str path)] | none => []) ++
    (if tokenInfo.useMetaplex then [("useMetaplex", .bool true)] else [])⟩

/-- The token-creation flow of `main`, from the line that reads `--simulate` on. -/
def createFlow (h : Host) (env : ProcessEnv) (w : MainWorld) (args : List String) : Run Unit :=
  let simulationMode := args.contains "--simulate" || args.contains "-s"
  let configured : Option TokenInfo :=
    match optionAfter args "--config" with
    | some configFile =>
      (match w.readConfig configFile with
       | .ok info => info
       | .error _ => none)
    | none => none
  let afterInfo (prompted : List Event) (tokenInfo : TokenInfo) : Run Unit :=
    let confirmed : Run Bool :=
      if ¬ args.contains "--yes" && ¬ args.contains "-y" then
        call .confirm w.getConfirmation fun proceed => ([], .ok proceed)
      else ([], .ok true)
    match confirmed with
    | (trace, .error e) => (prompted ++ trace, .error e)
    | (trace, .ok false) =>
      (prompted ++ trace ++ [.consoleLog "Token creation cancelled."], .ok ())
    | (trace, .ok true) =>
    let options : CreateOptions :=
      ⟨some tokenInfo, env.WALLET_PATH, none, simulationMode, true⟩
    let created := createToken h env w.create options
    let result := created.2
    let mint := orElse result.mintAddress result.mint
    let reported := prompted ++ trace ++ created.1 ++
      [.consoleLog "✅ Token created successfully!",
       .consoleLog ("📌 Mint Address: " ++ (orElse mint (some "Not available")).getD "")]
    if ¬ truthy result.explorerUrl && truthy mint then
      (reported, .error "EXPLORER_URL is not defined")
    else
    match (if w.existsSync "./token-outputs" then Except.ok ()
      else w.mkdirSync "./token-outputs") with
    | .error e => (reported, .error e)
    | .ok _ =>
    match tokenInfo.symbol with
    | none => (reported, .error "Cannot read properties of undefined (reading 'toLowerCase')")
    | some symbol =>
    let outputFile := h.join ["./token-outputs",
      String.mk (replaceSpaces false (h.toLowerCase symbol).toList) ++ "-" ++ showNat w.now ++
        ".json"]
    let record := outputData w tokenInfo result mint (orElse result.explorerUrl none)
    match w.writeFileSync outputFile with
    | .error e => (reported ++ [.writeFile outputFile record], .error e)
    | .ok _ =>
      (reported ++ [.writeFile outputFile record,
        .consoleLog ("💾 Token details saved to: " ++ outputFile),
        .consoleLog "🎉 All operations completed successfully!"], .ok ())
  match configured with
  | some tokenInfo => afterInfo [] tokenInfo
  | none =>
    if ¬ truthy w.getTokenInfo.name then
      ([.prompts, .consoleLog "Token creation cancelled."], .ok ())
    else afterInfo [.prompts] w.getTokenInfo

/-- The `try` body of `main`: the first command word found, in the order of the
tests, decides what runs. -/
def mainBody (h : Host) (env : ProcessEnv) (w : MainWorld) (args : List String) : Run Unit :=
  if args.contains "--help" || args.contains "-h" then
    ([.consoleLog "Solana Token Deployer CLI - Help"], .ok ())
  else if args.contains "view" then
    match handleViewToken h env w.view args with
    | (trace, .ok _) => (trace, .ok ())
    | (trace, .error e) => (trace, .error e)
  else if args.contains "list" then ([], .ok ())
  else if args.contains "mint" then (handleMintTokens h env w args, .ok ())
  else if args.contains "upload-image" then (handleImageUpload h env w args, .ok ())
  else if args.contains "update-uri" then
    (handleUpdateToken h w "update-uri" "update-token-uri.js" "URI" args, .ok ())
  else if args.contains "update-name" then
    (handleUpdateToken h w "update-name" "update-token-name.js" "name" args, .ok ())
  else if args.contains "update-symbol" then
    (handleUpdateToken h w "update-symbol" "update-token-symbol.js" "symbol" args, .ok ())
  else createFlow h env w args

/-- The function `main`, with the exit status that `process.exit` sets: `none` when
`main` returns and the process ends on its own, with status 0. -/
def main (h : Host) (env : ProcessEnv) (w : MainWorld) (args : List String) :
    List Event × Option Nat :=
  match mainBody h env w args with
  | (trace, .ok _) => (trace, none)
  | (trace, .error message) =>
    (trace ++ [.consoleError "❌ Error encountered:", .consoleError message, .exit 1], some 1)

/-! ## Comparing the two updaters -/

/-- The event of `updateTokenSymbol` that corresponds to an event of
`updateTokenName`: in an update instruction the value given as `name` is given
as `symbol` instead; every other event is the same. -/
def Event.nameAsSymbol : Event → Event
  | .updateMetadataAccountV2 metadata updateAuthority name _ isMutable =>
    .updateMetadataAccountV2 metadata updateAuthority none name isMutable
  | ev => ev

/-- The update instructions submitted in a trace. -/
def updateInstructions (trace : List Event) : List UpdateArgs :=
  trace.filterMap fun ev =>
    match ev with
    | .updateMetadataAccountV2 metadata updateAuthority name symbol isMutable =>
      some ⟨metadata, updateAuthority, name, symbol, isMutable⟩
    | _ => none

/-! ## The commands of `main` -/

/-- The commands that `main` can run; `create` is the token-creation flow. -/
inductive Command where
  | help
  | view
  | list
  | mint
  | uploadImage
  | updateUri
  | updateName
  | updateSymbol
  | create
deriving DecidableEq, Repr

/-- The words of the argument list that select a command. -/
def Command.words : Command → List String
  | .help => ["--help", "-h"]
  | .view => ["view"]
  | .list => ["list"]
  | .mint => ["mint"]
  | .uploadImage => ["upload-image"]
  | .updateUri => ["update-uri"]
  | .updateName => ["update-name"]
  | .updateSymbol => ["update-symbol"]
  | .create => []

/-- The commands that have a command word, in the order in which the claim lists
them. -/
def commandOrder : List Command :=
  [.help, .view, .list, .mint, .uploadImage, .updateUri, .updateName, .updateSymbol]

/-- Whether the argument list holds a word of the command. -/
def Command.named (c : Command) (args : List String) : Bool :=
  c.words.any fun word => args.contains word

/-- The command of a run as the specification describes it: the first command of
`commandOrder` that the arguments name, and token creation when they name
none. -/
def selectedCommand (args : List String) : Command :=
  (commandOrder.find? fun c => c.named args).getD .create

/-- What the handler of a command does, as `main` calls it. -/
def runCommand (h : Host) (env : ProcessEnv) (w : MainWorld) (args : List String) :
    Command → Run Unit
  | .help => ([.consoleLog "Solana Token Deployer CLI - Help"], .ok ())
  | .view =>
    match handleViewToken h env w.view args with
    | (trace, .ok _) => (trace, .ok ())
    | (trace, .error e) => (trace, .error e)
  | .list => ([], .ok ())
  | .mint => (handleMintTokens h env w args, .ok ())
  | .uploadImage => (handleImageUpload h env w args, .ok ())
  | .updateUri => (handleUpdateToken h w "update-uri" "update-token-uri.js" "URI" args, .ok ())
  | .updateName =>
    (handleUpdateToken h w "update-name" "update-token-name.js" "name" args, .ok ())
  | .updateSymbol =>
    (handleUpdateToken h w "update-symbol" "update-token-symbol.js" "symbol" args, .ok ())
  | .create => createFlow h env w args

/-! ## Explorer links -/

/-- The part of a URL before its query: the text before the first `?`. -/
def beforeQuery (url : String) : String :=
  ⟨url.toList.takeWhile fun c => c != '?'⟩

/-! ## The keys of the object that `getTokenDetails` returns -/

/-- A value of a key of a record or of the details object: a primitive value, the
amount that the chain reports (`none` is `null`), or a creation time. -/
inductive FieldValue where
  | value (v : JsValue)
  | amount (q : Option ℚ)
  | date (c : CreatedAt)
deriving DecidableEq, Repr

/-- The value of an own key of a parsed record, as far as the model keeps it: `none`
when the record has no such key.  A key without a field of its own is looked up
in `extra`, where the last value of a repeated key counts. -/
def TokenRecord.field (r : TokenRecord) (key : String) : Option FieldValue :=
  if key = "name" then r.name.map fun s => .value (.str s)
  else if key = "symbol" then r.symbol.map fun s => .value (.str s)
  else if key = "mint" then (if r.mint = .undefined then none else some (.value r.mint))
  else if key = "decimals" then r.decimals.map fun d => .value (.num d)
  else if key = "initialSupply" then r.initialSupply.map fun n => .value (.num n)
  else if key = "description" then r.description.map fun s => .value (.str s)
  else if key = "imageUrl" then r.imageUrl.map fun s => .value (.str s)
  else if key = "createdAt" then
    (if r.createdAt = .absent then none else some (.date r.createdAt))
  else if key = "explorerUrl" then r.explorerUrl.map fun s => .value (.str s)
  else if key = "metadataAddress" then r.metadataAddress.map fun s => .value (.str s)
  else if key = "metadataUri" then r.metadataUri.map fun s => .value (.str s)
  else if key = "transaction" then r.transaction.map fun s => .value (.str s)
  else (r.extra.reverse.find? fun field => field.1 == key).map fun field => .value field.2

/-- The value of a key of the object literal that `getTokenDetails` returns,
`{ mint, supply, decimals, ...localTokenInfo, isSimulated, explorerUrl }`: a key
written later replaces the same key written before, so `explorerUrl` and a
written `isSimulated` come first, then the keys of the local record, then
`mint`, `supply` and `decimals`. -/
def TokenDetails.field (d : TokenDetails) (key : String) : Option FieldValue :=
  if key = "explorerUrl" then some (.value (.str d.explorerUrl)) else
  match (if key = "isSimulated" then d.isSimulated else none) with
  | some b => some (.value (.bool b))
  | none =>
    match d.localTokenInfo.bind fun r => r.field key with
    | some v => some v
    | none =>
      if key = "mint" then some (.value d.mint)
      else if key = "supply" then some (.amount d.supply)
      else if key = "decimals" then some (.value (.num d.decimals))
      else none

/-! ## The records that a listing should hold -/

/-- Whether a record passes a non-empty filter: its name is a string and either the
name contains the filter or its symbol is a string that contains it, without
regard to case. -/
def matchesFilter (h : Host) (filter : String) (r : TokenRecord) : Bool :=
  match r.name with
  | none => false
  | some name =>
    includes (h.toLowerCase name) (h.toLowerCase filter) ||
      (match r.symbol with
       | some symbol => includes (h.toLowerCase symbol) (h.toLowerCase filter)
       | none => false)

/-- The records that the listing should hold, in directory order: the record of every
`.json` file that parses to a record, all of them under the empty filter and
those that pass the filter otherwise. -/
def listedRecords (h : Host) (filter : String) (entries : List DirEntry) :
    List TokenRecord :=
  (entries.filter fun file => endsWith file.name ".json").filterMap fun file =>
    match file.content with
    | .record r => if filter = "" ∨ matchesFilter h filter r = true then some r else none
    | _ => none

/-! ## Failure objects -/

/-- The object `{ success: false, error }` that the `catch` clause of `mintTokens`
returns. -/
def MintResult.failure (message : String) : MintResult :=
  ⟨false, some message, none, none, none⟩

/-- The object `{ success: false, error }` that the `catch` clause of `uploadImage`
returns. -/
def UploadResult.failure (message : String) : UploadResult :=
  ⟨false, none, none, none, some message⟩

/-- The object `{ success: false, error }` that the `catch` clause of an updater
returns. -/
def UpdateResult.failure (message : String) : UpdateResult :=
  ⟨false, some message, none, none, none⟩

/-- The order of the listing: both records have a creation time, a record without
`createdAt` counting as time 0, and the one of `a` is greater than or equal to
the one of `b`. -/
def newerOrEqual (a b : TokenRecord) : Prop :=
  ∃ x y, dateOf a = some x ∧ dateOf b = some y ∧ y ≤ x

/-! ## Sample worlds -/

/-- A record with the given name, symbol and creation time and no other field. -/
def sampleRecord (name symbol : String) (createdAt : CreatedAt) : TokenRecord :=
  ⟨some name, some symbol, .undefined, none, none, none, none, createdAt, none, none, none, none,
    []⟩

/-- A directory with three records, one unreadable file and one file that is not a
record file. -/
def sampleDir : List DirEntry :=
  [⟨"gold-1.json", .record (sampleRecord "Gold Coin" "GLD" (.valid 1000))⟩,
   ⟨"silver-2.json", .record (sampleRecord "Silver" "SLV" (.valid 3000))⟩,
   ⟨"broken.json", .unreadable⟩,
   ⟨"notes.txt", .unreadable⟩,
   ⟨"old-3.json", .record (sampleRecord "Old Gold" "OLD" .absent)⟩]


/-- A world in which every call of `mintTokens` succeeds: the wallet in the file has
public key `walletKey`, and the mint account is a parsed mint with the given
decimals and mint authority. -/
def sampleMintWorld (walletKey : String) (decimals : Nat) (authority : Option String) :
    MintWorld where
  existsSync := fun _ => true
  readKeypairFile := fun _ => .ok [1, 2, 3]
  createKeypairFromSecretKey := fun _ => .ok walletKey
  newPublicKey := fun s => .ok s
  getParsedAccountInfo := fun _ => .ok ⟨some ⟨some (.parsed ⟨decimals, authority⟩)⟩⟩
  getAssociatedTokenAddress := fun mint owner => .ok (mint ++ "/" ++ owner)
  createMintToInstruction := fun _ _ _ _ => .ok ()
  getLatestBlockhash := .ok "blockhash"
  sign := fun _ => .ok ()
  sendRawTransaction := fun _ => .ok "sig"
  confirmTransaction := fun _ => .ok ()

/-- A small host, used to evaluate the model on concrete inputs: ASCII lower-casing,
`.png` as the only extension, of type `image/png`, and a JSON parser that knows
three outputs of the `spl-token` tool. -/
def sampleHost : Host where
  toLowerCase := fun s => ⟨s.toList.map Char.toLower⟩
  extname := fun p => if endsWith p ".png" then ".png" else ""
  resolve := id
  join := fun parts => "/".intercalate parts
  mimeLookup := fun ext => if ext = ".png" then some "image/png" else none
  jsonParse := fun text =>
    if text = "\x7b\"address\":\"Mint111\",\"signature\":\"Sig111\"\x7d" then
      some (.obj [("address", .str "Mint111"), ("signature", .str "Sig111")])
    else if text = "\x7b\"signature\":\"Sig222\"\x7d" then
      some (.obj [("signature", .str "Sig222")])
    else if text = "\x7b\"address\":\"Acct111\"\x7d" then
      some (.obj [("address", .str "Acct111")])
    else none
  TOKEN_OUTPUT_DIR := "/app/token-outputs"

/-- An environment with the given image-host API keys and no other variable. -/
def keysEnv (imgbbKey nftStorageKey : Option String) : ProcessEnv :=
  ⟨none, none, imgbbKey, nftStorageKey, none, none, none⟩

/-- A world for `uploadImage` in which every path holds a file of `size` bytes and
the two providers give the stated answers. -/
def sampleUploadWorld (size : Nat) (imgbb : Except String (Option ImgbbData))
    (nftStorage : Except String (Option NftData)) : UploadWorld where
  stat := fun _ => .file size
  postImgBB := fun _ => imgbb
  postNFTStorage := fun _ _ => nftStorage

/-- A world for the viewer over the given directory, in which every address is a
valid public key and the chain reports a supply of 5 with 9 decimals. -/
def sampleViewWorld (entries : List DirEntry) : ViewWorld where
  readdir := .ok entries
  newPublicKey := fun mint => .ok mint.toText
  getTokenSupply := fun _ => .ok ⟨some 5, 9⟩

/-- A record with the given name, mint address and creation time. -/
def mintedRecord (name mint : String) (createdAt : CreatedAt) : TokenRecord :=
  ⟨some name, some name, .str mint, none, none, none, none, createdAt, none, none, none, none,
    []⟩

/-- A world for the metadata updaters in which every call succeeds. -/
def sampleUpdateWorld : UpdateWorld where
  existsSync := fun _ => true
  newPublicKey := fun s => .ok s
  readKeypairFile := fun _ => .ok [1, 2, 3]
  createKeypairFromSecretKey := fun _ => .ok "W"
  findMetadataPda := fun mint => .ok ("meta/" ++ mint)
  sendAndConfirm := fun _ => .ok "sig"

/-- The output of `spl-token create-token` in the simple JSON format. -/
def sampleCreateOutput : String :=
  "\x7b\"address\":\"Mint111\",\"signature\":\"Sig111\"\x7d"

/-- A world for token creation: `create-token` answers `createOutput`, `mint` a JSON
object with a signature, `create-account` one with an address, every other
command fails; the wallet has public key
`W`; the metadata transaction answers `metadata`; files are written; every
random byte is 0. -/
def sampleCreateWorld (createOutput : Except String String)
    (metadata : Except String String) : CreateWorld where
  existsSync := fun _ => true
  createKeypairFromFile := fun _ => .ok "W"
  execSync := fun cmd =>
    if startsWith cmd "spl-token create-token" then createOutput
    else if startsWith cmd "spl-token mint" then .ok "\x7b\"signature\":\"Sig222\"\x7d"
    else if startsWith cmd "spl-token create-account" then
      .ok "\x7b\"address\":\"Acct111\"\x7d"
    else .error "command failed"
  readImage := fun _ => .ok ()
  postImage := fun _ => .error "down"
  postMetadata := fun _ => .error "down"
  findMetadataPda := fun mint => .ok ("meta/" ++ mint)
  sendAndConfirmTransaction := fun _ => metadata
  writeFileSync := fun _ => .ok ()
  random := fun _ => 0
  now := 1700000000000

/-- A token description with a name, a symbol, 6 decimals and a supply of 1000. -/
def sampleTokenInfo : TokenInfo :=
  ⟨some "Gold", some "GLD", some 6, some 1000, none, none, none, false⟩

/-- A world for the dispatcher: the configuration file holds `sampleTokenInfo`, the
operator confirms, and the operations run in the given worlds. -/
def sampleMainWorld (view : ViewWorld) (mint : MintWorld) (create : CreateWorld) :
    MainWorld where
  view := view
  mint := mint
  upload := sampleUploadWorld 100 (.error "down") (.error "down")
  create := create
  readConfig := fun _ => .ok (some sampleTokenInfo)
  getTokenInfo := sampleTokenInfo
  getConfirmation := .ok true
  mintOther := fun _ _ _ => ([], ⟨false, some "not a number", none, none, none⟩)
  runScript := fun _ => .error "Command failed"
  existsSync := fun _ => true
  mkdirSync := fun _ => .ok ()
  writeFileSync := fun _ => .ok ()
  now := 1700000000001
  isoNow := 1700000000001

/-- A world for the viewer over the given directory in which no value is accepted as
a public key. -/
def invalidKeyViewWorld (entries : List DirEntry) : ViewWorld where
  readdir := .ok entries
  newPublicKey := fun _ => .error "Invalid public key input"
  getTokenSupply := fun _ => .ok ⟨some 5, 9⟩

/-- A world for token creation in which the `create-token` command fails. -/
def failingCreateWorld : CreateWorld :=
  sampleCreateWorld (.error "spl-token: not found") (.ok "s")

/-- The output of `spl-token create-token` in the nested JSON format. -/
def nestedCreateOutput : String :=
  "\x7b\"commandOutput\":\x7b\"address\":\"Mint333\",\"transactionData\":" ++
    "\x7b\"signature\":\"Sig333\"\x7d\x7d\x7d"

/-- The sample host with a JSON parser that also knows `nestedCreateOutput`. -/
def nestedHost : Host where
  toLowerCase := sampleHost.toLowerCase
  extname := sampleHost.extname
  resolve := sampleHost.resolve
  join := sampleHost.join
  mimeLookup := sampleHost.mimeLookup
  jsonParse := fun text =>
    if text = nestedCreateOutput then
      some (.obj [("commandOutput", .obj [("address", .str "Mint333"),
        ("transactionData", .obj [("signature", .str "Sig333")])])])
    else sampleHost.jsonParse text
  TOKEN_OUTPUT_DIR := sampleHost.TOKEN_OUTPUT_DIR

/-- A world for token creation like `sampleCreateWorld`, in which the
`create-account` command prints a text that is not JSON and holds no address. -/
def plainAccountCreateWorld : CreateWorld where
  existsSync := fun _ => true
  createKeypairFromFile := fun _ => .ok "W"
  execSync := fun cmd =>
    if startsWith cmd "spl-token create-token" then .ok sampleCreateOutput
    else if startsWith cmd "spl-token mint" then .ok "\x7b\"signature\":\"Sig222\"\x7d"
    else if startsWith cmd "spl-token create-account" then .ok "Creating account"
    else .error "command failed"
  readImage := fun _ => .ok ()
  postImage := fun _ => .error "down"
  postMetadata := fun _ => .error "down"
  findMetadataPda := fun mint => .ok ("meta/" ++ mint)
  sendAndConfirmTransaction := fun _ => .ok "MetaSig"
  writeFileSync := fun _ => .ok ()
  random := fun _ => 0
  now := 1700000000000

/-- A record of the mint `M` with 6 decimals, an explorer link of its own and a key
`supply`. -/
def localGoldRecord : TokenRecord :=
  ⟨some "Gold", some "GLD", .str "M", some 6, some 1000, none, none, .valid 1000,
    some "https://example.org/M", none, none, none, [("supply", .num 77)]⟩

/-- An environment in which only `WALLET_PATH` is set. -/
def walletEnv : ProcessEnv := ⟨none, none, none, none, some "w.json", none, none⟩

/-- An environment with no variable set. -/
def emptyEnv : ProcessEnv := ⟨none, none, none, none, none, none, none⟩

/-! ## Theorems about `mintTokens` -/

@[simp] theorem call_ok {α β : Type} (ev : Event) (a : α) (k : α → Run β) :
    call ev (.ok a) k = (ev :: (k a).1, (k a).2) := rfl

@[simp] theorem call_error {α β : Type} (ev : Event) (e : String) (k : α → Run β) :
    call ev (.error e) k = ([ev], .error e) := rfl

@[simp] theorem attempt_ok {α β : Type} (a : α) (k : α → Run β) :
    attempt (.ok a) k = k a := rfl

@[simp] theorem attempt_error {α β : Type} (e : String) (k : α → Run β) :
    attempt (.error e) k = ([], .error e) := rfl

/-- C1: when the wallet loads, the mint account is fetched in parsed form and its
recorded mint authority differs from the wallet's public key, `mintTokens` returns
`success = false` with the authority-mismatch error, and no transaction is
submitted: `sendRawTransaction` does not occur among the calls made. -/
theorem mintTokens_authority_mismatch (h : Host) (env : ProcessEnv) (w : MintWorld)
    (tokenMint : String) (amount : Nat) (walletPath : Option String)
    (walletKeyPath : String) (raw : List Nat) (publicKey mintKey : String)
    (info : ParsedMintInfo)
    (hpath : getWalletPath h env w.existsSync walletPath = .ok walletKeyPath)
    (hread : w.readKeypairFile walletKeyPath = .ok raw)
    (hkey : w.createKeypairFromSecretKey raw = .ok publicKey)
    (hmint : w.newPublicKey tokenMint = .ok mintKey)
    (hrpc : w.getParsedAccountInfo mintKey = .ok ⟨some ⟨some (.parsed info)⟩⟩)
    (hne : info.mintAuthority ≠ some publicKey) :
    (mintTokens h env w tokenMint amount walletPath).2.success = false ∧
    (mintTokens h env w tokenMint amount walletPath).2.error = some authorityMismatchError ∧
    ∀ tx, Event.sendRawTransaction tx ∉ (mintTokens h env w tokenMint amount walletPath).1 := by
  simp [mintTokens, mintTokensBody, hpath, hread, hkey, hmint, hrpc, hne, Except.mapError]

/-- Witness of C1: wallet `W` against a mint whose authority is `X`. -/
theorem mintTokens_authority_mismatch_witness :
    (mintTokens sampleHost emptyEnv (sampleMintWorld "W" 9 (some "X")) "M" 5
        (some "w.json")).2.success = false ∧
    (mintTokens sampleHost emptyEnv (sampleMintWorld "W" 9 (some "X")) "M" 5
        (some "w.json")).2.error = some authorityMismatchError ∧
    ∀ tx, Event.sendRawTransaction tx ∉
      (mintTokens sampleHost emptyEnv (sampleMintWorld "W" 9 (some "X")) "M" 5
        (some "w.json")).1 :=
  mintTokens_authority_mismatch sampleHost emptyEnv (sampleMintWorld "W" 9 (some "X")) "M" 5
    (some "w.json") "w.json" [1, 2, 3] "W" "M" ⟨9, some "X"⟩ rfl rfl rfl rfl rfl (by decide)

/-- C3: when the mint account fetched for the given address has no value, no data,
or data that is not in parsed form, `mintTokens` returns `success = false` with an
error message, and neither builds the mint instruction nor submits a transaction. -/
theorem mintTokens_unparsable_fails (h : Host) (env : ProcessEnv) (w : MintWorld)
    (tokenMint : String) (amount : Nat) (walletPath : Option String)
    (mintKey : String) (resp : ParsedAccountResponse)
    (hmint : w.newPublicKey tokenMint = .ok mintKey)
    (hrpc : w.getParsedAccountInfo mintKey = .ok resp)
    (hbad : resp.value = none ∨ (∃ v, resp.value = some v ∧ v.data = none) ∨
      (∃ v, resp.value = some v ∧ v.data = some .raw)) :
    (mintTokens h env w tokenMint amount walletPath).2.success = false ∧
    (mintTokens h env w tokenMint amount walletPath).2.error.isSome = true ∧
    ∀ ev ∈ (mintTokens h env w tokenMint amount walletPath).1, ev.buildsOrSubmits = false := by
  cases hp : getWalletPath h env w.existsSync walletPath with
  | error e => simp [mintTokens, mintTokensBody, hp]
  | ok walletKeyPath =>
    cases hr : w.readKeypairFile walletKeyPath with
    | error e => simp [mintTokens, mintTokensBody, hp, hr, Except.mapError, Event.buildsOrSubmits]
    | ok raw =>
      cases hk : w.createKeypairFromSecretKey raw with
      | error e =>
        simp [mintTokens, mintTokensBody, hp, hr, hk, Except.mapError, Event.buildsOrSubmits]
      | ok publicKey =>
        rcases hbad with hv | ⟨v, hv, hd⟩ | ⟨v, hv, hd⟩
        · simp [mintTokens, mintTokensBody, hp, hr, hk, Except.mapError, Event.buildsOrSubmits,
            hmint, hrpc, hv]
        · simp [mintTokens, mintTokensBody, hp, hr, hk, Except.mapError, Event.buildsOrSubmits,
            hmint, hrpc, hv, hd]
        · simp [mintTokens, mintTokensBody, hp, hr, hk, Except.mapError, Event.buildsOrSubmits,
            hmint, hrpc, hv, hd]

/-- Witness of C3: the RPC node answers with an account whose data is a raw buffer. -/
theorem mintTokens_unparsable_fails_witness :
    (mintTokens sampleHost emptyEnv
      { sampleMintWorld "W" 9 none with getParsedAccountInfo := fun _ => .ok ⟨some ⟨some .raw⟩⟩ }
      "M" 5 (some "w.json")).2.success = false ∧
    (mintTokens sampleHost emptyEnv
      { sampleMintWorld "W" 9 none with getParsedAccountInfo := fun _ => .ok ⟨some ⟨some .raw⟩⟩ }
      "M" 5 (some "w.json")).2.error.isSome = true ∧
    ∀ ev ∈ (mintTokens sampleHost emptyEnv
      { sampleMintWorld "W" 9 none with getParsedAccountInfo := fun _ => .ok ⟨some ⟨some .raw⟩⟩ }
      "M" 5 (some "w.json")).1, ev.buildsOrSubmits = false :=
  mintTokens_unparsable_fails sampleHost emptyEnv
    { sampleMintWorld "W" 9 none with getParsedAccountInfo := fun _ => .ok ⟨some ⟨some .raw⟩⟩ }
    "M" 5 (some "w.json") "M" ⟨some ⟨some .raw⟩⟩ rfl rfl (Or.inr (Or.inr ⟨⟨some .raw⟩, rfl, rfl⟩))

/-- A number below `2 ^ k` has at most `k` binary digits. -/
theorem bitLength_le : ∀ (fuel n k : Nat), n < 2 ^ k → bitLength fuel n ≤ k
  | 0, _, _, _ => Nat.zero_le _
  | fuel + 1, n, k, hlt => by
    unfold bitLength
    split_ifs with hn
    · exact Nat.zero_le _
    · cases k with
      | zero => simp at hlt; exact absurd hlt hn
      | succ k =>
        have hhalf : n / 2 < 2 ^ k := by
          rw [Nat.div_lt_iff_lt_mul (by decide)]
          rw [Nat.pow_succ] at hlt
          exact hlt
        exact Nat.succ_le_succ (bitLength_le fuel (n / 2) k hhalf)

/-- A natural number below `2 ^ 53` is a binary64 value. -/
theorem toJsNum_exact (n : Nat) (hlt : n < 2 ^ 53) : toJsNum n = .fin n := by
  have hbits : bitLength n n ≤ 53 := bitLength_le n n 53 hlt
  have hround : roundDouble n = n := by simp [roundDouble, hbits]
  have hfin : bitLength n n ≤ 1024 := le_trans hbits (by decide)
  simp [toJsNum, hround, hfin]

/-- Where the floating-point product is exact: for a positive amount whose base-unit
value is below `2 ^ 53`, `amountToMint` is `amount × 10^decimals`. -/
theorem amountToMint_exact (amount decimals : Nat) (hpos : 0 < amount)
    (hlt : amount * 10 ^ decimals < 2 ^ 53) :
    amountToMint amount decimals = .fin (amount * 10 ^ decimals) := by
  have hpow : 0 < 10 ^ decimals := pow_pos (by decide) _
  have ha : amount < 2 ^ 53 := lt_of_le_of_lt (Nat.le_mul_of_pos_right _ hpow) hlt
  have hd : 10 ^ decimals < 2 ^ 53 := lt_of_le_of_lt (Nat.le_mul_of_pos_left _ hpos) hlt
  simp [amountToMint, toJsNum_exact _ ha, toJsNum_exact _ hd, JsNum.mul, toJsNum_exact _ hlt]

/-- Evaluation for C2: minting 10000000001 tokens of a 9-decimals mint, by a wallet
that is the mint authority, submits a mint instruction of 10000000000999999488
base units, which is not 10000000001 × 10^9 = 10000000001000000000. -/
theorem mintTokens_baseUnits_inexact :
    amountToMint 10000000001 9 = .fin 10000000000999999488 ∧
    mintTokens sampleHost emptyEnv (sampleMintWorld "W" 9 (some "W")) "M" 10000000001
        (some "w.json") =
      ([.readFile "w.json", .getParsedAccountInfo "M",
        .createMintToInstruction "M" "M/W" "W" 10000000000999999488,
        .getLatestBlockhash,
        .sendRawTransaction ⟨"M", "M/W", "W", 10000000000999999488, "blockhash", "W"⟩,
        .confirmTransaction "sig"],
       ⟨true, none, none, some "sig",
        some "https://explorer.solana.com/?cluster=devnet/tx/sig"⟩) ∧
    (10000000000999999488 : Nat) ≠ 10000000001 * 10 ^ 9 := by
  decide

/-! ## Theorems about `uploadImage` -/

/-- The size check of `uploadImage` rejects exactly the files of more than
`10 * 1024 * 1024` bytes. -/
theorem fileSizeMB_gt_ten_iff (size : Nat) :
    fileSizeMB size > 10 ↔ size > 10 * 1024 * 1024 := by
  unfold fileSizeMB
  rw [gt_iff_lt, lt_div_iff₀ (by norm_num)]
  constructor
  · intro hlt
    have : ((10 * 1024 * 1024 : Nat) : ℚ) < (size : ℚ) := by push_cast; linarith
    exact_mod_cast this
  · intro hlt
    have : ((10 * 1024 * 1024 : Nat) : ℚ) < (size : ℚ) := by exact_mod_cast hlt
    push_cast at this; linarith

/-- `a || b` is truthy exactly when one of the two operands is. -/
theorem truthy_orElse (a b : Option String) :
    truthy (orElse a b) = true ↔ truthy a = true ∨ truthy b = true := by
  unfold orElse
  by_cases ha : truthy a = true <;> simp [ha]

/-- The content-addressed URL of NFT.Storage is never the empty string. -/
theorem ipfsUrl_truthy (cid : String) : truthy (some ("https://ipfs.io/ipfs/" ++ cid)) = true := by
  have hne : "https://ipfs.io/ipfs/" ++ cid ≠ "" := by
    intro heq
    have hlen := congrArg String.length heq
    rw [String.length_append] at hlen
    have h21 : "https://ipfs.io/ipfs/".length = 21 := by decide
    have h0 : "".length = 0 := by decide
    omega
  simp [truthy, hne]

/-- Every result that `uploadToNFTStorage` returns carries the URL
`https://ipfs.io/ipfs/<cid>`. -/
theorem uploadToNFTStorage_url (response : Except String (Option NftData))
    (b : NftStorageResult) (hb : uploadToNFTStorage response = .ok b) :
    b.url = "https://ipfs.io/ipfs/" ++ b.cid := by
  unfold uploadToNFTStorage at hb
  split at hb
  · simp at hb
  · split at hb
    · simp only [Except.ok.injEq] at hb; subst hb; rfl
    · simp at hb
  · simp at hb

/-- The result of `uploadImage` on a file that passes the three checks. -/
theorem uploadImage_valid (h : Host) (env : ProcessEnv) (w : UploadWorld) (imagePath : String)
    (size : Nat) (hfile : w.stat imagePath = .file size) (hsize : size ≤ 10 * 1024 * 1024)
    (hmime : startsWith (mimeTypeOf h imagePath) "image/" = true) :
    uploadImageBody h env w imagePath =
      (let imgbbResult : Option ImgbbResult :=
        if IMGBB_API_KEY env ≠ "" then (uploadToImgBB (w.postImgBB imagePath)).toOption
        else none
      let nftStorageResult : Option NftStorageResult :=
        if NFT_STORAGE_API_KEY env ≠ "" then
          (uploadToNFTStorage (w.postNFTStorage imagePath (mimeTypeOf h imagePath))).toOption
        else none
      let resultUrl :=
        orElse (nftStorageResult.map fun r => r.url)
          (orElse (imgbbResult.bind fun r => r.url) none)
      let trace := Event.readFile imagePath ::
        ((if IMGBB_API_KEY env ≠ "" then [Event.uploadToImgBB imagePath] else []) ++
         (if NFT_STORAGE_API_KEY env ≠ "" then
            [Event.uploadToNFTStorage imagePath (mimeTypeOf h imagePath)] else []))
      if ¬ truthy resultUrl then (trace, .error "Failed to upload image to any service.")
      else (trace, .ok ⟨true, resultUrl, imgbbResult, nftStorageResult, none⟩)) := by
  have hnot : ¬ fileSizeMB size > 10 := by
    rw [fileSizeMB_gt_ten_iff]; omega
  have hex : existsSync w imagePath = true := by simp [existsSync, hfile]
  have hread : readFileSync w imagePath = .ok size := by simp [readFileSync, hfile]
  unfold uploadImageBody
  by_cases hA : IMGBB_API_KEY env = "" <;> by_cases hB : NFT_STORAGE_API_KEY env = "" <;>
    simp [hA, hB, hex, hread, hmime, hnot] <;> split_ifs <;> simp

/-- Whenever the result of `uploadImage` holds an NFT.Storage result, the returned URL
is the URL of that result. -/
theorem uploadImage_url_of_nftStorage (h : Host) (env : ProcessEnv) (w : UploadWorld)
    (imagePath : String) (b : NftStorageResult)
    (hb : (uploadImage h env w imagePath).2.nftStorage = some b) :
    (uploadImage h env w imagePath).2.url = some ("https://ipfs.io/ipfs/" ++ b.cid) := by
  rcases hs : w.stat imagePath with _ | message | size
  · simp [uploadImage, uploadImageBody, existsSync, readFileSync, hs] at hb
  · by_cases hm : startsWith (mimeTypeOf h imagePath) "image/" = true <;>
      simp [uploadImage, uploadImageBody, existsSync, readFileSync, hs, hm] at hb
  · by_cases hm : startsWith (mimeTypeOf h imagePath) "image/" = true
    · by_cases hsz : size ≤ 10 * 1024 * 1024
      · unfold uploadImage at hb ⊢
        rw [uploadImage_valid h env w imagePath size hs hsz hm] at hb ⊢
        by_cases hB : NFT_STORAGE_API_KEY env = ""
        · simp only [hB, ne_eq, not_true_eq_false, if_false, Option.map_none'] at hb
          split_ifs at hb
        · cases hr : uploadToNFTStorage (w.postNFTStorage imagePath (mimeTypeOf h imagePath)) with
          | error e =>
            simp only [hB, hr, ne_eq, not_false_eq_true, if_true, Except.toOption,
              Option.map_none'] at hb
            split_ifs at hb
          | ok b1 =>
            have hurl := uploadToNFTStorage_url _ b1 hr
            have ht : truthy (some b1.url) = true := by rw [hurl]; exact ipfsUrl_truthy _
            simp only [hB, hr, ne_eq, not_false_eq_true, if_true, Except.toOption,
              Option.map_some', orElse, ht, not_true_eq_false, if_false] at hb ⊢
            simp only [Option.some.injEq] at hb
            subst hb
            rw [hurl]
      · have hgt : fileSizeMB size > 10 := by rw [fileSizeMB_gt_ten_iff]; omega
        simp [uploadImage, uploadImageBody, existsSync, readFileSync, hs, hm, hgt] at hb
    · simp [uploadImage, uploadImageBody, existsSync, readFileSync, hs, hm] at hb

/-- C4: for a file that passes the checks, when both providers are configured and
both uploads succeed, `uploadImage` returns NFT.Storage's content-addressed URL
`https://ipfs.io/ipfs/<cid>`; and in every result in which NFT.Storage produced
a URL the returned URL is that one, so ImgBB's URL is returned only when
NFT.Storage produced none. -/
theorem uploadImage_prefers_nftStorage (h : Host) (env : ProcessEnv) (w : UploadWorld)
    (imagePath : String) :
    (∀ (size : Nat) (data : ImgbbData) (cid : String),
      w.stat imagePath = .file size → size ≤ 10 * 1024 * 1024 →
      startsWith (mimeTypeOf h imagePath) "image/" = true →
      IMGBB_API_KEY env ≠ "" → NFT_STORAGE_API_KEY env ≠ "" →
      w.postImgBB imagePath = .ok (some data) →
      w.postNFTStorage imagePath (mimeTypeOf h imagePath) = .ok (some ⟨true, some ⟨some cid⟩⟩) →
      cid ≠ "" →
      (uploadImage h env w imagePath).2.success = true ∧
      (uploadImage h env w imagePath).2.url = some ("https://ipfs.io/ipfs/" ++ cid) ∧
      (uploadImage h env w imagePath).2.imgbb =
        some ⟨true, data.url, data.display_url, data.delete_url⟩) ∧
    (∀ b, (uploadImage h env w imagePath).2.nftStorage = some b →
      (uploadImage h env w imagePath).2.url = some ("https://ipfs.io/ipfs/" ++ b.cid)) := by
  refine ⟨?_, fun b hb => uploadImage_url_of_nftStorage h env w imagePath b hb⟩
  intro size data cid hfile hsize hmime hkeyA hkeyB hA hB hcid
  simp [uploadImage, uploadImage_valid h env w imagePath size hfile hsize hmime, hkeyA, hkeyB,
    hA, hB, uploadToNFTStorage, uploadToImgBB, hcid, Except.toOption, orElse, ipfsUrl_truthy]

/-- Witness of C4: ImgBB and NFT.Storage both accept a 100-byte PNG. -/
theorem uploadImage_prefers_nftStorage_witness :
    (uploadImage sampleHost (keysEnv (some "k") (some "n"))
      (sampleUploadWorld 100 (.ok (some ⟨some "https://i.ibb.co/x.png", none, none⟩))
        (.ok (some ⟨true, some ⟨some "bafy"⟩⟩))) "a.png").2.success = true ∧
    (uploadImage sampleHost (keysEnv (some "k") (some "n"))
      (sampleUploadWorld 100 (.ok (some ⟨some "https://i.ibb.co/x.png", none, none⟩))
        (.ok (some ⟨true, some ⟨some "bafy"⟩⟩))) "a.png").2.url =
      some ("https://ipfs.io/ipfs/" ++ "bafy") ∧
    (uploadImage sampleHost (keysEnv (some "k") (some "n"))
      (sampleUploadWorld 100 (.ok (some ⟨some "https://i.ibb.co/x.png", none, none⟩))
        (.ok (some ⟨true, some ⟨some "bafy"⟩⟩))) "a.png").2.imgbb =
      some ⟨true, some "https://i.ibb.co/x.png", none, none⟩ :=
  (uploadImage_prefers_nftStorage sampleHost (keysEnv (some "k") (some "n"))
    (sampleUploadWorld 100 (.ok (some ⟨some "https://i.ibb.co/x.png", none, none⟩))
      (.ok (some ⟨true, some ⟨some "bafy"⟩⟩))) "a.png").1 100
    ⟨some "https://i.ibb.co/x.png", none, none⟩ "bafy" rfl (by decide) (by decide) (by decide)
    (by decide) rfl rfl (by decide)

/-- C5: for a file that does not exist, whose extension does not map to an `image/`
MIME type, or whose size exceeds 10 × 1024 × 1024 bytes, `uploadImage` returns
`success = false` and makes no upload call to either provider; and a file of
exactly 10 × 1024 × 1024 bytes of an image type passes the size check, so every
configured provider is called. -/
theorem uploadImage_rejects_invalid (h : Host) (env : ProcessEnv) (w : UploadWorld)
    (imagePath : String) :
    ((w.stat imagePath = .missing ∨ startsWith (mimeTypeOf h imagePath) "image/" = false ∨
        (∃ size, w.stat imagePath = .file size ∧ size > 10 * 1024 * 1024)) →
      (uploadImage h env w imagePath).2.success = false ∧
      ∀ ev ∈ (uploadImage h env w imagePath).1, ev.isUpload = false) ∧
    (w.stat imagePath = .file (10 * 1024 * 1024) →
      startsWith (mimeTypeOf h imagePath) "image/" = true →
      (IMGBB_API_KEY env ≠ "" → Event.uploadToImgBB imagePath ∈ (uploadImage h env w imagePath).1) ∧
      (NFT_STORAGE_API_KEY env ≠ "" →
        Event.uploadToNFTStorage imagePath (mimeTypeOf h imagePath) ∈
          (uploadImage h env w imagePath).1)) := by
  constructor
  · rintro (hs | hm | ⟨size, hs, hgt⟩)
    · simp [uploadImage, uploadImageBody, existsSync, readFileSync, hs]
    · by_cases hs : w.stat imagePath = .missing <;> simp [uploadImage, uploadImageBody, existsSync, readFileSync, hs, hm]
    · have hbig : fileSizeMB size > 10 := (fileSizeMB_gt_ten_iff size).mpr hgt
      by_cases hm : startsWith (mimeTypeOf h imagePath) "image/" = true <;>
        simp [uploadImage, uploadImageBody, existsSync, readFileSync, hs, hm, hbig, Event.isUpload]
  · intro hs hm
    have hv := uploadImage_valid h env w imagePath _ hs (le_refl _) hm
    constructor
    · intro hA
      unfold uploadImage
      rw [hv]
      simp only [hA, ne_eq, not_false_eq_true, if_true]
      split_ifs <;> simp
    · intro hB
      unfold uploadImage
      rw [hv]
      simp only [hB, ne_eq, not_false_eq_true, if_true]
      split_ifs <;> simp

/-- Witness of C5: a PNG of one byte more than 10 MB is rejected without an upload
call, and a PNG of exactly 10 MB reaches both providers. -/
theorem uploadImage_rejects_invalid_witness :
    ((uploadImage sampleHost (keysEnv (some "k") (some "n"))
        (sampleUploadWorld (10 * 1024 * 1024 + 1) (.error "down") (.error "down")) "a.png").2.success
        = false ∧
      ∀ ev ∈ (uploadImage sampleHost (keysEnv (some "k") (some "n"))
        (sampleUploadWorld (10 * 1024 * 1024 + 1) (.error "down") (.error "down")) "a.png").1,
        ev.isUpload = false) ∧
    (Event.uploadToImgBB "a.png" ∈ (uploadImage sampleHost (keysEnv (some "k") (some "n"))
        (sampleUploadWorld (10 * 1024 * 1024) (.error "down") (.error "down")) "a.png").1 ∧
      Event.uploadToNFTStorage "a.png" (mimeTypeOf sampleHost "a.png") ∈
        (uploadImage sampleHost (keysEnv (some "k") (some "n"))
          (sampleUploadWorld (10 * 1024 * 1024) (.error "down") (.error "down")) "a.png").1) :=
  ⟨(uploadImage_rejects_invalid sampleHost (keysEnv (some "k") (some "n"))
      (sampleUploadWorld (10 * 1024 * 1024 + 1) (.error "down") (.error "down")) "a.png").1
      (Or.inr (Or.inr ⟨10 * 1024 * 1024 + 1, rfl, by decide⟩)),
   ⟨((uploadImage_rejects_invalid sampleHost (keysEnv (some "k") (some "n"))
      (sampleUploadWorld (10 * 1024 * 1024) (.error "down") (.error "down")) "a.png").2
      rfl (by decide)).1 (by decide),
    ((uploadImage_rejects_invalid sampleHost (keysEnv (some "k") (some "n"))
      (sampleUploadWorld (10 * 1024 * 1024) (.error "down") (.error "down")) "a.png").2
      rfl (by decide)).2 (by decide)⟩⟩

/-- C6: for a file that passes the checks, when each provider is either not
configured or fails its upload, `uploadImage` returns `success = false` with the
error `Failed to upload image to any service.` -/
theorem uploadImage_fails_without_provider (h : Host) (env : ProcessEnv) (w : UploadWorld)
    (imagePath : String) (size : Nat)
    (hfile : w.stat imagePath = .file size) (hsize : size ≤ 10 * 1024 * 1024)
    (hmime : startsWith (mimeTypeOf h imagePath) "image/" = true)
    (hA : IMGBB_API_KEY env = "" ∨ ∃ e, uploadToImgBB (w.postImgBB imagePath) = .error e)
    (hB : NFT_STORAGE_API_KEY env = "" ∨
      ∃ e, uploadToNFTStorage (w.postNFTStorage imagePath (mimeTypeOf h imagePath)) = .error e) :
    (uploadImage h env w imagePath).2 =
      ⟨false, none, none, none, some "Failed to upload image to any service."⟩ := by
  have hv := uploadImage_valid h env w imagePath size hfile hsize hmime
  unfold uploadImage
  rw [hv]
  have hnoA : (if IMGBB_API_KEY env ≠ "" then
      (uploadToImgBB (w.postImgBB imagePath)).toOption else none) = none := by
    rcases hA with hA | ⟨e, hA⟩
    · simp [hA]
    · simp [hA, Except.toOption]
  have hnoB : (if NFT_STORAGE_API_KEY env ≠ "" then
      (uploadToNFTStorage (w.postNFTStorage imagePath (mimeTypeOf h imagePath))).toOption
      else none) = none := by
    rcases hB with hB | ⟨e, hB⟩
    · simp [hB]
    · simp [hB, Except.toOption]
  simp only [hnoA, hnoB]
  simp [orElse, truthy]

/-- Witness of C6: no API key is configured. -/
theorem uploadImage_fails_without_provider_witness :
    (uploadImage sampleHost (keysEnv none none)
      (sampleUploadWorld 100 (.error "down") (.error "down")) "a.png").2 =
      ⟨false, none, none, none, some "Failed to upload image to any service."⟩ :=
  uploadImage_fails_without_provider sampleHost (keysEnv none none)
    (sampleUploadWorld 100 (.error "down") (.error "down")) "a.png" 100 rfl (by decide)
    (by decide) (Or.inl (by decide)) (Or.inl (by decide))

/-- Counterexample to C7 as stated: ImgBB is configured and `uploadToImgBB` returns
without throwing, on an answer whose `data` object has no `url`; NFT.Storage is
not configured.  The file is a valid 100-byte PNG, and `uploadImage` returns
`success = false`. -/
theorem uploadImage_accepted_without_url :
    (sampleUploadWorld 100 (.ok (some ⟨none, none, none⟩)) (.error "down")).stat "a.png"
      = .file 100 ∧
    startsWith (mimeTypeOf sampleHost "a.png") "image/" = true ∧
    IMGBB_API_KEY (keysEnv (some "k") none) ≠ "" ∧
    uploadToImgBB ((sampleUploadWorld 100 (.ok (some ⟨none, none, none⟩)) (.error "down")).postImgBB
      "a.png") = .ok ⟨true, none, none, none⟩ ∧
    uploadImage sampleHost (keysEnv (some "k") none)
      (sampleUploadWorld 100 (.ok (some ⟨none, none, none⟩)) (.error "down")) "a.png" =
      ([.readFile "a.png", .uploadToImgBB "a.png"],
       ⟨false, none, none, none, some "Failed to upload image to any service."⟩) := by
  refine ⟨rfl, by decide, by decide, rfl, ?_⟩
  unfold uploadImage
  rw [uploadImage_valid sampleHost _ _ "a.png" 100 rfl (by decide) (by decide)]
  decide

/-- C7, amended: for a file that passes the checks, `uploadImage` returns
`success = true` with a non-empty URL whenever a configured provider accepts the
upload and its result carries a non-empty URL: NFT.Storage returning without
throwing (its result always has one), or ImgBB returning a result whose `url` is
a non-empty string; whatever the other provider does. -/
theorem uploadImage_succeeds_with_url (h : Host) (env : ProcessEnv) (w : UploadWorld)
    (imagePath : String) (size : Nat)
    (hfile : w.stat imagePath = .file size) (hsize : size ≤ 10 * 1024 * 1024)
    (hmime : startsWith (mimeTypeOf h imagePath) "image/" = true)
    (hacc :
      (NFT_STORAGE_API_KEY env ≠ "" ∧
        ∃ b, uploadToNFTStorage (w.postNFTStorage imagePath (mimeTypeOf h imagePath)) = .ok b) ∨
      (IMGBB_API_KEY env ≠ "" ∧
        ∃ a, uploadToImgBB (w.postImgBB imagePath) = .ok a ∧ truthy a.url = true)) :
    (uploadImage h env w imagePath).2.success = true ∧
    truthy (uploadImage h env w imagePath).2.url = true := by
  have hv := uploadImage_valid h env w imagePath size hfile hsize hmime
  unfold uploadImage
  rw [hv]
  have key : ∀ (x : Option NftStorageResult) (y : Option ImgbbResult),
      ((∃ b, x = some b ∧ truthy (some b.url) = true) ∨
        (∃ a, y = some a ∧ truthy a.url = true)) →
      truthy (orElse (x.map fun r => r.url) (orElse (y.bind fun r => r.url) none)) = true := by
    intro x y hxy
    rw [truthy_orElse, truthy_orElse]
    rcases hxy with ⟨b, hb, hu⟩ | ⟨a, ha, hu⟩
    · left; subst hb; exact hu
    · right; left; subst ha; exact hu
  have hurl := key
    (if NFT_STORAGE_API_KEY env ≠ "" then
      (uploadToNFTStorage (w.postNFTStorage imagePath (mimeTypeOf h imagePath))).toOption
      else none)
    (if IMGBB_API_KEY env ≠ "" then (uploadToImgBB (w.postImgBB imagePath)).toOption else none)
    (by
      rcases hacc with ⟨hk, b, hb⟩ | ⟨hk, a, ha, hu⟩
      · left
        refine ⟨b, by simp [hk, hb, Except.toOption], ?_⟩
        rw [uploadToNFTStorage_url _ b hb]; exact ipfsUrl_truthy _
      · right
        exact ⟨a, by simp [hk, ha, Except.toOption], hu⟩)
  simp only [hurl, not_true_eq_false, if_false]
  exact ⟨trivial, trivial⟩

/-- Witness of C7 as amended: ImgBB returns a URL while NFT.Storage is down. -/
theorem uploadImage_succeeds_with_url_witness :
    (uploadImage sampleHost (keysEnv (some "k") (some "n"))
      (sampleUploadWorld 100 (.ok (some ⟨some "https://i.ibb.co/x.png", none, none⟩))
        (.error "down")) "a.png").2.success = true ∧
    truthy (uploadImage sampleHost (keysEnv (some "k") (some "n"))
      (sampleUploadWorld 100 (.ok (some ⟨some "https://i.ibb.co/x.png", none, none⟩))
        (.error "down")) "a.png").2.url = true :=
  uploadImage_succeeds_with_url sampleHost (keysEnv (some "k") (some "n"))
    (sampleUploadWorld 100 (.ok (some ⟨some "https://i.ibb.co/x.png", none, none⟩))
      (.error "down")) "a.png" 100 rfl (by decide) (by decide)
    (Or.inr ⟨by decide, ⟨true, some "https://i.ibb.co/x.png", none, none⟩, rfl, by decide⟩)

/-! ## Theorems about `listTokens` -/

/-- A file that the loop of `listTokens` keeps under a non-empty filter holds a record
whose name or symbol contains the filter, both in lower case. -/
theorem loadToken_matches (h : Host) (filter : String) (hf : filter ≠ "") (c : FileContent)
    (r : TokenRecord) (hload : loadToken h filter c = some (some r)) :
    (∃ name, r.name = some name ∧
      (h.toLowerCase filter).toList <:+: (h.toLowerCase name).toList) ∨
    (∃ symbol, r.symbol = some symbol ∧
      (h.toLowerCase filter).toList <:+: (h.toLowerCase symbol).toList) := by
  cases c with
  | unreadable => simp [loadToken] at hload
  | null => simp [loadToken, hf] at hload
  | record r1 =>
    by_cases hin : ∃ name, r1.name = some name ∧
        includes (h.toLowerCase name) (h.toLowerCase filter) = true
    · obtain ⟨name, hn, hin⟩ := hin
      have hr : r1 = r := by simpa [loadToken, hf, hn, hin] using hload
      subst hr
      exact Or.inl ⟨name, hn, by simpa [includes] using hin⟩
    · cases hn : r1.name with
      | none => simp [loadToken, hf, hn] at hload
      | some name =>
        have hin1 : includes (h.toLowerCase name) (h.toLowerCase filter) = false := by
          cases hc : includes (h.toLowerCase name) (h.toLowerCase filter)
          · rfl
          · exact absurd ⟨name, hn, hc⟩ hin
        cases hsym : r1.symbol with
        | none => simp [loadToken, hf, hn, hin1, hsym] at hload
        | some symbol =>
          cases his : includes (h.toLowerCase symbol) (h.toLowerCase filter) with
          | false => simp [loadToken, hf, hn, hin1, hsym, his] at hload
          | true =>
            have hr : r1 = r := by simpa [loadToken, hf, hn, hin1, hsym, his] using hload
            subst hr
            exact Or.inr ⟨symbol, hsym, by simpa [includes] using his⟩

/-- Every record that `listTokens` returns was loaded from a record file of the
directory. -/
theorem mem_listTokens (h : Host) (readdir : Except String (List DirEntry)) (verbose : Bool)
    (filter : String) (r : TokenRecord) (hr : r ∈ listTokens h readdir verbose filter) :
    ∃ entries file, readdir = .ok entries ∧ file ∈ entries ∧
      endsWith file.name ".json" = true ∧ loadToken h filter file.content = some (some r) := by
  unfold listTokens at hr
  cases readdir with
  | error e => simp at hr
  | ok entries =>
    simp only at hr
    split_ifs at hr with h0 hnull
    · simp at hr
    · simp at hr
    · rw [sortTokens, List.mem_insertionSort] at hr
      simp only [List.mem_filterMap, List.mem_filter, id] at hr
      obtain ⟨t, ⟨file, ⟨hfile, hjson⟩, hload⟩, ht⟩ := hr
      subst ht
      exact ⟨entries, file, rfl, hfile, hjson, hload⟩

/-- C8: under a non-empty filter, every record that `listTokens` returns has a name or
a symbol that contains the filter as a substring, after both are put in lower
case. -/
theorem listTokens_filter_sound (h : Host) (readdir : Except String (List DirEntry))
    (verbose : Bool) (filter : String) (hf : filter ≠ "") :
    ∀ r ∈ listTokens h readdir verbose filter,
      (∃ name, r.name = some name ∧
        (h.toLowerCase filter).toList <:+: (h.toLowerCase name).toList) ∨
      (∃ symbol, r.symbol = some symbol ∧
        (h.toLowerCase filter).toList <:+: (h.toLowerCase symbol).toList) := by
  intro r hr
  obtain ⟨entries, file, _, _, _, hload⟩ := mem_listTokens h readdir verbose filter r hr
  exact loadToken_matches h filter hf file.content r hload

/-- Witness of C8: the filter `gOLD` on the sample directory keeps the two records
whose name contains `gold`. -/
theorem listTokens_filter_sound_witness :
    (listTokens sampleHost (.ok sampleDir) false "gOLD").length = 2 ∧
    ∀ r ∈ listTokens sampleHost (.ok sampleDir) false "gOLD",
      (∃ name, r.name = some name ∧
        (sampleHost.toLowerCase "gOLD").toList <:+: (sampleHost.toLowerCase name).toList) ∨
      (∃ symbol, r.symbol = some symbol ∧
        (sampleHost.toLowerCase "gOLD").toList <:+: (sampleHost.toLowerCase symbol).toList) :=
  ⟨by decide, listTokens_filter_sound sampleHost (.ok sampleDir) false "gOLD" (by decide)⟩

/-- On records with a creation time, the comparator lets `a` stay before `b` exactly
when `a` is not older than `b`. -/
theorem sortsBefore_iff (a b : TokenRecord) (ha : a.createdAt ≠ .invalid)
    (hb : b.createdAt ≠ .invalid) : sortsBefore a b = true ↔ newerOrEqual a b := by
  unfold sortsBefore compareTokens newerOrEqual dateOf
  cases hca : a.createdAt <;> cases hcb : b.createdAt <;>
    first
    | exact absurd hca ha
    | exact absurd hcb hb
    | simp

/-- Between records with a creation time, `newerOrEqual` is transitive. -/
theorem newerOrEqual_trans {a b c : TokenRecord} (hab : newerOrEqual a b)
    (hbc : newerOrEqual b c) : newerOrEqual a c := by
  obtain ⟨x, y, hx, hy, hxy⟩ := hab
  obtain ⟨y1, z, hy1, hz, hyz⟩ := hbc
  rw [hy] at hy1
  cases hy1
  exact ⟨x, z, hx, hz, le_trans hyz hxy⟩

/-- Between records with a creation time, one of two records is not older than the
other. -/
theorem newerOrEqual_total (a b : TokenRecord) (ha : a.createdAt ≠ .invalid)
    (hb : b.createdAt ≠ .invalid) : newerOrEqual a b ∨ newerOrEqual b a := by
  unfold newerOrEqual dateOf
  cases hca : a.createdAt <;> cases hcb : b.createdAt <;>
    first
    | exact absurd hca ha
    | exact absurd hcb hb
    | (simp; try exact le_total _ _)

/-- Inserting a record into a list sorted by creation time, newest first, keeps it
sorted. -/
theorem orderedInsert_newestFirst (a : TokenRecord) (ha : a.createdAt ≠ .invalid) :
    ∀ l : List TokenRecord, (∀ r ∈ l, r.createdAt ≠ .invalid) → l.Pairwise newerOrEqual →
      (l.orderedInsert (fun a b => sortsBefore a b = true) a).Pairwise newerOrEqual
  | [], _, _ => by simp
  | b :: l, hv, hs => by
    have hb : b.createdAt ≠ .invalid := hv b (List.mem_cons_self _ _)
    have hvl : ∀ r ∈ l, r.createdAt ≠ .invalid := fun r hr => hv r (List.mem_cons_of_mem _ hr)
    rw [List.pairwise_cons] at hs
    by_cases hab : sortsBefore a b = true
    · rw [List.orderedInsert, if_pos hab, List.pairwise_cons]
      have hnab := (sortsBefore_iff a b ha hb).mp hab
      refine ⟨?_, List.pairwise_cons.mpr hs⟩
      intro c hc
      rcases List.mem_cons.mp hc with hcb | hcl
      · subst hcb; exact hnab
      · exact newerOrEqual_trans hnab (hs.1 c hcl)
    · rw [List.orderedInsert, if_neg hab, List.pairwise_cons]
      refine ⟨?_, orderedInsert_newestFirst a ha l hvl hs.2⟩
      intro c hc
      rcases (List.mem_orderedInsert _).mp hc with hca | hcl
      · subst hca
        rcases newerOrEqual_total c b ha hb with hcb | hbc
        · exact absurd ((sortsBefore_iff c b ha hb).mpr hcb) hab
        · exact hbc
      · exact hs.1 c hcl

/-- The sort of `listTokens` puts records with a creation time newest first. -/
theorem sortTokens_newestFirst :
    ∀ l : List TokenRecord, (∀ r ∈ l, r.createdAt ≠ .invalid) →
      (sortTokens l).Pairwise newerOrEqual
  | [], _ => by simp [sortTokens]
  | a :: l, hv => by
    have hl := sortTokens_newestFirst l fun r hr => hv r (List.mem_cons_of_mem _ hr)
    unfold sortTokens at hl ⊢
    rw [List.insertionSort]
    refine orderedInsert_newestFirst a (hv a (List.mem_cons_self _ _)) _ ?_ hl
    intro r hr
    exact hv r (List.mem_cons_of_mem _ ((List.mem_insertionSort _).mp hr))

/-- A token that the loop of `listTokens` loads is the record held by the file. -/
theorem loadToken_record (h : Host) (filter : String) (c : FileContent) (r : TokenRecord)
    (hload : loadToken h filter c = some (some r)) : c = .record r := by
  cases c with
  | unreadable => simp [loadToken] at hload
  | null => by_cases hf : filter = "" <;> simp [loadToken, hf] at hload
  | record r1 =>
    suffices hr : r1 = r by rw [hr]
    by_cases hf : filter = ""
    · simpa [loadToken, hf] using hload
    · cases hn : r1.name with
      | none => simp [loadToken, hf, hn] at hload
      | some name =>
        cases hin : includes (h.toLowerCase name) (h.toLowerCase filter) with
        | true => simpa [loadToken, hf, hn, hin] using hload
        | false =>
          cases hsym : r1.symbol with
          | none => simp [loadToken, hf, hn, hin, hsym] at hload
          | some symbol =>
            cases his : includes (h.toLowerCase symbol) (h.toLowerCase filter) with
            | true => simpa [loadToken, hf, hn, hin, hsym, his] using hload
            | false => simp [loadToken, hf, hn, hin, hsym, his] at hload

/-- The part of the ordering that holds: when every `createdAt` stored in a record
file is a valid date or is missing,
the list that `listTokens` returns is sorted by creation time, newest first: of
two consecutive records (and of any two records in list order) the earlier one
has a creation time greater than or equal to that of the later one, a record
without `createdAt` counting as time 0. -/
theorem listTokens_sorted_newestFirst (h : Host) (readdir : Except String (List DirEntry))
    (verbose : Bool) (filter : String)
    (hvalid : ∀ entries, readdir = .ok entries → ∀ file ∈ entries,
      endsWith file.name ".json" = true →
      ∀ r, file.content = .record r → r.createdAt ≠ .invalid) :
    (listTokens h readdir verbose filter).Chain' newerOrEqual ∧
    (listTokens h readdir verbose filter).Pairwise newerOrEqual := by
  have hmem := mem_listTokens h readdir verbose filter
  suffices hp : (listTokens h readdir verbose filter).Pairwise newerOrEqual from ⟨hp.chain', hp⟩
  unfold listTokens at hmem ⊢
  cases readdir with
  | error e => simp
  | ok entries =>
    simp only at hmem ⊢
    split_ifs with h0 hnull
    · simp
    · simp
    · simp only [h0, hnull, if_false] at hmem
      apply sortTokens_newestFirst
      intro r hr
      have hr1 : r ∈ sortTokens (List.filterMap id (List.filterMap
          (fun file => loadToken h filter file.content)
          (List.filter (fun file => endsWith file.name ".json") entries))) := by
        rw [sortTokens, List.mem_insertionSort]; exact hr
      obtain ⟨entries1, file, he, hfile, hjson, hload⟩ := hmem r hr1
      cases he
      exact hvalid entries rfl file hfile hjson r (loadToken_record h filter _ r hload)

/-- An instance of the ordering with valid dates: the unfiltered listing of the sample
directory is the record of time 3000, then the one of time 1000, then the one
without `createdAt`. -/
theorem listTokens_sorted_newestFirst_witness :
    listTokens sampleHost (.ok sampleDir) false "" =
      [sampleRecord "Silver" "SLV" (.valid 3000), sampleRecord "Gold Coin" "GLD" (.valid 1000),
       sampleRecord "Old Gold" "OLD" .absent] ∧
    (listTokens sampleHost (.ok sampleDir) false "").Chain' newerOrEqual ∧
    (listTokens sampleHost (.ok sampleDir) false "").Pairwise newerOrEqual :=
  ⟨by decide, listTokens_sorted_newestFirst sampleHost (.ok sampleDir) false "" (by
    intro entries he file hfile _ r hr
    cases he
    simp only [sampleDir, List.mem_cons, List.mem_singleton, List.not_mem_nil, or_false] at hfile
    rcases hfile with rfl | rfl | rfl | rfl | rfl <;> cases hr <;> decide)⟩

/-- C9 fails at this input: three record files whose `createdAt` are a date of time
1000, a text that is not a date, and a date of time 3000.  The comparator gives
`NaN` against the invalid date, the sort moves nothing, and `listTokens` returns
the record of time 1000 before the record of time 3000. -/
theorem listTokens_unsorted_with_invalid_date :
    listTokens sampleHost
        (.ok [⟨"a.json", .record (sampleRecord "Alpha" "AAA" (.valid 1000))⟩,
          ⟨"b.json", .record (sampleRecord "Beta" "BBB" .invalid)⟩,
          ⟨"c.json", .record (sampleRecord "Gamma" "CCC" (.valid 3000))⟩]) false "" =
      [sampleRecord "Alpha" "AAA" (.valid 1000), sampleRecord "Beta" "BBB" .invalid,
       sampleRecord "Gamma" "CCC" (.valid 3000)] ∧
    dateOf (sampleRecord "Alpha" "AAA" (.valid 1000)) = some 1000 ∧
    dateOf (sampleRecord "Gamma" "CCC" (.valid 3000)) = some 3000 ∧
    ¬ (listTokens sampleHost
        (.ok [⟨"a.json", .record (sampleRecord "Alpha" "AAA" (.valid 1000))⟩,
          ⟨"b.json", .record (sampleRecord "Beta" "BBB" .invalid)⟩,
          ⟨"c.json", .record (sampleRecord "Gamma" "CCC" (.valid 3000))⟩]) false "").Pairwise
      newerOrEqual := by
  have hlist : listTokens sampleHost
      (.ok [⟨"a.json", .record (sampleRecord "Alpha" "AAA" (.valid 1000))⟩,
        ⟨"b.json", .record (sampleRecord "Beta" "BBB" .invalid)⟩,
        ⟨"c.json", .record (sampleRecord "Gamma" "CCC" (.valid 3000))⟩]) false "" =
      [sampleRecord "Alpha" "AAA" (.valid 1000), sampleRecord "Beta" "BBB" .invalid,
       sampleRecord "Gamma" "CCC" (.valid 3000)] := by decide
  refine ⟨hlist, by decide, by decide, ?_⟩
  rw [hlist]
  intro hsorted
  have hfirst := (List.pairwise_cons.mp hsorted).1
    (sampleRecord "Gamma" "CCC" (.valid 3000)) (by simp)
  obtain ⟨x, y, hx, hy, hle⟩ := hfirst
  have hx1 : x = 1000 := by
    have hd : dateOf (sampleRecord "Alpha" "AAA" (.valid 1000)) = some 1000 := by decide
    rw [hd] at hx
    exact (Option.some.inj hx).symm
  have hy1 : y = 3000 := by
    have hd : dateOf (sampleRecord "Gamma" "CCC" (.valid 3000)) = some 3000 := by decide
    rw [hd] at hy
    exact (Option.some.inj hy).symm
  omega

/-- C10: when the token-output directory holds no file whose name ends in `.json`,
`listTokens` returns the empty list, whatever `verbose` and `filter` are. -/
theorem listTokens_no_record_file (h : Host) (entries : List DirEntry) (verbose : Bool)
    (filter : String) (hnone : ∀ file ∈ entries, endsWith file.name ".json" = false) :
    listTokens h (.ok entries) verbose filter = [] := by
  have hfilter : entries.filter (fun file => endsWith file.name ".json") = [] := by
    rw [List.filter_eq_nil_iff]
    intro file hfile
    simp [hnone file hfile]
  simp [listTokens, hfilter]

/-- Witness of C10: a directory that holds only a text file. -/
theorem listTokens_no_record_file_witness :
    listTokens sampleHost (.ok [⟨"notes.txt", .record (sampleRecord "Gold" "GLD" .absent)⟩])
      true "gold" = [] :=
  listTokens_no_record_file sampleHost [⟨"notes.txt", .record (sampleRecord "Gold" "GLD" .absent)⟩]
    true "gold" (by decide)

/-! ## Theorems about the viewer -/

/-- The first element that `filterMap` keeps, when the kept elements all equal `b`. -/
theorem head?_filterMap_of_unique {α β : Type} (f : α → Option β) (b : β) :
    ∀ l : List α, (∃ a ∈ l, f a = some b) → (∀ a ∈ l, ∀ c, f a = some c → c = b) →
      (l.filterMap f).head? = some b
  | [], hex, _ => by obtain ⟨a, ha, _⟩ := hex; cases ha
  | a :: l, hex, hall => by
    cases hfa : f a with
    | some c =>
      have hc : c = b := hall a (List.mem_cons_self _ _) c hfa
      simp [List.filterMap_cons, hfa, hc]
    | none =>
      rw [List.filterMap_cons, hfa]
      apply head?_filterMap_of_unique f b l
      · obtain ⟨x, hx, hfx⟩ := hex
        rcases List.mem_cons.mp hx with rfl | hxl
        · rw [hfa] at hfx; cases hfx
        · exact ⟨x, hxl, hfx⟩
      · intro x hx c hfx
        exact hall x (List.mem_cons_of_mem _ hx) c hfx

/-- Counterexample to C11 as stated: two record files hold the mint address `M`.  The
listing puts the newer record `Beta` first, and the record that
`getTokenDetails` finds for its mint address is the other one, `Alpha`. -/
theorem viewByIndex_finds_other_record :
    (listTokens sampleHost (.ok [⟨"a-1.json", .record (mintedRecord "Alpha" "M" (.valid 1000))⟩,
        ⟨"b-2.json", .record (mintedRecord "Beta" "M" (.valid 2000))⟩]) false "").get? (1 - 1) =
      some (mintedRecord "Beta" "M" (.valid 2000)) ∧
    findLocalToken [⟨"a-1.json", .record (mintedRecord "Alpha" "M" (.valid 1000))⟩,
        ⟨"b-2.json", .record (mintedRecord "Beta" "M" (.valid 2000))⟩]
        (mintedRecord "Beta" "M" (.valid 2000)).mint =
      some (mintedRecord "Alpha" "M" (.valid 1000)) ∧
    mintedRecord "Alpha" "M" (.valid 1000) ≠ mintedRecord "Beta" "M" (.valid 2000) := by
  decide

/-- C11, amended: for every directory of record files and every index `i` with
`1 ≤ i ≤ n`, `n` the length of the unfiltered listing, when no record file holds
a different record with the same `mint` value as the `i`-th listed record, the
local record that `getTokenDetails` finds for that `mint` value is the `i`-th
listed record itself. -/
theorem viewByIndex_finds_listed_record (h : Host) (entries : List DirEntry) (i : Nat)
    (token : TokenRecord) (hi : 1 ≤ i)
    (hlisted : (listTokens h (.ok entries) false "").get? (i - 1) = some token)
    (hunique : ∀ file ∈ entries, endsWith file.name ".json" = true →
      ∀ r, file.content = .record r → r.mint = token.mint → r = token) :
    i ≤ (listTokens h (.ok entries) false "").length ∧
    findLocalToken entries token.mint = some token := by
  have hmem : token ∈ listTokens h (.ok entries) false "" := List.get?_mem hlisted
  obtain ⟨entries1, file, he, hfile, hjson, hload⟩ := mem_listTokens h _ false "" token hmem
  cases he
  have hcontent := loadToken_record h "" file.content token hload
  constructor
  · obtain ⟨hlt, _⟩ := List.get?_eq_some.mp hlisted
    omega
  · unfold findLocalToken
    apply head?_filterMap_of_unique
    · exact ⟨file, List.mem_filter.mpr ⟨hfile, hjson⟩, by simp [hcontent]⟩
    · intro f hf c hc
      obtain ⟨hfe, hfj⟩ := List.mem_filter.mp hf
      cases hfc : f.content with
      | unreadable => simp [hfc] at hc
      | null => simp [hfc] at hc
      | record r =>
        simp only [hfc] at hc
        split_ifs at hc with hm
        · cases hc
          exact hunique f hfe hfj c hfc hm

/-- Witness of C11 as amended: two records with different mint addresses. -/
theorem viewByIndex_finds_listed_record_witness :
    1 ≤ (listTokens sampleHost (.ok [⟨"a-1.json", .record (mintedRecord "Alpha" "M1" (.valid 1000))⟩,
        ⟨"b-2.json", .record (mintedRecord "Beta" "M2" (.valid 2000))⟩]) false "").length ∧
    findLocalToken [⟨"a-1.json", .record (mintedRecord "Alpha" "M1" (.valid 1000))⟩,
        ⟨"b-2.json", .record (mintedRecord "Beta" "M2" (.valid 2000))⟩]
        (mintedRecord "Beta" "M2" (.valid 2000)).mint =
      some (mintedRecord "Beta" "M2" (.valid 2000)) :=
  viewByIndex_finds_listed_record sampleHost
    [⟨"a-1.json", .record (mintedRecord "Alpha" "M1" (.valid 1000))⟩,
     ⟨"b-2.json", .record (mintedRecord "Beta" "M2" (.valid 2000))⟩] 1
    (mintedRecord "Beta" "M2" (.valid 2000)) (le_refl 1) (by decide) (by
      intro file hfile _ r hr hm
      simp only [List.mem_cons, List.mem_singleton, List.not_mem_nil, or_false] at hfile
      rcases hfile with rfl | rfl
      · cases hr; revert hm; decide
      · cases hr; rfl)

/-- C12: for a numeric identifier of value `i`, `handleViewToken` takes element `i - 1`
of the unfiltered listing when `1 ≤ i ≤ n` and passes its `mint` to
`getTokenDetails`; for `i = 0` or `i > n` it prints the invalid-index error,
makes no other call and displays no details. -/
theorem handleViewToken_index (h : Host) (env : ProcessEnv) (w : ViewWorld)
    (args : List String) (identifier : String) (i : Nat)
    (hid : args.get? (indexAfter args "view") = some identifier)
    (hnum : parseDigits identifier = some i) :
    (1 ≤ i → i ≤ (listTokens h w.readdir false "").length →
      ∃ token, (listTokens h w.readdir false "").get? (i - 1) = some token ∧
        handleViewToken h env w args =
          (match getTokenDetails env w token.mint (args.contains "--simulate") with
           | (trace, .ok tokenDetails) => (trace, .ok (some tokenDetails))
           | (trace, .error e) => (trace, .error e))) ∧
    (i = 0 ∨ i > (listTokens h w.readdir false "").length →
      handleViewToken h env w args =
        ([.consoleError ("❌ Invalid token index. Please choose between 1 and " ++
          showNat (listTokens h w.readdir false "").length)], .ok none)) := by
  constructor
  · intro h1 hn
    have hlt : i - 1 < (listTokens h w.readdir false "").length := by omega
    refine ⟨(listTokens h w.readdir false "").get ⟨i - 1, hlt⟩, List.get?_eq_get hlt, ?_⟩
    have h0 : i ≠ 0 := by omega
    simp only [handleViewToken, hid, hnum, h0, if_false, List.get?_eq_get hlt]
  · intro hbad
    rcases hbad with h0 | hgt
    · subst h0
      simp only [handleViewToken, hid, hnum, ↓reduceIte]
    · have hnone : (listTokens h w.readdir false "").get? (i - 1) = none := by
        rw [List.get?_eq_none]; omega
      by_cases h0 : i = 0
      · subst h0
        simp only [handleViewToken, hid, hnum, ↓reduceIte]
      · simp only [handleViewToken, hid, hnum, h0, if_false, hnone]

/-- Witness of C12: `view 2` over the sample directory takes the second listed
record, and `view 4` prints the invalid-index error. -/
theorem handleViewToken_index_witness :
    (∃ token, (listTokens sampleHost (sampleViewWorld sampleDir).readdir false "").get? (2 - 1)
        = some token ∧
      handleViewToken sampleHost emptyEnv (sampleViewWorld sampleDir) ["view", "2"] =
        (match getTokenDetails emptyEnv (sampleViewWorld sampleDir) token.mint
            (["view", "2"].contains "--simulate") with
         | (trace, .ok tokenDetails) => (trace, .ok (some tokenDetails))
         | (trace, .error e) => (trace, .error e))) ∧
    handleViewToken sampleHost emptyEnv (sampleViewWorld sampleDir) ["view", "4"] =
      ([.consoleError ("❌ Invalid token index. Please choose between 1 and " ++
        showNat (listTokens sampleHost (sampleViewWorld sampleDir).readdir false "").length)],
       .ok none) :=
  ⟨(handleViewToken_index sampleHost emptyEnv (sampleViewWorld sampleDir) ["view", "2"] "2" 2
      (by decide) (by decide)).1 (by decide) (by decide),
   (handleViewToken_index sampleHost emptyEnv (sampleViewWorld sampleDir) ["view", "4"] "4" 4
      (by decide) (by decide)).2 (Or.inr (by decide))⟩

/-- C13 fails at this input: in simulate-only mode, with no record file for the mint
address `M`, `getTokenDetails("M", true)` asks the RPC node for the token supply
and returns a result without `isSimulated`, where its documentation says that
only local files are checked. -/
theorem getTokenDetails_simulate_without_record :
    getTokenDetails emptyEnv (sampleViewWorld []) (.str "M") true =
      ([.getTokenSupply "M"],
       .ok ⟨.str "M", some 5, 9, none, none,
         "https://explorer.solana.com/?cluster=devnet/address/M"⟩) := by
  rfl

/-- The part of simulate-only mode that works: for every mint address that a local
record file matches, `getTokenDetails` makes no RPC request and returns the local
record flagged with `isSimulated = true`. -/
theorem getTokenDetails_simulate_local (env : ProcessEnv) (w : ViewWorld)
    (mintAddress : JsValue) (entries : List DirEntry) (info : TokenRecord)
    (hdir : w.readdir = .ok entries)
    (hlocal : findLocalToken entries mintAddress = some info) :
    (getTokenDetails env w mintAddress true).1 = [] ∧
    ∃ details, (getTokenDetails env w mintAddress true).2 = .ok details ∧
      details.isSimulated = some true ∧ details.localTokenInfo = some info ∧
      details.mint = mintAddress := by
  simp [getTokenDetails, hdir, hlocal]

/-- An instance of simulate-only mode with a local record, for the mint address
`M2`. -/
theorem getTokenDetails_simulate_local_witness :
    (getTokenDetails emptyEnv
      (sampleViewWorld [⟨"b-2.json", .record (mintedRecord "Beta" "M2" (.valid 2000))⟩])
      (.str "M2") true).1 = [] ∧
    ∃ details, (getTokenDetails emptyEnv
      (sampleViewWorld [⟨"b-2.json", .record (mintedRecord "Beta" "M2" (.valid 2000))⟩])
      (.str "M2") true).2 = .ok details ∧
      details.isSimulated = some true ∧
      details.localTokenInfo = some (mintedRecord "Beta" "M2" (.valid 2000)) ∧
      details.mint = .str "M2" :=
  getTokenDetails_simulate_local emptyEnv
    (sampleViewWorld [⟨"b-2.json", .record (mintedRecord "Beta" "M2" (.valid 2000))⟩])
    (.str "M2") [⟨"b-2.json", .record (mintedRecord "Beta" "M2" (.valid 2000))⟩]
    (mintedRecord "Beta" "M2" (.valid 2000)) rfl (by decide)

/-! ## Theorems about the metadata updaters -/

/-- C20: `updateTokenName` and `updateTokenSymbol` check their inputs first.  For a
missing or empty mint address they return `success = false` with
`Mint address is required`; for a mint address and a missing or empty new value,
with `New name is required`, respectively `New symbol is required`; in both
cases without any external call: the wallet is not read and no instruction is
submitted. -/
theorem updaters_validate_first (h : Host) (env : ProcessEnv) (w : UpdateWorld)
    (mintAddress newValue walletPath : Option String) :
    (truthy mintAddress = false →
      updateTokenName h env w mintAddress newValue walletPath =
        ([], ⟨false, some "Mint address is required", none, none, none⟩) ∧
      updateTokenSymbol h env w mintAddress newValue walletPath =
        ([], ⟨false, some "Mint address is required", none, none, none⟩)) ∧
    (truthy mintAddress = true → truthy newValue = false →
      updateTokenName h env w mintAddress newValue walletPath =
        ([], ⟨false, some "New name is required", none, none, none⟩) ∧
      updateTokenSymbol h env w mintAddress newValue walletPath =
        ([], ⟨false, some "New symbol is required", none, none, none⟩)) := by
  constructor
  · intro hm
    simp [updateTokenName, updateTokenNameBody, updateTokenSymbol, updateTokenSymbolBody, hm]
  · intro hm hv
    simp [updateTokenName, updateTokenNameBody, updateTokenSymbol, updateTokenSymbolBody, hm, hv]

/-- Witness of C20: an empty mint address, and a mint address with an empty value. -/
theorem updaters_validate_first_witness :
    (updateTokenName sampleHost emptyEnv sampleUpdateWorld (some "") (some "Gold") none =
        ([], ⟨false, some "Mint address is required", none, none, none⟩) ∧
      updateTokenSymbol sampleHost emptyEnv sampleUpdateWorld (some "") (some "Gold") none =
        ([], ⟨false, some "Mint address is required", none, none, none⟩)) ∧
    (updateTokenName sampleHost emptyEnv sampleUpdateWorld (some "M") (some "") none =
        ([], ⟨false, some "New name is required", none, none, none⟩) ∧
      updateTokenSymbol sampleHost emptyEnv sampleUpdateWorld (some "M") (some "") none =
        ([], ⟨false, some "New symbol is required", none, none, none⟩)) :=
  ⟨(updaters_validate_first sampleHost emptyEnv sampleUpdateWorld (some "") (some "Gold") none).1
      (by decide),
   (updaters_validate_first sampleHost emptyEnv sampleUpdateWorld (some "M") (some "") none).2
      (by decide) (by decide)⟩

/-! ## Theorems about token creation -/

/-- The base64 text of `n` bytes has `4 * ⌈n / 3⌉` characters. -/
theorem base64_length : ∀ bytes : List Nat, (base64 bytes).length = 4 * ((bytes.length + 2) / 3)
  | [] => rfl
  | [_] => by simp [base64]
  | [_, _] => by simp [base64]
  | _ :: _ :: _ :: rest => by
    have ih := base64_length rest
    simp only [base64, List.length_cons, ih]
    omega

/-- The simulated mint address has 44 characters. -/
theorem simulatedMintAddress_length (w : CreateWorld) : (simulatedMintAddress w).length = 44 := by
  simp [simulatedMintAddress, String.length, base64_length]

/-- Counterexample to C14 as stated: in simulation mode without `tokenInfo` the
result is a failure object without a mint address; and with `tokenInfo`, when
every random byte is 0, the mint address is 43 times `A` followed by `=`, and
`=` is not a character of a Solana address. -/
theorem createToken_simulation_no_plausible_address :
    createToken sampleHost emptyEnv (sampleCreateWorld (.error "down") (.error "down"))
        ⟨none, none, none, true, true⟩ =
      ([], CreateResult.failure "Token information is required for simulation" true) ∧
    (createToken sampleHost emptyEnv (sampleCreateWorld (.error "down") (.error "down"))
        ⟨some sampleTokenInfo, none, none, true, true⟩).2.mintAddress =
      some "AAAAAAAAAAAAAAAAAAAAAAAAAAAAAAAAAAAAAAAAAAA=" ∧
    '=' ∈ "AAAAAAAAAAAAAAAAAAAAAAAAAAAAAAAAAAAAAAAAAAA=".toList ∧
    '=' ∉ base58Alphabet := by
  decide

/-- C14, amended: for every options value with `simulationMode` set, `createToken`
makes no external call; when `options.tokenInfo` is present it returns
`success = true` with a mint address of 44 characters, and when it is missing it
returns the failure `Token information is required for simulation`. -/
theorem createToken_simulation (h : Host) (env : ProcessEnv) (w : CreateWorld)
    (options : CreateOptions) (hsim : options.simulationMode = true) :
    (createToken h env w options).1 = [] ∧
    (options.tokenInfo ≠ none →
      (createToken h env w options).2.success = some true ∧
      (createToken h env w options).2.isSimulated = true ∧
      ∃ address, (createToken h env w options).2.mintAddress = some address ∧
        address.length = 44) ∧
    (options.tokenInfo = none →
      (createToken h env w options).2 =
        CreateResult.failure "Token information is required for simulation" true) := by
  cases hinfo : options.tokenInfo with
  | none => simp [createToken, hsim, handleSimulationMode, hinfo]
  | some info =>
    simp [createToken, hsim, handleSimulationMode, hinfo, simulatedMintAddress_length]

/-- Witness of C14 as amended: simulation of the sample token. -/
theorem createToken_simulation_witness :
    (createToken sampleHost emptyEnv (sampleCreateWorld (.error "down") (.error "down"))
      ⟨some sampleTokenInfo, none, none, true, true⟩).1 = [] ∧
    ((createToken sampleHost emptyEnv (sampleCreateWorld (.error "down") (.error "down"))
        ⟨some sampleTokenInfo, none, none, true, true⟩).2.success = some true ∧
      (createToken sampleHost emptyEnv (sampleCreateWorld (.error "down") (.error "down"))
        ⟨some sampleTokenInfo, none, none, true, true⟩).2.isSimulated = true ∧
      ∃ address, (createToken sampleHost emptyEnv
          (sampleCreateWorld (.error "down") (.error "down"))
          ⟨some sampleTokenInfo, none, none, true, true⟩).2.mintAddress = some address ∧
        address.length = 44) :=
  ⟨(createToken_simulation sampleHost emptyEnv
      (sampleCreateWorld (.error "down") (.error "down"))
      ⟨some sampleTokenInfo, none, none, true, true⟩ rfl).1,
   (createToken_simulation sampleHost emptyEnv
      (sampleCreateWorld (.error "down") (.error "down"))
      ⟨some sampleTokenInfo, none, none, true, true⟩ rfl).2.1 (by decide)⟩

/-- Counterexample to C15 as stated: the token description has no symbol.  The mint
is created, the account step and the initial minting succeed and the on-chain
metadata transaction succeeds too, yet `createTokenWithMetaplex` returns
`success = false`, because the local record cannot be named. -/
theorem createTokenWithMetaplex_fails_after_mint :
    extractMint sampleHost sampleCreateOutput = .ok ("Mint111", some "Sig111") ∧
    createTokenWithMetaplex sampleHost emptyEnv
        (sampleCreateWorld (.ok sampleCreateOutput) (.ok "MetaSig"))
        (some ⟨some "Gold", none, some 6, some 1000, none, none, none, false⟩)
        (some "w.json") =
      ([.readFile "w.json",
        .execSync "spl-token create-token --decimals 6 --output json",
        .execSync "spl-token create-account Mint111 --output json",
        .execSync "spl-token mint Mint111 1000 --output json",
        .createMetadataAccount "Mint111" (some "Gold") none ""],
       .ok (CreateResult.failure
         "Cannot read properties of undefined (reading 'toLowerCase')" false)) := by
  constructor <;> rfl

/-- The result of `createTokenWithMetaplex` does not depend on what building and
sending the on-chain metadata instruction answer. -/
theorem createTokenWithMetaplex_ignores_metadata (h : Host) (env : ProcessEnv)
    (w : CreateWorld) (tokenInfo : Option TokenInfo) (walletPath : Option String)
    (findPda send : String → Except String String) :
    (createTokenWithMetaplex h env
      { w with findMetadataPda := findPda, sendAndConfirmTransaction := send }
      tokenInfo walletPath).2 =
    (createTokenWithMetaplex h env w tokenInfo walletPath).2 := by
  unfold createTokenWithMetaplex createTokenWithMetaplexBody
  cases tokenInfo with
  | none => rfl
  | some info =>
    simp only
    cases hkey : (if truthy walletPath then Except.ok (walletPath.getD "")
        else getWalletPath h env w.existsSync none) with
    | error e => simp [hkey]
    | ok keyPath =>
      simp only [hkey, attempt_ok]
      cases hwallet : w.createKeypairFromFile keyPath with
      | error e => simp [hwallet]
      | ok wallet =>
        simp only [hwallet, call_ok]
        cases hcreate : w.execSync ("spl-token create-token --decimals " ++
            showNat (orDefault info.decimals DEFAULT_DECIMALS) ++ " --output json") with
        | error e => simp [hcreate]
        | ok output =>
          simp only [hcreate, call_ok]
          cases hmint : extractMint h output with
          | error e => simp [hmint]
          | ok found =>
            obtain ⟨mint, signature⟩ := found
            simp only [hmint, attempt_ok]
            have hacc : createTokenAccount h
                { w with findMetadataPda := findPda, sendAndConfirmTransaction := send }
                mint wallet = createTokenAccount h w mint wallet := rfl
            have hup : uploadMetadata h env
                { w with findMetadataPda := findPda, sendAndConfirmTransaction := send } info =
                uploadMetadata h env w info := rfl
            rw [hacc, hup]
            cases hsupply : w.execSync ("spl-token mint " ++ mint ++ " " ++
                showNat (orDefault info.initialSupply DEFAULT_INITIAL_SUPPLY) ++
                " --output json") with
            | error e => simp [hsupply]
            | ok mintOut =>
              simp only [hsupply]
              cases hsymbol : info.symbol with
              | none => simp [hsymbol]
              | some symbol =>
                simp only [hsymbol]
                cases hw1 : w.writeFileSync (h.join [h.TOKEN_OUTPUT_DIR,
                    h.toLowerCase symbol ++ "-" ++ showNat w.now ++ ".json"]) with
                | error e => simp [hw1]
                | ok u1 =>
                  simp only [hw1]
                  cases hw2 : w.writeFileSync (h.join [h.TOKEN_OUTPUT_DIR,
                      h.toLowerCase symbol ++ "-metadata.json"]) with
                  | error e => simp [hw2]
                  | ok u2 => simp [hw2]

/-- C15, amended: when the wallet loads, the mint is created, the initial supply is
minted and the local record can be saved (the token has a symbol and the two
files are written), `createTokenWithMetaplex` returns `success = true` with the
created mint address, whatever building and sending the on-chain metadata
instruction answer; and its result never depends on those answers. -/
theorem createTokenWithMetaplex_metadata_nonfatal (h : Host) (env : ProcessEnv)
    (w : CreateWorld) (info : TokenInfo) (walletPath : Option String)
    (keyPath wallet output mint mintOut symbol : String) (signature : Option String)
    (hkey : (if truthy walletPath then Except.ok (walletPath.getD "")
      else getWalletPath h env w.existsSync none) = .ok keyPath)
    (hwallet : w.createKeypairFromFile keyPath = .ok wallet)
    (hcreate : w.execSync ("spl-token create-token --decimals " ++
      showNat (orDefault info.decimals DEFAULT_DECIMALS) ++ " --output json") = .ok output)
    (hmint : extractMint h output = .ok (mint, signature))
    (hsupply : w.execSync ("spl-token mint " ++ mint ++ " " ++
      showNat (orDefault info.initialSupply DEFAULT_INITIAL_SUPPLY) ++ " --output json") =
      .ok mintOut)
    (hsymbol : info.symbol = some symbol)
    (hwrite : ∀ path, w.writeFileSync path = .ok ()) :
    (∃ result, (createTokenWithMetaplex h env w (some info) walletPath).2 = .ok result ∧
      result.success = some true ∧ result.mintAddress = some mint ∧
      result.mint = some mint) ∧
    ∀ findPda send : String → Except String String,
      (createTokenWithMetaplex h env
        { w with findMetadataPda := findPda, sendAndConfirmTransaction := send }
        (some info) walletPath).2 =
      (createTokenWithMetaplex h env w (some info) walletPath).2 := by
  refine ⟨?_, fun findPda send =>
    createTokenWithMetaplex_ignores_metadata h env w (some info) walletPath findPda send⟩
  simp [createTokenWithMetaplex, createTokenWithMetaplexBody, hkey, hwallet, hcreate, hmint,
    hsupply, hsymbol, hwrite]

/-- Witness of C15 as amended: the on-chain metadata transaction fails and the sample
token is created all the same. -/
theorem createTokenWithMetaplex_metadata_nonfatal_witness :
    (sampleCreateWorld (.ok sampleCreateOutput) (.error "Transaction failed")).sendAndConfirmTransaction
      "Mint111" = .error "Transaction failed" ∧
    ∃ result, (createTokenWithMetaplex sampleHost emptyEnv
        (sampleCreateWorld (.ok sampleCreateOutput) (.error "Transaction failed"))
        (some sampleTokenInfo) (some "w.json")).2 = .ok result ∧
      result.success = some true ∧ result.mintAddress = some "Mint111" ∧
      result.mint = some "Mint111" :=
  ⟨rfl, (createTokenWithMetaplex_metadata_nonfatal sampleHost emptyEnv
    (sampleCreateWorld (.ok sampleCreateOutput) (.error "Transaction failed"))
    sampleTokenInfo (some "w.json") "w.json" "W" sampleCreateOutput "Mint111"
    "\x7b\"signature\":\"Sig222\"\x7d" "GLD" (some "Sig111")
    rfl rfl rfl rfl rfl rfl (fun _ => rfl)).1⟩

/-- Counterexample to C16 as stated: with `useMetaplex` set, as `main` sets it, the
`create-token` command fails, `createTokenWithMetaplex` returns a failure, and
`createToken` returns that failure; no command of the SPL CLI method is run. -/
theorem createToken_no_fallback :
    createToken sampleHost emptyEnv (sampleCreateWorld (.error "spl-token: not found") (.ok "s"))
        ⟨some sampleTokenInfo, some "w.json", none, false, true⟩ =
      ([.readFile "w.json", .execSync "spl-token create-token --decimals 6 --output json"],
       CreateResult.failure "spl-token: not found" false) := by
  rfl

/-- C16, amended: outside simulation mode, when `options.useMetaplex` or
`tokenInfo.useMetaplex` is set and the wallet path is resolved, `createToken`
runs `createTokenWithMetaplex` and returns its result, whether it reports a
success or a failure; nothing else is run. -/
theorem createToken_metaplex_only (h : Host) (env : ProcessEnv) (w : CreateWorld)
    (options : CreateOptions) (walletKeyPath : String)
    (hsim : options.simulationMode = false)
    (hmeta : options.useMetaplex = true ∨
      ∃ info, options.tokenInfo = some info ∧ info.useMetaplex = true)
    (hpath : (if truthy (orElse options.walletPath options.wallet) then
        Except.ok ((orElse options.walletPath options.wallet).getD "")
      else getWalletPath h env w.existsSync none) = .ok walletKeyPath) :
    ∃ result,
      createTokenWithMetaplex h env w options.tokenInfo (some walletKeyPath) =
        ((createToken h env w options).1, .ok result) ∧
      (createToken h env w options).2 = result := by
  have hcond : (options.useMetaplex ||
      (match options.tokenInfo with | some info => info.useMetaplex | none => false)) = true := by
    rcases hmeta with hm | ⟨info, hinfo, hm⟩
    · simp [hm]
    · simp [hinfo, hm]
  have hnever : ∀ run : Run CreateResult,
      run = createTokenWithMetaplex h env w options.tokenInfo (some walletKeyPath) →
      ∃ result, run = (run.1, .ok result) := by
    intro run hrun
    subst hrun
    unfold createTokenWithMetaplex
    split
    · exact ⟨_, rfl⟩
    · exact ⟨_, rfl⟩
  obtain ⟨result, hresult⟩ := hnever _ rfl
  refine ⟨result, ?_, ?_⟩
  · simp only [createToken, hsim, hpath, hcond, attempt_ok, if_true, Bool.false_eq_true, if_false]
    rw [hresult]
  · simp only [createToken, hsim, hpath, hcond, attempt_ok, if_true, Bool.false_eq_true, if_false]
    rw [hresult]

/-- Witness for C16 (amended): the `create-token` command fails and `createToken`
returns the failure of `createTokenWithMetaplex`. -/
theorem createToken_metaplex_only_witness :
    ∃ result,
      createTokenWithMetaplex sampleHost emptyEnv failingCreateWorld (some sampleTokenInfo)
          (some "w.json") =
        ((createToken sampleHost emptyEnv failingCreateWorld
          ⟨some sampleTokenInfo, some "w.json", none, false, true⟩).1, .ok result) ∧
      (createToken sampleHost emptyEnv failingCreateWorld
        ⟨some sampleTokenInfo, some "w.json", none, false, true⟩).2 = result :=
  createToken_metaplex_only sampleHost emptyEnv failingCreateWorld
    ⟨some sampleTokenInfo, some "w.json", none, false, true⟩ "w.json" rfl (Or.inl rfl) rfl

/-! ## C17: the records of token creation and the viewer -/

/-- C17 fails at this input: `createTokenWithMetaplex` creates the mint `Mint111`
and writes the same record to two files of the token-output directory; the
record holds the address under `mintAddress` and has no `mint`, so over a
directory with exactly these two files `getTokenDetails` for `Mint111` in
simulate-only mode finds no record: it asks the chain for the supply and returns
no local field and no `isSimulated`. -/
theorem created_record_not_found_by_viewer :
    (createTokenWithMetaplex sampleHost emptyEnv
        (sampleCreateWorld (.ok sampleCreateOutput) (.ok "MetaSig")) (some sampleTokenInfo)
        (some "w.json")).1.filterMap
        (fun ev => match ev with
          | .writeFile path record => some (path, record)
          | _ => none) =
      [("/app/token-outputs/gld-1700000000000.json",
          tokenMetadata emptyEnv sampleTokenInfo "Mint111" none none),
       ("/app/token-outputs/gld-metadata.json",
          tokenMetadata emptyEnv sampleTokenInfo "Mint111" none none)] ∧
    (tokenMetadata emptyEnv sampleTokenInfo "Mint111" none none).mint = .undefined ∧
    (tokenMetadata emptyEnv sampleTokenInfo "Mint111" none none).extra =
      [("image", .str ""), ("mintAddress", .str "Mint111")] ∧
    getTokenDetails emptyEnv
        (sampleViewWorld
          [⟨"gld-1700000000000.json",
              .record (tokenMetadata emptyEnv sampleTokenInfo "Mint111" none none)⟩,
           ⟨"gld-metadata.json",
              .record (tokenMetadata emptyEnv sampleTokenInfo "Mint111" none none)⟩])
        (.str "Mint111") true =
      ([.getTokenSupply "Mint111"],
       .ok ⟨.str "Mint111", some 5, 9, none, none,
         "https://explorer.solana.com/?cluster=devnet/address/Mint111"⟩) := by
  refine ⟨rfl, rfl, rfl, rfl⟩

/-! ## C18: the record that `main` writes -/

/-- C18 fails at this input: the `create-token` command fails, `createToken` returns
`success = false` with no mint address, and `main` still reports a success,
writes a record file whose `mint` is `null`, and returns without an exit
status. -/
theorem main_writes_record_after_failed_creation :
    (createToken sampleHost walletEnv failingCreateWorld
        ⟨some sampleTokenInfo, some "w.json", none, false, true⟩).2 =
      CreateResult.failure "spl-token: not found" false ∧
    main sampleHost walletEnv
        (sampleMainWorld (sampleViewWorld []) (sampleMintWorld "W" 9 (some "W"))
          failingCreateWorld)
        ["--yes", "--config", "gold.json"] =
      ([.readFile "w.json",
        .execSync "spl-token create-token --decimals 6 --output json",
        .consoleLog "✅ Token created successfully!",
        .consoleLog "📌 Mint Address: Not available",
        .writeFile "./token-outputs/gld-1700000000001.json"
          ⟨some "Gold", some "GLD", .null, some 6, some 1000, none, none,
            .valid 1700000000001, none, none, some "", none, []⟩,
        .consoleLog "💾 Token details saved to: ./token-outputs/gld-1700000000001.json",
        .consoleLog "🎉 All operations completed successfully!"],
       none) := by
  refine ⟨rfl, rfl⟩

/-! ## C19: the exit status -/

/-- Counterexample to C19 as stated: the wallet is not the mint authority,
`mintTokens` returns `success = false`, `handleMintTokens` prints the failure,
and `main` returns without an exit status, so the process ends with status 0. -/
theorem main_mint_failure_exits_zero :
    (mintTokens sampleHost walletEnv (sampleMintWorld "W" 9 (some "X")) "M" 5 none).2.success =
      false ∧
    main sampleHost walletEnv
        (sampleMainWorld (sampleViewWorld []) (sampleMintWorld "W" 9 (some "X"))
          failingCreateWorld)
        ["mint", "M", "5"] =
      ([.readFile "w.json",
        .getParsedAccountInfo "M",
        .consoleError "❌ Failed to mint tokens.",
        .consoleError authorityMismatchError],
       none) := by
  refine ⟨rfl, rfl⟩

/-- C19, amended: without a help flag, (1) under `view` the process exits with
status 1 exactly when an error leaves `handleViewToken`, and `main` then prints
the message before `process.exit(1)`; (2) under `list`, `mint`, `upload-image`,
`update-uri`, `update-name` or `update-symbol` (and no `view`), `main` returns
without an exit status whatever the operation returned or threw, so the process
ends with status 0. -/
theorem main_exit_status (h : Host) (env : ProcessEnv) (w : MainWorld) (args : List String)
    (hhelp : (args.contains "--help" || args.contains "-h") = false) :
    (args.contains "view" = true →
      ((main h env w args).2 = some 1 ↔
          ∃ e, (handleViewToken h env w.view args).2 = .error e) ∧
      ∀ e, (handleViewToken h env w.view args).2 = .error e →
        main h env w args =
          ((handleViewToken h env w.view args).1 ++
            [.consoleError "❌ Error encountered:", .consoleError e, .exit 1], some 1)) ∧
    (args.contains "view" = false →
      (args.contains "list" || args.contains "mint" || args.contains "upload-image" ||
        args.contains "update-uri" || args.contains "update-name" ||
        args.contains "update-symbol") = true →
      (main h env w args).2 = none) := by
  refine ⟨fun hview => ?_, fun hview hcmd => ?_⟩
  · have hbody : mainBody h env w args =
        (match handleViewToken h env w.view args with
          | (trace, .ok _) => (trace, .ok ())
          | (trace, .error e) => (trace, .error e)) := by
      simp only [mainBody, hhelp, hview, if_true, Bool.false_eq_true, if_false]
    rcases hrun : handleViewToken h env w.view args with ⟨trace, _ | _⟩
    · simp [main, hbody, hrun]
    · simp [main, hbody, hrun]
  · cases hlist : args.contains "list"
    case true => simp only [main, mainBody, hhelp, hview, hlist, Bool.false_eq_true, if_false,
      if_true]
    cases hmint : args.contains "mint"
    case true => simp only [main, mainBody, hhelp, hview, hlist, hmint, Bool.false_eq_true,
      if_false, if_true]
    cases hup : args.contains "upload-image"
    case true => simp only [main, mainBody, hhelp, hview, hlist, hmint, hup, Bool.false_eq_true,
      if_false, if_true]
    cases huri : args.contains "update-uri"
    case true => simp only [main, mainBody, hhelp, hview, hlist, hmint, hup, huri,
      Bool.false_eq_true, if_false, if_true]
    cases hname : args.contains "update-name"
    case true => simp only [main, mainBody, hhelp, hview, hlist, hmint, hup, huri, hname,
      Bool.false_eq_true, if_false, if_true]
    cases hsym : args.contains "update-symbol"
    case true => simp only [main, mainBody, hhelp, hview, hlist, hmint, hup, huri, hname, hsym,
      Bool.false_eq_true, if_false, if_true]
    rw [hlist, hmint, hup, huri, hname, hsym] at hcmd
    exact absurd hcmd (by decide)

/-- Witness for C19 (amended): under `view 1`, with a record whose `mint` is not a
public key, the error of `getTokenDetails` leaves `handleViewToken` and the
process exits with status 1. -/
theorem main_exit_status_witness :
    (main sampleHost walletEnv
        (sampleMainWorld (invalidKeyViewWorld sampleDir) (sampleMintWorld "W" 9 (some "X"))
          failingCreateWorld)
        ["view", "1"]).2 = some 1 :=
  ((main_exit_status sampleHost walletEnv
      (sampleMainWorld (invalidKeyViewWorld sampleDir) (sampleMintWorld "W" 9 (some "X"))
        failingCreateWorld)
      ["view", "1"] (by decide)).1 (by decide)).1.mpr
    ⟨"Failed to fetch token info: Invalid public key input", rfl⟩

/-! ## C21: the two updaters -/

/-- The trace of the body of `updateTokenSymbol` is the trace of the body of
`updateTokenName` with the value moved from `name` to `symbol`. -/
theorem updateTokenSymbolBody_trace (h : Host) (env : ProcessEnv) (w : UpdateWorld)
    (mintAddress value walletPath : Option String) :
    (updateTokenSymbolBody h env w mintAddress value walletPath).1 =
      (updateTokenNameBody h env w mintAddress value walletPath).1.map Event.nameAsSymbol := by
  unfold updateTokenSymbolBody updateTokenNameBody
  by_cases hm : truthy mintAddress = true
  · by_cases hv : truthy value = true
    · simp only [hm, hv, not_true_eq_false, if_false]
      cases w.newPublicKey (mintAddress.getD "") with
      | error e => rfl
      | ok mint =>
        cases getWalletPath h env w.existsSync walletPath with
        | error e => rfl
        | ok walletKeyPath =>
          cases hr : w.readKeypairFile walletKeyPath with
          | error e => simp [attempt, call, hr, Except.mapError, Event.nameAsSymbol]
          | ok raw =>
            cases hk : w.createKeypairFromSecretKey raw with
            | error e => simp [attempt, call, hr, hk, Except.mapError, Event.nameAsSymbol]
            | ok signer =>
              cases hp : w.findMetadataPda mint with
              | error e => simp [attempt, call, hr, hk, hp, Except.mapError, Event.nameAsSymbol]
              | ok metadata =>
                cases hs1 : w.sendAndConfirm ⟨metadata, signer, value, none, true⟩ <;>
                cases hs2 : w.sendAndConfirm ⟨metadata, signer, none, value, true⟩ <;>
                simp [attempt, call, hr, hk, hp, hs1, hs2, Except.mapError, Event.nameAsSymbol]
    · simp [hm, hv]
  · simp [hm]

/-- The wrapper of `updateTokenName` keeps the trace of the body. -/
theorem updateTokenName_trace (h : Host) (env : ProcessEnv) (w : UpdateWorld)
    (mintAddress value walletPath : Option String) :
    (updateTokenName h env w mintAddress value walletPath).1 =
      (updateTokenNameBody h env w mintAddress value walletPath).1 := by
  unfold updateTokenName
  rcases updateTokenNameBody h env w mintAddress value walletPath with ⟨trace, _ | _⟩ <;> rfl

/-- The wrapper of `updateTokenSymbol` keeps the trace of the body. -/
theorem updateTokenSymbol_trace (h : Host) (env : ProcessEnv) (w : UpdateWorld)
    (mintAddress value walletPath : Option String) :
    (updateTokenSymbol h env w mintAddress value walletPath).1 =
      (updateTokenSymbolBody h env w mintAddress value walletPath).1 := by
  unfold updateTokenSymbol
  rcases updateTokenSymbolBody h env w mintAddress value walletPath with ⟨trace, _ | _⟩ <;> rfl

/-- Every update instruction that `updateTokenName` submits sets `name` to the new
name, leaves `symbol` unset and has `isMutable = true`. -/
theorem updateTokenNameBody_instructions (h : Host) (env : ProcessEnv) (w : UpdateWorld)
    (mintAddress value walletPath : Option String) :
    ∀ u ∈ updateInstructions (updateTokenNameBody h env w mintAddress value walletPath).1,
      u.name = value ∧ u.symbol = none ∧ u.isMutable = true := by
  unfold updateTokenNameBody
  by_cases hm : truthy mintAddress = true
  · by_cases hv : truthy value = true
    · simp only [hm, hv, not_true_eq_false, if_false]
      cases w.newPublicKey (mintAddress.getD "") with
      | error e => simp [attempt, updateInstructions]
      | ok mint =>
        cases getWalletPath h env w.existsSync walletPath with
        | error e => simp [attempt, updateInstructions]
        | ok walletKeyPath =>
          cases hr : w.readKeypairFile walletKeyPath with
          | error e => simp [attempt, call, hr, Except.mapError, updateInstructions]
          | ok raw =>
            cases hk : w.createKeypairFromSecretKey raw with
            | error e => simp [attempt, call, hr, hk, Except.mapError, updateInstructions]
            | ok signer =>
              cases hp : w.findMetadataPda mint with
              | error e => simp [attempt, call, hr, hk, hp, Except.mapError, updateInstructions]
              | ok metadata =>
                cases hs1 : w.sendAndConfirm ⟨metadata, signer, value, none, true⟩ <;>
                simp [attempt, call, hr, hk, hp, hs1, Except.mapError, updateInstructions]
    · simp [hm, hv, updateInstructions]
  · simp [hm, updateInstructions]

/-- The update instructions of a trace after `Event.nameAsSymbol`. -/
theorem updateInstructions_nameAsSymbol (trace : List Event) :
    updateInstructions (trace.map Event.nameAsSymbol) =
      (updateInstructions trace).map fun u =>
        ⟨u.metadata, u.updateAuthority, none, u.name, u.isMutable⟩ := by
  induction trace with
  | nil => rfl
  | cons ev rest ih =>
    unfold updateInstructions at ih ⊢
    cases ev <;> simp [Event.nameAsSymbol, ih]

/-- C21: for every mint address, value and wallet, the trace of `updateTokenSymbol` is
the trace of `updateTokenName` with, in each update instruction, the value moved
from `name` to `symbol` (same steps, same metadata address, same update
authority); an instruction of `updateTokenName` sets `name` to the value, leaves
`symbol` unset and has `isMutable = true`, one of `updateTokenSymbol` sets
`symbol`, leaves `name` unset and has `isMutable = true`; and for a non-empty
value, when the chain answers the two instructions alike, the two results are
equal. -/
theorem updaters_same_structure (h : Host) (env : ProcessEnv) (w : UpdateWorld)
    (mintAddress value walletPath : Option String) :
    (updateTokenSymbol h env w mintAddress value walletPath).1 =
      (updateTokenName h env w mintAddress value walletPath).1.map Event.nameAsSymbol ∧
    (∀ u ∈ updateInstructions (updateTokenName h env w mintAddress value walletPath).1,
      u.name = value ∧ u.symbol = none ∧ u.isMutable = true) ∧
    (∀ u ∈ updateInstructions (updateTokenSymbol h env w mintAddress value walletPath).1,
      u.name = none ∧ u.symbol = value ∧ u.isMutable = true) ∧
    (truthy value = true →
      (∀ metadata authority, w.sendAndConfirm ⟨metadata, authority, none, value, true⟩ =
        w.sendAndConfirm ⟨metadata, authority, value, none, true⟩) →
      (updateTokenSymbol h env w mintAddress value walletPath).2 =
        (updateTokenName h env w mintAddress value walletPath).2) := by
  have htrace : (updateTokenSymbol h env w mintAddress value walletPath).1 =
      (updateTokenName h env w mintAddress value walletPath).1.map Event.nameAsSymbol := by
    rw [updateTokenSymbol_trace, updateTokenName_trace, updateTokenSymbolBody_trace]
  have hname := updateTokenNameBody_instructions h env w mintAddress value walletPath
  refine ⟨htrace, ?_, ?_, ?_⟩
  · rw [updateTokenName_trace]
    exact hname
  · rw [htrace, updateInstructions_nameAsSymbol, updateTokenName_trace]
    intro u hu
    obtain ⟨v, hv, rfl⟩ := List.mem_map.mp hu
    exact ⟨rfl, (hname v hv).1, (hname v hv).2.2⟩
  · intro hv hsame
    unfold updateTokenSymbol updateTokenName updateTokenSymbolBody updateTokenNameBody
    by_cases hm : truthy mintAddress = true
    · simp only [hm, hv, not_true_eq_false, if_false]
      cases w.newPublicKey (mintAddress.getD "") with
      | error e => rfl
      | ok mint =>
        cases getWalletPath h env w.existsSync walletPath with
        | error e => rfl
        | ok walletKeyPath =>
          cases hr : w.readKeypairFile walletKeyPath with
          | error e => simp [attempt, call, hr, Except.mapError]
          | ok raw =>
            cases hk : w.createKeypairFromSecretKey raw with
            | error e => simp [attempt, call, hr, hk, Except.mapError]
            | ok signer =>
              cases hp : w.findMetadataPda mint with
              | error e => simp [attempt, call, hr, hk, hp, Except.mapError]
              | ok metadata =>
                have hs := hsame metadata signer
                cases hs1 : w.sendAndConfirm ⟨metadata, signer, value, none, true⟩ <;>
                simp [attempt, call, hr, hk, hp, hs, hs1, Except.mapError]
    · simp [hm]

/-- Witness of C21: the two updaters on the mint `M` with the value `Gold`, in the
world where every call succeeds. -/
theorem updaters_same_structure_witness :
    (updateTokenName sampleHost walletEnv sampleUpdateWorld (some "M") (some "Gold") none).1 =
      [.readFile "w.json", .updateMetadataAccountV2 "meta/M" "W" (some "Gold") none true] ∧
    (updateTokenSymbol sampleHost walletEnv sampleUpdateWorld (some "M") (some "Gold") none).1 =
      [.readFile "w.json", .updateMetadataAccountV2 "meta/M" "W" none (some "Gold") true] ∧
    (updateTokenSymbol sampleHost walletEnv sampleUpdateWorld (some "M") (some "Gold") none).2 =
      (updateTokenName sampleHost walletEnv sampleUpdateWorld (some "M") (some "Gold") none).2 :=
  ⟨rfl, rfl,
    (updaters_same_structure sampleHost walletEnv sampleUpdateWorld (some "M") (some "Gold")
      none).2.2.2 rfl (fun _ _ => rfl)⟩

/-! ## C22: one command per run -/

/-- The elements of a list before the first one that satisfies `p` do not satisfy
it. -/
theorem takeWhile_bne_find? {α : Type} [DecidableEq α] (p : α → Bool) (d : α) :
    ∀ l : List α, ∀ c ∈ l.takeWhile (fun c => c != (l.find? p).getD d), p c = false := by
  intro l
  induction l with
  | nil => simp
  | cons a rest ih =>
    intro c hc
    cases hpa : p a with
    | true => simp [List.find?_cons, hpa, List.takeWhile] at hc
    | false =>
      simp only [List.find?_cons, hpa] at hc
      rw [List.takeWhile_cons] at hc
      split at hc
      · rcases List.mem_cons.mp hc with rfl | hrest
        · exact hpa
        · exact ih c hrest
      · simp at hc

/-- The body of `main` is the handler of the selected command. -/
theorem mainBody_eq_runCommand (h : Host) (env : ProcessEnv) (w : MainWorld)
    (args : List String) :
    mainBody h env w args = runCommand h env w args (selectedCommand args) := by
  simp only [selectedCommand, commandOrder, Command.named, Command.words, List.any_cons,
    List.any_nil, Bool.or_false, List.find?_cons, mainBody]
  cases h1 : (args.contains "--help" || args.contains "-h")
  case true => simp only [if_true, Option.getD_some, runCommand]
  cases h3 : args.contains "view"
  case true => simp only [Bool.false_eq_true, if_false, if_true, Option.getD_some, runCommand]
  cases h4 : args.contains "list"
  case true => simp only [Bool.false_eq_true, if_false, if_true, Option.getD_some, runCommand]
  cases h5 : args.contains "mint"
  case true => simp only [Bool.false_eq_true, if_false, if_true, Option.getD_some, runCommand]
  cases h6 : args.contains "upload-image"
  case true => simp only [Bool.false_eq_true, if_false, if_true, Option.getD_some, runCommand]
  cases h7 : args.contains "update-uri"
  case true => simp only [Bool.false_eq_true, if_false, if_true, Option.getD_some, runCommand]
  cases h8 : args.contains "update-name"
  case true => simp only [Bool.false_eq_true, if_false, if_true, Option.getD_some, runCommand]
  cases h9 : args.contains "update-symbol"
  case true => simp only [Bool.false_eq_true, if_false, if_true, Option.getD_some, runCommand]
  simp only [Bool.false_eq_true, if_false, List.find?_nil, Option.getD_none, runCommand]

/-- C22: for every argument list `main` runs the handler of exactly one command, the
first command in the order help, view, list, mint, upload-image, update-uri,
update-name, update-symbol that the arguments name, and token creation when they
name none: the body of `main` is the handler of `selectedCommand args` and
nothing else, no command listed before the selected one is named, the selected
command is named unless it is token creation, and token creation is selected
only when no command is named. -/
theorem main_runs_one_command (h : Host) (env : ProcessEnv) (w : MainWorld)
    (args : List String) :
    mainBody h env w args = runCommand h env w args (selectedCommand args) ∧
    (∀ c ∈ commandOrder.takeWhile (fun c => c != selectedCommand args),
      c.named args = false) ∧
    (selectedCommand args ≠ .create → (selectedCommand args).named args = true) ∧
    (selectedCommand args = .create → ∀ c ∈ commandOrder, c.named args = false) := by
  refine ⟨mainBody_eq_runCommand h env w args, ?_, ?_, ?_⟩
  · exact takeWhile_bne_find? (fun c => c.named args) .create commandOrder
  · intro hne
    unfold selectedCommand at hne ⊢
    cases hfind : commandOrder.find? (fun c => c.named args) with
    | none => simp [hfind] at hne
    | some c =>
      simp only [Option.getD_some]
      have hnamed := List.find?_some hfind
      exact hnamed
  · intro hcreate c hc
    unfold selectedCommand at hcreate
    cases hfind : commandOrder.find? (fun c => c.named args) with
    | none =>
      have hall := List.find?_eq_none.mp hfind c hc
      simpa using hall
    | some found =>
      rw [hfind] at hcreate
      simp only [Option.getD_some] at hcreate
      have hmem := List.mem_of_find?_eq_some hfind
      rw [hcreate] at hmem
      exact absurd hmem (by decide)

/-- Witness of C22: for the arguments `mint view 1`, which hold two command words,
the command run is `view`, which comes first in the order of the tests. -/
theorem main_runs_one_command_witness :
    selectedCommand ["mint", "view", "1"] = .view ∧
    mainBody sampleHost walletEnv
        (sampleMainWorld (sampleViewWorld sampleDir) (sampleMintWorld "W" 9 (some "W"))
          failingCreateWorld) ["mint", "view", "1"] =
      runCommand sampleHost walletEnv
        (sampleMainWorld (sampleViewWorld sampleDir) (sampleMintWorld "W" 9 (some "W"))
          failingCreateWorld) ["mint", "view", "1"] .view ∧
    Command.named .view ["mint", "view", "1"] = true :=
  ⟨by decide,
    (main_runs_one_command sampleHost walletEnv
      (sampleMainWorld (sampleViewWorld sampleDir) (sampleMintWorld "W" 9 (some "W"))
        failingCreateWorld) ["mint", "view", "1"]).1,
    (main_runs_one_command sampleHost walletEnv
      (sampleMainWorld (sampleViewWorld sampleDir) (sampleMintWorld "W" 9 (some "W"))
        failingCreateWorld) ["mint", "view", "1"]).2.2.1 (by decide)⟩

/-! ## C23: errors of the operations -/

/-- A property of every result of the continuation is a property of every result of
`attempt`. -/
theorem attempt_result {α β : Type} (P : β → Prop) (r : Except String α) (k : α → Run β)
    (hk : ∀ a res, (k a).2 = .ok res → P res) :
    ∀ res, (attempt r k).2 = .ok res → P res := by
  intro res hres
  cases r with
  | error e => simp [attempt] at hres
  | ok a => exact hk a res (by simpa [attempt] using hres)

/-- A property of every result of the continuation is a property of every result of
`call`. -/
theorem call_result {α β : Type} (P : β → Prop) (ev : Event) (r : Except String α)
    (k : α → Run β) (hk : ∀ a res, (k a).2 = .ok res → P res) :
    ∀ res, (call ev r k).2 = .ok res → P res := by
  intro res hres
  cases r with
  | error e => simp [call] at hres
  | ok a => exact hk a res (by simpa [call] using hres)

/-- A result that the body of `mintTokens` returns is a success or carries an error
message. -/
theorem mintTokensBody_result (h : Host) (env : ProcessEnv) (w : MintWorld)
    (tokenMint : String) (amount : Nat) (walletPath : Option String) :
    ∀ res, (mintTokensBody h env w tokenMint amount walletPath).2 = .ok res →
      res.success = true ∨ ∃ m, res.error = some m := by
  unfold mintTokensBody
  apply attempt_result; intro walletKeyPath
  apply call_result; intro userWalletRaw
  apply attempt_result; intro publicKey
  apply attempt_result; intro mintKey
  apply call_result; intro mintInfo
  split
  · intro res hres; simp at hres
  split
  · intro res hres; simp at hres
  · intro res hres; simp at hres
  dsimp only
  split
  · intro res hres
    simp only [Except.ok.injEq] at hres
    subst hres
    exact Or.inr ⟨_, rfl⟩
  apply attempt_result; intro associatedTokenAddress
  apply attempt_result; intro baseUnits
  apply call_result; intro _
  apply call_result; intro blockhash
  dsimp only
  apply attempt_result; intro _
  apply call_result; intro signature
  apply call_result; intro _
  intro res hres
  simp only [Except.ok.injEq] at hres
  subst hres
  exact Or.inl rfl

/-- A property of every result of both branches is a property of every result of a
conditional. -/
theorem ite_result {β : Type} (P : β → Prop) (c : Prop) [Decidable c] (a b : Run β)
    (ha : ∀ res, a.2 = .ok res → P res) (hb : ∀ res, b.2 = .ok res → P res) :
    ∀ res, (if c then a else b).2 = .ok res → P res := by
  split
  · exact ha
  · exact hb

/-- A run that throws has every property of its results. -/
theorem error_result {β : Type} (P : β → Prop) (trace : List Event) (e : String) :
    ∀ res, ((trace, Except.error e) : Run β).2 = .ok res → P res := by
  intro res hres
  simp at hres

/-- A result that the body of `uploadImage` returns is a success. -/
theorem uploadImageBody_result (h : Host) (env : ProcessEnv) (w : UploadWorld)
    (imagePath : String) :
    ∀ res, (uploadImageBody h env w imagePath).2 = .ok res → res.success = true := by
  unfold uploadImageBody
  apply ite_result
  · apply error_result
  dsimp only
  apply ite_result
  · apply error_result
  apply call_result; intro size
  apply ite_result
  · apply error_result
  apply ite_result
  · apply error_result
  intro res hres
  simp only [Except.ok.injEq] at hres
  subst hres
  rfl

/-- A result that the body of `updateTokenName` returns is a success. -/
theorem updateTokenNameBody_result (h : Host) (env : ProcessEnv) (w : UpdateWorld)
    (mintAddress newName walletPath : Option String) :
    ∀ res, (updateTokenNameBody h env w mintAddress newName walletPath).2 = .ok res →
      res.success = true := by
  unfold updateTokenNameBody
  split
  · intro res hres; simp at hres
  split
  · intro res hres; simp at hres
  apply attempt_result; intro mint
  apply attempt_result; intro walletKeyPath
  apply call_result; intro userWalletRaw
  apply attempt_result; intro userWalletSigner
  apply attempt_result; intro metadataAddress
  dsimp only
  apply call_result; intro signature
  intro res hres
  simp only [Except.ok.injEq] at hres
  subst hres
  rfl

/-- A result that the body of `updateTokenSymbol` returns is a success. -/
theorem updateTokenSymbolBody_result (h : Host) (env : ProcessEnv) (w : UpdateWorld)
    (mintAddress newSymbol walletPath : Option String) :
    ∀ res, (updateTokenSymbolBody h env w mintAddress newSymbol walletPath).2 = .ok res →
      res.success = true := by
  unfold updateTokenSymbolBody
  split
  · intro res hres; simp at hres
  split
  · intro res hres; simp at hres
  apply attempt_result; intro mint
  apply attempt_result; intro walletKeyPath
  apply call_result; intro userWalletRaw
  apply attempt_result; intro userWalletSigner
  apply attempt_result; intro metadataAddress
  dsimp only
  apply call_result; intro signature
  intro res hres
  simp only [Except.ok.injEq] at hres
  subst hres
  rfl

/-- A result that the body of `createTokenWithMetaplex` returns is a success. -/
theorem createTokenWithMetaplexBody_result (h : Host) (env : ProcessEnv) (w : CreateWorld)
    (tokenInfo : Option TokenInfo) (walletPath : Option String) :
    ∀ res, (createTokenWithMetaplexBody h env w tokenInfo walletPath).2 = .ok res →
      res.success = some true := by
  unfold createTokenWithMetaplexBody
  split
  · intro res hres; simp at hres
  dsimp only
  apply attempt_result; intro keyPath
  apply call_result; intro wallet
  apply call_result; intro createTokenOutput
  apply attempt_result; intro found
  dsimp only
  split
  · intro res hres; simp at hres
  split
  · intro res hres; simp at hres
  split
  · intro res hres; simp at hres
  split
  · intro res hres; simp at hres
  intro res hres
  simp only [Except.ok.injEq] at hres
  subst hres
  rfl

/-- A failure object returned by `createToken` carries an error message. -/
theorem createToken_failure_has_error (h : Host) (env : ProcessEnv) (w : CreateWorld)
    (options : CreateOptions)
    (hfail : (createToken h env w options).2.success = some false) :
    ∃ m, (createToken h env w options).2.error = some m := by
  revert hfail
  unfold createToken
  split
  · unfold handleSimulationMode
    split
    · intro _; exact ⟨_, rfl⟩
    · intro hfail; simp at hfail
  · dsimp only
    cases hpath : (if truthy (orElse options.walletPath options.wallet) then
        Except.ok ((orElse options.walletPath options.wallet).getD "")
      else getWalletPath h env w.existsSync none) with
    | error e =>
      simp only [attempt_error]
      intro _; exact ⟨_, rfl⟩
    | ok walletKeyPath =>
      simp only [attempt_ok]
      have hmeta : ∃ trace result,
          createTokenWithMetaplex h env w options.tokenInfo (some walletKeyPath) =
            (trace, .ok result) ∧
          (result.success = some false → ∃ m, result.error = some m) := by
        unfold createTokenWithMetaplex
        rcases hbody : createTokenWithMetaplexBody h env w options.tokenInfo
          (some walletKeyPath) with ⟨trace, e | result⟩
        · exact ⟨trace, _, rfl, fun _ => ⟨_, rfl⟩⟩
        · refine ⟨trace, result, rfl, fun hfalse => ?_⟩
          have hsucc := createTokenWithMetaplexBody_result h env w options.tokenInfo
            (some walletKeyPath) result (by rw [hbody])
          rw [hsucc] at hfalse
          simp at hfalse
      obtain ⟨trace, result, hrun, hres⟩ := hmeta
      simp only [hrun, ite_self]
      exact hres

/-- Counterexample to C23 as stated: ImgBB and NFT.Storage are both configured, the
request to ImgBB throws, and NFT.Storage accepts the file.  An error was raised
inside `uploadImage`, and the function returns `success = true` with no
`error`. -/
theorem uploadImage_swallows_provider_error :
    uploadToImgBB ((sampleUploadWorld 100 (.error "Request failed with status code 400")
      (.ok (some ⟨true, some ⟨some "bafy"⟩⟩))).postImgBB "a.png") =
      .error "Request failed with status code 400" ∧
    (uploadImage sampleHost (keysEnv (some "k") (some "n"))
        (sampleUploadWorld 100 (.error "Request failed with status code 400")
          (.ok (some ⟨true, some ⟨some "bafy"⟩⟩))) "a.png").2 =
      ⟨true, some "https://ipfs.io/ipfs/bafy", none,
        some ⟨true, "bafy", "ipfs://bafy", "https://ipfs.io/ipfs/bafy"⟩, none⟩ := by
  refine ⟨rfl, ?_⟩
  have hv := uploadImage_valid sampleHost (keysEnv (some "k") (some "n"))
    (sampleUploadWorld 100 (.error "Request failed with status code 400")
      (.ok (some ⟨true, some ⟨some "bafy"⟩⟩))) "a.png" 100 rfl (by decide) (by decide)
  unfold uploadImage
  rw [hv]
  decide

/-- C23, amended: an error that is raised in one of the five operations outside an
inner `try`/`catch` is surfaced as a failure object with the message of the
error.  For each operation the steps are taken in the order of the code, each
under the hypothesis that the steps before it succeeded: when a step throws an
error with message `e`, the operation returns `success = false` with
`error = e` (prefixed with `Failed to read wallet keypair file: ` for the
wallet read), and when a check of the operation fails, with the message of that
check.  In `mintTokens` the steps after the mint account is read are taken for a
wallet that is the mint authority.  For `createToken` outside simulation mode
the steps are the resolution of the wallet path and, for a resolved path that is
not the empty string, the steps of `createTokenWithMetaplex`, and in simulation
mode the check of `tokenInfo`.  For every operation a result with
`success = false` carries an error message. -/
theorem operations_surface_errors (h : Host) (env : ProcessEnv) :
    (∀ (w : MintWorld) (tokenMint : String) (amount : Nat) (walletPath : Option String),
      (∀ e, getWalletPath h env w.existsSync walletPath = .error e →
        (mintTokens h env w tokenMint amount walletPath).2 = MintResult.failure e) ∧
      (∀ walletKeyPath, getWalletPath h env w.existsSync walletPath = .ok walletKeyPath →
        (∀ e, w.readKeypairFile walletKeyPath = .error e →
          (mintTokens h env w tokenMint amount walletPath).2 =
            MintResult.failure ("Failed to read wallet keypair file: " ++ e)) ∧
        (∀ userWalletRaw, w.readKeypairFile walletKeyPath = .ok userWalletRaw →
          (∀ e, w.createKeypairFromSecretKey userWalletRaw = .error e →
            (mintTokens h env w tokenMint amount walletPath).2 = MintResult.failure e) ∧
          (∀ publicKey, w.createKeypairFromSecretKey userWalletRaw = .ok publicKey →
            (∀ e, w.newPublicKey tokenMint = .error e →
              (mintTokens h env w tokenMint amount walletPath).2 = MintResult.failure e) ∧
            (∀ mintKey, w.newPublicKey tokenMint = .ok mintKey →
              (∀ e, w.getParsedAccountInfo mintKey = .error e →
                (mintTokens h env w tokenMint amount walletPath).2 = MintResult.failure e) ∧
              (∀ mintInfo, w.getParsedAccountInfo mintKey = .ok mintInfo →
                (mintInfo.value = none →
                  (mintTokens h env w tokenMint amount walletPath).2 =
                    MintResult.failure ("Failed to fetch mint information for " ++ tokenMint)) ∧
                (∀ value, mintInfo.value = some value → value.data = none →
                  (mintTokens h env w tokenMint amount walletPath).2 =
                    MintResult.failure ("Failed to fetch mint information for " ++ tokenMint)) ∧
                (∀ value, mintInfo.value = some value → value.data = some .raw →
                  (mintTokens h env w tokenMint amount walletPath).2 =
                    MintResult.failure ("Failed to parse mint data for " ++ tokenMint)) ∧
                (∀ value decimals, mintInfo.value = some value →
                    value.data = some (.parsed ⟨decimals, some publicKey⟩) →
                  (∀ e, w.getAssociatedTokenAddress mintKey publicKey = .error e →
                    (mintTokens h env w tokenMint amount walletPath).2 = MintResult.failure e) ∧
                  (∀ destination, w.getAssociatedTokenAddress mintKey publicKey = .ok destination →
                    (∀ e, toBigInt (amountToMint amount decimals) = .error e →
                      (mintTokens h env w tokenMint amount walletPath).2 = MintResult.failure e) ∧
                    (∀ baseUnits, toBigInt (amountToMint amount decimals) = .ok baseUnits →
                      (∀ e,
                          w.createMintToInstruction mintKey destination publicKey baseUnits = .error e →
                        (mintTokens h env w tokenMint amount walletPath).2 = MintResult.failure e) ∧
                      (w.createMintToInstruction mintKey destination publicKey baseUnits = .ok () →
                        (∀ e, w.getLatestBlockhash = .error e →
                          (mintTokens h env w tokenMint amount walletPath).2 = MintResult.failure e) ∧
                        (∀ blockhash, w.getLatestBlockhash = .ok blockhash →
                          (∀ e,
                              w.sign ⟨mintKey, destination, publicKey, baseUnits, blockhash, publicKey⟩ = .error e →
                            (mintTokens h env w tokenMint amount walletPath).2 =
                              MintResult.failure e) ∧
                          (
                              w.sign ⟨mintKey, destination, publicKey, baseUnits, blockhash, publicKey⟩ = .ok () →
                            (∀ e,
                                w.sendRawTransaction ⟨mintKey, destination, publicKey, baseUnits, blockhash, publicKey⟩ = .error e →
                              (mintTokens h env w tokenMint amount walletPath).2 =
                                MintResult.failure e) ∧
                            (∀ signature,
                                w.sendRawTransaction ⟨mintKey, destination, publicKey, baseUnits, blockhash, publicKey⟩ = .ok signature →
                              (∀ e, w.confirmTransaction signature = .error e →
                                (mintTokens h env w tokenMint amount walletPath).2 =
                                  MintResult.failure e))))))))))))) ∧
      ((mintTokens h env w tokenMint amount walletPath).2.success = false →
        ∃ m, (mintTokens h env w tokenMint amount walletPath).2.error = some m)) ∧
    (∀ (w : UploadWorld) (imagePath : String),
      (w.stat imagePath = .missing →
        (uploadImage h env w imagePath).2 =
          UploadResult.failure ("File not found: " ++ imagePath)) ∧
      (w.stat imagePath ≠ .missing →
        (startsWith (mimeTypeOf h imagePath) "image/" = false →
          (uploadImage h env w imagePath).2 =
            UploadResult.failure ("File is not a recognized image format: " ++ imagePath)) ∧
        (startsWith (mimeTypeOf h imagePath) "image/" = true →
          (∀ e, w.stat imagePath = .unreadable e →
            (uploadImage h env w imagePath).2 = UploadResult.failure e) ∧
          (∀ size, w.stat imagePath = .file size →
            (10 * 1024 * 1024 < size →
              (uploadImage h env w imagePath).2 =
                UploadResult.failure ("Image file is too large (" ++
                  toFixed2 (fileSizeMB size) ++ "MB). Maximum allowed size is 10MB.")) ∧
            (size ≤ 10 * 1024 * 1024 →
              (IMGBB_API_KEY env = "" ∨
                ∃ e, uploadToImgBB (w.postImgBB imagePath) = .error e) →
              (NFT_STORAGE_API_KEY env = "" ∨
                ∃ e, uploadToNFTStorage
                  (w.postNFTStorage imagePath (mimeTypeOf h imagePath)) = .error e) →
              (uploadImage h env w imagePath).2 =
                UploadResult.failure "Failed to upload image to any service.")))) ∧
      ((uploadImage h env w imagePath).2.success = false →
        ∃ m, (uploadImage h env w imagePath).2.error = some m)) ∧
    (∀ (w : UpdateWorld) (mintAddress value walletPath : Option String),
      (truthy mintAddress = false →
        (updateTokenName h env w mintAddress value walletPath).2 =
          UpdateResult.failure "Mint address is required") ∧
      (truthy mintAddress = true →
        (truthy value = false →
          (updateTokenName h env w mintAddress value walletPath).2 =
            UpdateResult.failure "New name is required") ∧
        (truthy value = true →
          (∀ e, w.newPublicKey (mintAddress.getD "") = .error e →
            (updateTokenName h env w mintAddress value walletPath).2 = UpdateResult.failure e) ∧
          (∀ mint, w.newPublicKey (mintAddress.getD "") = .ok mint →
            (∀ e, getWalletPath h env w.existsSync walletPath = .error e →
              (updateTokenName h env w mintAddress value walletPath).2 = UpdateResult.failure e) ∧
            (∀ walletKeyPath, getWalletPath h env w.existsSync walletPath = .ok walletKeyPath →
              (∀ e, w.readKeypairFile walletKeyPath = .error e →
                (updateTokenName h env w mintAddress value walletPath).2 =
                  UpdateResult.failure ("Failed to read wallet keypair file: " ++ e)) ∧
              (∀ userWalletRaw, w.readKeypairFile walletKeyPath = .ok userWalletRaw →
                (∀ e, w.createKeypairFromSecretKey userWalletRaw = .error e →
                  (updateTokenName h env w mintAddress value walletPath).2 = UpdateResult.failure e) ∧
                (∀ userWalletSigner,
                    w.createKeypairFromSecretKey userWalletRaw = .ok userWalletSigner →
                  (∀ e, w.findMetadataPda mint = .error e →
                    (updateTokenName h env w mintAddress value walletPath).2 =
                      UpdateResult.failure e) ∧
                  (∀ metadataAddress, w.findMetadataPda mint = .ok metadataAddress →
                    (∀ e,
                        w.sendAndConfirm ⟨metadataAddress, userWalletSigner, value, none, true⟩ = .error e →
                      (updateTokenName h env w mintAddress value walletPath).2 =
                        UpdateResult.failure e)))))))) ∧
      ((updateTokenName h env w mintAddress value walletPath).2.success = false →
        ∃ m, (updateTokenName h env w mintAddress value walletPath).2.error = some m)) ∧
    (∀ (w : UpdateWorld) (mintAddress value walletPath : Option String),
      (truthy mintAddress = false →
        (updateTokenSymbol h env w mintAddress value walletPath).2 =
          UpdateResult.failure "Mint address is required") ∧
      (truthy mintAddress = true →
        (truthy value = false →
          (updateTokenSymbol h env w mintAddress value walletPath).2 =
            UpdateResult.failure "New symbol is required") ∧
        (truthy value = true →
          (∀ e, w.newPublicKey (mintAddress.getD "") = .error e →
            (updateTokenSymbol h env w mintAddress value walletPath).2 = UpdateResult.failure e) ∧
          (∀ mint, w.newPublicKey (mintAddress.getD "") = .ok mint →
            (∀ e, getWalletPath h env w.existsSync walletPath = .error e →
              (updateTokenSymbol h env w mintAddress value walletPath).2 = UpdateResult.failure e) ∧
            (∀ walletKeyPath, getWalletPath h env w.existsSync walletPath = .ok walletKeyPath →
              (∀ e, w.readKeypairFile walletKeyPath = .error e →
                (updateTokenSymbol h env w mintAddress value walletPath).2 =
                  UpdateResult.failure ("Failed to read wallet keypair file: " ++ e)) ∧
              (∀ userWalletRaw, w.readKeypairFile walletKeyPath = .ok userWalletRaw →
                (∀ e, w.createKeypairFromSecretKey userWalletRaw = .error e →
                  (updateTokenSymbol h env w mintAddress value walletPath).2 =
                    UpdateResult.failure e) ∧
                (∀ userWalletSigner,
                    w.createKeypairFromSecretKey userWalletRaw = .ok userWalletSigner →
                  (∀ e, w.findMetadataPda mint = .error e →
                    (updateTokenSymbol h env w mintAddress value walletPath).2 =
                      UpdateResult.failure e) ∧
                  (∀ metadataAddress, w.findMetadataPda mint = .ok metadataAddress →
                    (∀ e,
                        w.sendAndConfirm ⟨metadataAddress, userWalletSigner, none, value, true⟩ = .error e →
                      (updateTokenSymbol h env w mintAddress value walletPath).2 =
                        UpdateResult.failure e)))))))) ∧
      ((updateTokenSymbol h env w mintAddress value walletPath).2.success = false →
        ∃ m, (updateTokenSymbol h env w mintAddress value walletPath).2.error = some m)) ∧
    (∀ (w : CreateWorld) (options : CreateOptions),
      (options.simulationMode = false →
        (∀ e,
            (if truthy (orElse options.walletPath options.wallet) then
              Except.ok ((orElse options.walletPath options.wallet).getD "")
            else getWalletPath h env w.existsSync none) = .error e →
          (createToken h env w options).2 = CreateResult.failure e false) ∧
        (∀ walletKeyPath,
            (if truthy (orElse options.walletPath options.wallet) then
              Except.ok ((orElse options.walletPath options.wallet).getD "")
            else getWalletPath h env w.existsSync none) = .ok walletKeyPath →
          (walletKeyPath ≠ "" →
            (options.tokenInfo = none →
              (createToken h env w options).2 =
                CreateResult.failure "Cannot read properties of undefined (reading 'name')" false) ∧
            (∀ info, options.tokenInfo = some info →
              (∀ e, w.createKeypairFromFile walletKeyPath = .error e →
                (createToken h env w options).2 = CreateResult.failure e false) ∧
              (∀ wallet, w.createKeypairFromFile walletKeyPath = .ok wallet →
                (∀ e,
                    w.execSync ("spl-token create-token --decimals " ++
                      showNat (orDefault info.decimals DEFAULT_DECIMALS) ++ " --output json") = .error e →
                  (createToken h env w options).2 = CreateResult.failure e false) ∧
                (∀ createTokenOutput,
                    w.execSync ("spl-token create-token --decimals " ++
                      showNat (orDefault info.decimals DEFAULT_DECIMALS) ++ " --output json") = .ok createTokenOutput →
                  (∀ e, extractMint h createTokenOutput = .error e →
                    (createToken h env w options).2 = CreateResult.failure e false) ∧
                  (∀ mintAddress signature,
                      extractMint h createTokenOutput = .ok (mintAddress, signature) →
                    (∀ e,
                        w.execSync ("spl-token mint " ++ mintAddress ++ " " ++
                          showNat (orDefault info.initialSupply DEFAULT_INITIAL_SUPPLY) ++ " --output json") = .error e →
                      (createToken h env w options).2 = CreateResult.failure e false) ∧
                    (∀ mintTokensOutput,
                        w.execSync ("spl-token mint " ++ mintAddress ++ " " ++
                          showNat (orDefault info.initialSupply DEFAULT_INITIAL_SUPPLY) ++ " --output json") = .ok mintTokensOutput →
                      (info.symbol = none →
                        (createToken h env w options).2 =
                          CreateResult.failure "Cannot read properties of undefined (reading 'toLowerCase')" false) ∧
                      (∀ tokenSymbol, info.symbol = some tokenSymbol →
                        (∀ e,
                            w.writeFileSync (h.join [h.TOKEN_OUTPUT_DIR,
                              h.toLowerCase tokenSymbol ++ "-" ++ showNat w.now ++ ".json"]) = .error e →
                          (createToken h env w options).2 = CreateResult.failure e false) ∧
                        (
                            w.writeFileSync (h.join [h.TOKEN_OUTPUT_DIR,
                              h.toLowerCase tokenSymbol ++ "-" ++ showNat w.now ++ ".json"]) = .ok () →
                          (∀ e,
                              w.writeFileSync (h.join [h.TOKEN_OUTPUT_DIR,
                                h.toLowerCase tokenSymbol ++ "-metadata.json"]) = .error e →
                            (createToken h env w options).2 = CreateResult.failure e false))))))))))) ∧
      (options.simulationMode = true → options.tokenInfo = none →
        (createToken h env w options).2 =
          CreateResult.failure "Token information is required for simulation" true) ∧
      ((createToken h env w options).2.success = some false →
        ∃ m, (createToken h env w options).2.error = some m)) := by
  refine ⟨fun w tokenMint amount walletPath => ?_, fun w imagePath => ?_,
    fun w mintAddress value walletPath => ?_, fun w mintAddress value walletPath => ?_,
    fun w options => ?_⟩
  · refine ⟨?_, ?_, ?_⟩
    rotate_right
    · have hres := mintTokensBody_result h env w tokenMint amount walletPath
      unfold mintTokens
      rcases hbody : mintTokensBody h env w tokenMint amount walletPath with ⟨trace, e | res⟩
      · intro _; exact ⟨e, rfl⟩
      · intro hfail
        rcases hres res (by rw [hbody]) with hs | hm
        · simp only at hfail
          rw [hs] at hfail
          exact absurd hfail (by decide)
        · exact hm
    all_goals
      repeat' (first | intro _ | apply And.intro)
    all_goals
      simp_all [mintTokens, mintTokensBody, attempt, call, Except.mapError, MintResult.failure]
  · refine ⟨?_, fun hstat => ⟨?_, ?_⟩, ?_⟩
    · intro hstat
      simp [uploadImage, uploadImageBody, existsSync, hstat, UploadResult.failure]
    · intro hmime
      have hex : existsSync w imagePath = true := by simp [existsSync, hstat]
      simp [uploadImage, uploadImageBody, hex, hmime, UploadResult.failure]
    · intro hmime
      have hex : existsSync w imagePath = true := by simp [existsSync, hstat]
      refine ⟨?_, ?_⟩
      · intro e he
        simp [uploadImage, uploadImageBody, hex, hmime, readFileSync, he, call,
          UploadResult.failure]
      · intro size hfile
        refine ⟨?_, ?_⟩
        · intro hbig
          have hgt : fileSizeMB size > 10 := (fileSizeMB_gt_ten_iff size).mpr hbig
          simp [uploadImage, uploadImageBody, hex, hmime, readFileSync, hfile, call, hgt,
            UploadResult.failure]
        · intro hsize hA hB
          have hv := uploadImage_valid h env w imagePath size hfile hsize hmime
          unfold uploadImage
          rw [hv]
          have hnoA : (if IMGBB_API_KEY env ≠ "" then
              (uploadToImgBB (w.postImgBB imagePath)).toOption else none) = none := by
            rcases hA with hA | ⟨e, hA⟩
            · simp [hA]
            · simp [hA, Except.toOption]
          have hnoB : (if NFT_STORAGE_API_KEY env ≠ "" then
              (uploadToNFTStorage
                (w.postNFTStorage imagePath (mimeTypeOf h imagePath))).toOption
              else none) = none := by
            rcases hB with hB | ⟨e, hB⟩
            · simp [hB]
            · simp [hB, Except.toOption]
          simp only [hnoA, hnoB]
          simp [orElse, truthy, UploadResult.failure]
    · have hres := uploadImageBody_result h env w imagePath
      unfold uploadImage
      rcases hbody : uploadImageBody h env w imagePath with ⟨trace, e | res⟩
      · intro _; exact ⟨e, rfl⟩
      · intro hfail
        simp only at hfail
        rw [hres res (by rw [hbody])] at hfail
        exact absurd hfail (by decide)
  · refine ⟨?_, ?_, ?_⟩
    rotate_right
    · have hres := updateTokenNameBody_result h env w mintAddress value walletPath
      unfold updateTokenName
      rcases hbody : updateTokenNameBody h env w mintAddress value walletPath with
        ⟨trace, e | res⟩
      · intro _; exact ⟨e, rfl⟩
      · intro hfail
        simp only at hfail
        rw [hres res (by rw [hbody])] at hfail
        exact absurd hfail (by decide)
    all_goals
      repeat' (first | intro _ | apply And.intro)
    all_goals
      simp_all [updateTokenName, updateTokenNameBody, attempt, call, Except.mapError,
        UpdateResult.failure]
  · refine ⟨?_, ?_, ?_⟩
    rotate_right
    · have hres := updateTokenSymbolBody_result h env w mintAddress value walletPath
      unfold updateTokenSymbol
      rcases hbody : updateTokenSymbolBody h env w mintAddress value walletPath with
        ⟨trace, e | res⟩
      · intro _; exact ⟨e, rfl⟩
      · intro hfail
        simp only at hfail
        rw [hres res (by rw [hbody])] at hfail
        exact absurd hfail (by decide)
    all_goals
      repeat' (first | intro _ | apply And.intro)
    all_goals
      simp_all [updateTokenSymbol, updateTokenSymbolBody, attempt, call, Except.mapError,
        UpdateResult.failure]
  · refine ⟨?_, ?_, ?_⟩
    rotate_right
    · exact createToken_failure_has_error h env w options
    · repeat' (first | intro _ | apply And.intro)
      all_goals
        simp_all [createToken, createTokenWithMetaplex, createTokenWithMetaplexBody, attempt,
          call, CreateResult.failure, truthy]
    · intro hsim hinfo
      simp [createToken, hsim, handleSimulationMode, hinfo]

/-- Witness of C23 as amended: with no wallet to be found `mintTokens` returns the
failure object of the error that `getWalletPath` throws, and with the
`create-token` command failing `createToken` returns the failure object of that
error. -/
theorem operations_surface_errors_witness :
    (mintTokens sampleHost emptyEnv (sampleMintWorld "W" 9 (some "W")) "M" 5 none).2 =
      MintResult.failure "The \"path\" argument must be of type string. Received undefined" ∧
    (createToken sampleHost walletEnv failingCreateWorld
        ⟨some sampleTokenInfo, some "w.json", none, false, true⟩).2 =
      CreateResult.failure "spl-token: not found" false :=
  ⟨((operations_surface_errors sampleHost emptyEnv).1
      (sampleMintWorld "W" 9 (some "W")) "M" 5 none).1 _ rfl,
    ((((((operations_surface_errors sampleHost walletEnv).2.2.2.2 failingCreateWorld
      ⟨some sampleTokenInfo, some "w.json", none, false, true⟩).1 rfl).2 "w.json" rfl
      (by decide)).2 sampleTokenInfo rfl).2 "W" rfl).1 "spl-token: not found" rfl⟩

/-! ## C24: the wallet path -/

/-- The precedence of `getWalletPath` when a home directory is set: a non-empty
argument wins, then a non-empty `WALLET_PATH`, then the default file under the
home directory if it exists; otherwise the error `Wallet keypair not found`
is thrown. -/
theorem getWalletPath_precedence (h : Host) (env : ProcessEnv) (existsSync : String → Bool)
    (walletPath : Option String) (homeDir : String)
    (hhome : orElse env.HOME env.USERPROFILE = some homeDir) :
    (truthy walletPath = true →
      getWalletPath h env existsSync walletPath = .ok (h.resolve (walletPath.getD ""))) ∧
    (truthy walletPath = false → truthy env.WALLET_PATH = true →
      getWalletPath h env existsSync walletPath = .ok (h.resolve (env.WALLET_PATH.getD ""))) ∧
    (truthy walletPath = false → truthy env.WALLET_PATH = false →
      existsSync (h.join [homeDir, ".config", "solana", "id.json"]) = true →
      getWalletPath h env existsSync walletPath =
        .ok (h.join [homeDir, ".config", "solana", "id.json"])) ∧
    (getWalletPath h env existsSync walletPath =
        .error ("Wallet keypair not found. Please provide a wallet path using " ++
          "--wallet option or WALLET_PATH environment variable.") ↔
      truthy walletPath = false ∧ truthy env.WALLET_PATH = false ∧
        existsSync (h.join [homeDir, ".config", "solana", "id.json"]) = false) := by
  refine ⟨?_, ?_, ?_, ?_⟩
  · intro ha
    simp [getWalletPath, ha]
  · intro ha he
    simp [getWalletPath, ha, he]
  · intro ha he hx
    simp [getWalletPath, ha, he, hhome, hx]
  · cases ha : truthy walletPath
    · cases he : truthy env.WALLET_PATH
      · cases hx : existsSync (h.join [homeDir, ".config", "solana", "id.json"])
        · simp [getWalletPath, ha, he, hhome, hx]
        · simp [getWalletPath, ha, he, hhome, hx]
      · simp [getWalletPath, ha, he]
    · simp [getWalletPath, ha]

/-- C24 fails at this input: no argument is given, `WALLET_PATH` is unset and no
default wallet file exists, and neither `HOME` nor `USERPROFILE` is set.
`getWalletPath` throws, but the error is the argument-type error of `path.join`
and not `Wallet keypair not found`. -/
theorem getWalletPath_without_home :
    getWalletPath sampleHost emptyEnv (fun _ => false) none =
      .error "The \"path\" argument must be of type string. Received undefined" ∧
    getWalletPath sampleHost emptyEnv (fun _ => false) none ≠
      .error ("Wallet keypair not found. Please provide a wallet path using " ++
        "--wallet option or WALLET_PATH environment variable.") := by
  refine ⟨rfl, ?_⟩
  intro hne
  have hmsg : "The \"path\" argument must be of type string. Received undefined" =
      "Wallet keypair not found. Please provide a wallet path using " ++
        "--wallet option or WALLET_PATH environment variable." :=
    Except.error.inj hne
  exact absurd hmsg (by decide)

/-! ## C25: the mint address in the output of `create-token` -/

/-- C25: the tiers of the mint-address extraction.  (1) When the output parses as JSON
with a truthy `commandOutput.address`, the mint address is that value, and the
signature is `commandOutput.transactionData.signature` when
`commandOutput.transactionData` is there and `"unknown"` when it is absent.
(2) Otherwise, when the parsed output has a truthy top-level `address`, the mint
address is that value (and the signature is the top-level `signature`, or
`"unknown"`).  (3) Otherwise, when the output is not JSON or has neither shape,
the mint address is the first capture of the regular expression for `address`
in the raw output (and the signature that of the one for `signature`, or
`"unknown"`), and the step throws when the expression does not match. -/
theorem extractMint_tiers (h : Host) (output : String) :
    (∀ result commandOutput address,
      h.jsonParse output = some result →
      result.get "commandOutput" = some commandOutput →
      Json.truthy (some commandOutput) = true →
      commandOutput.get "address" = some address →
      Json.truthy (some address) = true →
      extractMint h output =
        .ok (address.toText,
          if Json.truthy (commandOutput.get "transactionData") then
            Json.toField ((commandOutput.get "transactionData").bind fun t => t.get "signature")
          else some "unknown")) ∧
    (∀ result address,
      h.jsonParse output = some result →
      (Json.truthy (result.get "commandOutput") &&
        Json.truthy ((result.get "commandOutput").bind fun o => o.get "address")) = false →
      result.get "address" = some address →
      Json.truthy (some address) = true →
      extractMint h output =
        .ok (address.toText,
          orElse (Json.toField (result.get "signature")) (some "unknown"))) ∧
    ((h.jsonParse output = none ∨
        ∃ result, h.jsonParse output = some result ∧
          (Json.truthy (result.get "commandOutput") &&
            Json.truthy ((result.get "commandOutput").bind fun o => o.get "address")) = false ∧
          Json.truthy (result.get "address") = false) →
      extractMint h output =
        match matchJsonAddress output with
        | some mintAddress =>
          .ok (mintAddress, some ((matchJsonSignature output).getD "unknown"))
        | none => .error "Failed to extract token mint address from command output") := by
  refine ⟨?_, ?_, ?_⟩
  · intro result commandOutput address hparse hco htco haddr htaddr
    have hnull : result ≠ .null := by
      intro hn
      rw [hn] at hco
      simp [Json.get] at hco
    cases result with
    | null => exact absurd rfl hnull
    | _ => simp [extractMint, parseCreateToken, hparse, hco, htco, haddr, htaddr]
  · intro result address hparse hnested haddr htaddr
    have hnull : result ≠ .null := by
      intro hn
      rw [hn] at haddr
      simp [Json.get] at haddr
    cases result with
    | null => exact absurd rfl hnull
    | _ => simp [extractMint, parseCreateToken, hparse, hnested, haddr, htaddr]
  · intro hother
    rcases hother with hparse | ⟨result, hparse, hnested, haddr⟩
    · simp [extractMint, parseCreateToken, hparse]
    · cases result with
      | null => simp [extractMint, parseCreateToken, hparse]
      | _ => simp [extractMint, parseCreateToken, hparse, hnested, haddr]

/-- Witness of C25: an output in the nested format, one in the simple format, and one
that is not JSON and is read by the regular expression. -/
theorem extractMint_tiers_witness :
    extractMint nestedHost nestedCreateOutput = .ok ("Mint333", some "Sig333") ∧
    extractMint nestedHost sampleCreateOutput = .ok ("Mint111", some "Sig111") ∧
    extractMint nestedHost "Creating token \"address\": \"Mint555\"" =
      .ok ("Mint555", some "unknown") :=
  ⟨(extractMint_tiers nestedHost nestedCreateOutput).1 _
      (.obj [("address", .str "Mint333"),
        ("transactionData", .obj [("signature", .str "Sig333")])])
      (.str "Mint333") rfl rfl rfl rfl rfl,
    (extractMint_tiers nestedHost sampleCreateOutput).2.1 _ (.str "Mint111") rfl rfl rfl rfl,
    (extractMint_tiers nestedHost "Creating token \"address\": \"Mint555\"").2.2
      (Or.inl rfl)⟩

/-! ## C26: when no tier gives an address -/

/-- The wrapper of `createTokenWithMetaplex` keeps the trace of the body. -/
theorem createTokenWithMetaplex_trace (h : Host) (env : ProcessEnv) (w : CreateWorld)
    (tokenInfo : Option TokenInfo) (walletPath : Option String) :
    (createTokenWithMetaplex h env w tokenInfo walletPath).1 =
      (createTokenWithMetaplexBody h env w tokenInfo walletPath).1 := by
  unfold createTokenWithMetaplex
  rcases createTokenWithMetaplexBody h env w tokenInfo walletPath with ⟨trace, _ | _⟩ <;> rfl

/-- Counterexample to C26 as stated: the output of `create-account` is not JSON and
holds no address, so no tier gives a token account; the step does not fail:
`createTokenWithMetaplex` takes the address `W` of the wallet as the token
account, mints, and returns `success = true`. -/
theorem createTokenWithMetaplex_account_step_continues :
    sampleHost.jsonParse "Creating account" = none ∧
    matchJsonAddress "Creating account" = none ∧
    (createTokenWithMetaplex sampleHost emptyEnv plainAccountCreateWorld (some sampleTokenInfo)
        (some "w.json")).1.take 4 =
      [.readFile "w.json",
       .execSync "spl-token create-token --decimals 6 --output json",
       .execSync "spl-token create-account Mint111 --output json",
       .execSync "spl-token mint Mint111 1000 --output json"] ∧
    (createTokenWithMetaplex sampleHost emptyEnv plainAccountCreateWorld (some sampleTokenInfo)
        (some "w.json")).2 =
      .ok ⟨some true, none, some "Mint111", some "Mint111", some "W", none, some "Sig111",
        some "Sig222", some "/app/token-outputs/gld-metadata.json",
        some "https://explorer.solana.com/?cluster=devnet/address/Mint111", false, false⟩ := by
  refine ⟨rfl, rfl, rfl, rfl⟩

/-- C26, amended: in the mint-creation step, when neither the parsed JSON nor the
regular expression gives an address, the step throws and
`createTokenWithMetaplex` returns `success = false` with the message of that
step, after the `create-token` command and without running another command.
The token-account step cannot fail the creation: once the mint address is
extracted, the `spl-token mint` command is run whatever the `create-account`
and `accounts` commands answer.  And the token account is the address of the
wallet when the `create-account` command fails, when its output is not JSON,
when the regular expression finds no address in it and the `accounts` command
fails, and when moreover the `try` block over the output of `accounts` throws
and the regular expression finds no address in that output either. -/
theorem createTokenWithMetaplex_tiers_exhausted (h : Host) (env : ProcessEnv)
    (w : CreateWorld) (info : TokenInfo) (walletPath : Option String)
    (keyPath wallet output : String)
    (hkey : (if truthy walletPath then Except.ok (walletPath.getD "")
      else getWalletPath h env w.existsSync none) = .ok keyPath)
    (hwallet : w.createKeypairFromFile keyPath = .ok wallet)
    (hcreate : w.execSync ("spl-token create-token --decimals " ++
      showNat (orDefault info.decimals DEFAULT_DECIMALS) ++ " --output json") = .ok output) :
    (parseCreateToken h output = none → matchJsonAddress output = none →
      createTokenWithMetaplex h env w (some info) walletPath =
        ([.readFile keyPath,
          .execSync ("spl-token create-token --decimals " ++
            showNat (orDefault info.decimals DEFAULT_DECIMALS) ++ " --output json")],
         .ok (CreateResult.failure
           "Failed to extract token mint address from command output" false))) ∧
    (∀ mintAddress : String,
      (∀ e, w.execSync ("spl-token create-account " ++ mintAddress ++ " --output json") =
          .error e →
        (createTokenAccount h w mintAddress wallet).2 = some wallet) ∧
      (∀ accountOutput,
        w.execSync ("spl-token create-account " ++ mintAddress ++ " --output json") =
          .ok accountOutput →
        h.jsonParse accountOutput = none →
        (createTokenAccount h w mintAddress wallet).2 = some wallet) ∧
      (∀ accountOutput parsed e,
        w.execSync ("spl-token create-account " ++ mintAddress ++ " --output json") =
          .ok accountOutput →
        h.jsonParse accountOutput = some parsed →
        matchJsonAddress accountOutput = none →
        w.execSync ("spl-token accounts " ++ mintAddress ++ " --output json") = .error e →
        (createTokenAccount h w mintAddress wallet).2 = some wallet) ∧
      (∀ accountOutput parsed accountsOutput,
        w.execSync ("spl-token create-account " ++ mintAddress ++ " --output json") =
          .ok accountOutput →
        h.jsonParse accountOutput = some parsed →
        matchJsonAddress accountOutput = none →
        w.execSync ("spl-token accounts " ++ mintAddress ++ " --output json") =
          .ok accountsOutput →
        parseAccounts h accountsOutput = none →
        matchJsonAddress accountsOutput = none →
        (createTokenAccount h w mintAddress wallet).2 = some wallet)) ∧
    (∀ mintAddress signature, extractMint h output = .ok (mintAddress, signature) →
      Event.execSync ("spl-token mint " ++ mintAddress ++ " " ++
          showNat (orDefault info.initialSupply DEFAULT_INITIAL_SUPPLY) ++ " --output json") ∈
        (createTokenWithMetaplex h env w (some info) walletPath).1) := by
  refine ⟨?_, fun mintAddress => ⟨?_, ?_, ?_, ?_⟩, ?_⟩
  rotate_right
  · intro mintAddress signature hmint
    rw [createTokenWithMetaplex_trace]
    simp only [createTokenWithMetaplexBody, hkey, attempt_ok, hwallet, call_ok, hcreate, hmint]
    cases hrun : w.execSync ("spl-token mint " ++ mintAddress ++ " " ++
        showNat (orDefault info.initialSupply DEFAULT_INITIAL_SUPPLY) ++ " --output json") with
    | error e => simp
    | ok mintOutput =>
      cases hsymbol : info.symbol with
      | none => simp
      | some symbol =>
        simp only []
        split
        · simp
        · split
          · simp
          · simp
  · intro hparse hregex
    simp [createTokenWithMetaplex, createTokenWithMetaplexBody, hkey, hwallet, hcreate,
      extractMint, hparse, hregex]
  · intro e hcmd
    simp [createTokenAccount, hcmd]
  · intro accountOutput hcmd hjson
    simp [createTokenAccount, hcmd, hjson]
  · intro accountOutput parsed e hcmd hjson hregex haccounts
    simp [createTokenAccount, hcmd, hjson, hregex, haccounts]
  · intro accountOutput parsed accountsOutput hcmd hjson hregex haccounts hparse hregex2
    simp [createTokenAccount, hcmd, hjson, hregex, haccounts, hparse, hregex2]

/-- Witness of C26 as amended: a `create-token` output without an address makes the
creation fail; a `create-account` output that is not JSON makes the wallet the
token account, and the `spl-token mint` command is run after it. -/
theorem createTokenWithMetaplex_tiers_exhausted_witness :
    createTokenWithMetaplex sampleHost emptyEnv
        (sampleCreateWorld (.ok "Creating token") (.ok "MetaSig")) (some sampleTokenInfo)
        (some "w.json") =
      ([.readFile "w.json", .execSync "spl-token create-token --decimals 6 --output json"],
       .ok (CreateResult.failure
         "Failed to extract token mint address from command output" false)) ∧
    (createTokenAccount sampleHost plainAccountCreateWorld "Mint111" "W").2 = some "W" ∧
    Event.execSync ("spl-token mint " ++ "Mint111" ++ " " ++
        showNat (orDefault sampleTokenInfo.initialSupply DEFAULT_INITIAL_SUPPLY) ++
        " --output json") ∈
      (createTokenWithMetaplex sampleHost emptyEnv plainAccountCreateWorld
        (some sampleTokenInfo) (some "w.json")).1 :=
  ⟨(createTokenWithMetaplex_tiers_exhausted sampleHost emptyEnv
      (sampleCreateWorld (.ok "Creating token") (.ok "MetaSig")) sampleTokenInfo
      (some "w.json") "w.json" "W" "Creating token" rfl rfl rfl).1 rfl rfl,
    ((createTokenWithMetaplex_tiers_exhausted sampleHost emptyEnv plainAccountCreateWorld
      sampleTokenInfo (some "w.json") "w.json" "W" sampleCreateOutput rfl rfl rfl).2.1
      "Mint111").2.1 "Creating account" rfl rfl,
    (createTokenWithMetaplex_tiers_exhausted sampleHost emptyEnv plainAccountCreateWorld
      sampleTokenInfo (some "w.json") "w.json" "W" sampleCreateOutput rfl rfl rfl).2.2
      "Mint111" (some "Sig111") rfl⟩

/-! ## C27: the decimals of the mint -/

/-- Once the wallet is loaded, the first command that `createTokenWithMetaplex` runs
is `spl-token create-token` with the decimals `tokenInfo.decimals || 9`: the
decimals of the description when they are present and not 0, and 9 otherwise. -/
theorem createTokenWithMetaplex_decimals (h : Host) (env : ProcessEnv) (w : CreateWorld)
    (info : TokenInfo) (walletPath : Option String) (keyPath wallet : String)
    (hkey : (if truthy walletPath then Except.ok (walletPath.getD "")
      else getWalletPath h env w.existsSync none) = .ok keyPath)
    (hwallet : w.createKeypairFromFile keyPath = .ok wallet) :
    (createTokenWithMetaplex h env w (some info) walletPath).1.take 2 =
      [.readFile keyPath,
       .execSync ("spl-token create-token --decimals " ++
         showNat (orDefault info.decimals DEFAULT_DECIMALS) ++ " --output json")] ∧
    (∀ d, info.decimals = some d → 0 < d → orDefault info.decimals DEFAULT_DECIMALS = d) ∧
    (info.decimals = some 0 ∨ info.decimals = none →
      orDefault info.decimals DEFAULT_DECIMALS = 9) := by
  refine ⟨?_, ?_, ?_⟩
  · rw [createTokenWithMetaplex_trace]
    simp only [createTokenWithMetaplexBody, hkey, attempt_ok, hwallet, call_ok]
    cases hcmd : w.execSync ("spl-token create-token --decimals " ++
        showNat (orDefault info.decimals DEFAULT_DECIMALS) ++ " --output json") with
    | error e => simp [call]
    | ok output => simp [call]
  · intro d hd hpos
    simp [orDefault, hd, Nat.pos_iff_ne_zero.mp hpos]
  · intro hd
    rcases hd with hd | hd <;> simp [orDefault, hd, DEFAULT_DECIMALS]

/-- C27 fails at this input: the token description asks for 0 decimals, a value that
the prompt accepts, and `createTokenWithMetaplex` creates the mint with
`--decimals 9`. -/
theorem createTokenWithMetaplex_zero_decimals :
    (createTokenWithMetaplex sampleHost emptyEnv
        (sampleCreateWorld (.ok sampleCreateOutput) (.ok "MetaSig"))
        (some ⟨some "Gold", some "GLD", some 0, some 1000, none, none, none, false⟩)
        (some "w.json")).1.take 2 =
      [.readFile "w.json", .execSync "spl-token create-token --decimals 9 --output json"] ∧
    Event.execSync "spl-token create-token --decimals 0 --output json" ∉
      (createTokenWithMetaplex sampleHost emptyEnv
        (sampleCreateWorld (.ok sampleCreateOutput) (.ok "MetaSig"))
        (some ⟨some "Gold", some "GLD", some 0, some 1000, none, none, none, false⟩)
        (some "w.json")).1 := by
  refine ⟨rfl, ?_⟩
  decide

/-! ## C28: the explorer link -/

/-- The explorer link of a mint: on `mainnet-beta` the address is in the path, on
every other network it is appended to the query `?cluster=<network>`. -/
theorem explorerLink_shape (env : ProcessEnv) (mint : String) :
    (NETWORK env = "mainnet-beta" →
      EXPLORER_URL env ++ "/address/" ++ mint =
        "https://explorer.solana.com" ++ "/address/" ++ mint) ∧
    (NETWORK env ≠ "mainnet-beta" →
      EXPLORER_URL env ++ "/address/" ++ mint =
        "https://explorer.solana.com/?cluster=" ++ NETWORK env ++ "/address/" ++ mint) := by
  constructor
  · intro hnet
    simp [EXPLORER_URL, hnet]
  · intro hnet
    simp [EXPLORER_URL, hnet]

/-- C28 fails at this input: with `SOLANA_NETWORK` unset the network is `devnet`, and
the explorer link that `getTokenDetails` and the simulation of `createToken`
build for a mint is `https://explorer.solana.com/?cluster=devnet/address/<mint>`:
the part before the query is `https://explorer.solana.com/` and `/address/`
comes after `?cluster=devnet`, inside the query. -/
theorem explorerLink_devnet_malformed :
    (getTokenDetails emptyEnv (sampleViewWorld []) (.str "Mint111") false).2.toOption.map
        (fun details => details.explorerUrl) =
      some "https://explorer.solana.com/?cluster=devnet/address/Mint111" ∧
    (createToken sampleHost emptyEnv failingCreateWorld
        ⟨some sampleTokenInfo, none, none, true, true⟩).2.explorerUrl =
      some ("https://explorer.solana.com/?cluster=devnet/address/" ++
        simulatedMintAddress failingCreateWorld) ∧
    beforeQuery "https://explorer.solana.com/?cluster=devnet/address/Mint111" =
      "https://explorer.solana.com/" ∧
    includes (beforeQuery "https://explorer.solana.com/?cluster=devnet/address/Mint111")
      "/address/" = false := by
  refine ⟨rfl, rfl, by decide, by decide⟩

/-! ## C29: completeness of the listing -/

/-- Counterexample to C29 as stated.  (1) A record file that holds the JSON value
`null` parses, and with the empty filter it makes the listing return the empty
list, so the record of `gold-1.json` is dropped.  (2) Under the filter `gold` a
record with a matching name and no symbol is listed, and under the filter `gld`
a record with a matching symbol and no name is skipped. -/
theorem listTokens_not_complete :
    listTokens sampleHost
        (.ok [⟨"gold-1.json", .record (sampleRecord "Gold Coin" "GLD" (.valid 1000))⟩,
          ⟨"empty.json", .null⟩]) false "" = [] ∧
    listTokens sampleHost
        (.ok [⟨"gold-1.json", .record
          ⟨some "Gold Coin", none, .undefined, none, none, none, none, .absent, none, none,
            none, none, []⟩⟩]) false "gold" =
      [⟨some "Gold Coin", none, .undefined, none, none, none, none, .absent, none, none,
        none, none, []⟩] ∧
    listTokens sampleHost
        (.ok [⟨"gold-1.json", .record
          ⟨none, some "GLD", .undefined, none, none, none, none, .absent, none, none,
            none, none, []⟩⟩]) false "gld" = [] := by
  decide

/-- What one turn of the loop of `listTokens` pushes, for a file that does not hold
`null` under the empty filter: the record of the file if it is to be listed. -/
theorem loadToken_bind_id (h : Host) (filter : String) (c : FileContent) :
    (filter = "" → c ≠ .null) →
    (loadToken h filter c).bind id =
      (match c with
       | .record r => if filter = "" ∨ matchesFilter h filter r = true then some r else none
       | _ => none) ∧
    loadToken h filter c ≠ some none := by
  intro hnull
  cases c with
  | unreadable => simp [loadToken]
  | null =>
    by_cases hf : filter = ""
    · exact absurd rfl (hnull hf)
    · simp [loadToken, hf]
  | record r =>
    by_cases hf : filter = ""
    · simp [loadToken, hf]
    · cases hname : r.name with
      | none => simp [loadToken, hf, matchesFilter, hname]
      | some name =>
        by_cases hn : includes (h.toLowerCase name) (h.toLowerCase filter) = true
        · simp [loadToken, hf, matchesFilter, hname, hn]
        · cases hsymbol : r.symbol with
          | none => simp [loadToken, hf, matchesFilter, hname, hn, hsymbol]
          | some symbol =>
            by_cases hs : includes (h.toLowerCase symbol) (h.toLowerCase filter) = true
            · simp [loadToken, hf, matchesFilter, hname, hn, hsymbol, hs]
            · simp [loadToken, hf, matchesFilter, hname, hn, hsymbol, hs]

/-- C29, amended: for every directory that can be read, the listing is a permutation of
the records of all `.json` files that parse to a record, all of them under the
empty filter provided that no `.json` file holds the value `null`, and under a
non-empty filter exactly those whose name is a string and whose name, or string
symbol, contains the filter without regard to case; a file that cannot be read
or parsed, and under a filter a file that holds `null`, is skipped and drops no
other record. -/
theorem listTokens_complete (h : Host) (entries : List DirEntry) (verbose : Bool)
    (filter : String)
    (hnull : filter = "" → ∀ file ∈ entries, endsWith file.name ".json" = true →
      file.content ≠ .null) :
    (listTokens h (.ok entries) verbose filter).Perm (listedRecords h filter entries) := by
  unfold listTokens listedRecords
  simp only
  by_cases hlen : (entries.filter fun file => endsWith file.name ".json").length = 0
  · have hnil := List.length_eq_zero.mp hlen
    simp [hnil]
  · simp only [hlen, if_false]
    have hload : ∀ file ∈ entries.filter (fun file => endsWith file.name ".json"),
        (loadToken h filter file.content).bind id =
          (match file.content with
           | .record r =>
             if filter = "" ∨ matchesFilter h filter r = true then some r else none
           | _ => none) ∧
        loadToken h filter file.content ≠ some none := by
      intro file hfile
      obtain ⟨hmem, hjson⟩ := List.mem_filter.mp hfile
      exact loadToken_bind_id h filter file.content (fun hf => hnull hf file hmem hjson)
    have hany : ((entries.filter fun file => endsWith file.name ".json").filterMap
        fun file => loadToken h filter file.content).any Option.isNone = false := by
      rw [Bool.eq_false_iff]
      intro hsome
      obtain ⟨x, hx, hnone⟩ := List.any_eq_true.mp hsome
      obtain ⟨file, hfile, hfx⟩ := List.mem_filterMap.mp hx
      cases x with
      | none => exact (hload file hfile).2 hfx
      | some r => simp at hnone
    simp only [hany, Bool.false_eq_true, if_false]
    have hrecords : ((entries.filter fun file => endsWith file.name ".json").filterMap
        fun file => loadToken h filter file.content).filterMap id =
        (entries.filter fun file => endsWith file.name ".json").filterMap fun file =>
          match file.content with
          | .record r =>
            if filter = "" ∨ matchesFilter h filter r = true then some r else none
          | _ => none := by
      rw [List.filterMap_filterMap]
      apply List.filterMap_congr
      intro file hfile
      exact (hload file hfile).1
    rw [hrecords]
    exact List.perm_insertionSort _ _

/-- Witness of C29 as amended: the sample directory, which holds an unreadable record
file and no file with the value `null`, under the empty filter and under the
filter `gold`. -/
theorem listTokens_complete_witness :
    (listedRecords sampleHost "" sampleDir).length = 3 ∧
    (listTokens sampleHost (.ok sampleDir) false "").Perm
      (listedRecords sampleHost "" sampleDir) ∧
    listedRecords sampleHost "gold" sampleDir =
      [sampleRecord "Gold Coin" "GLD" (.valid 1000), sampleRecord "Old Gold" "OLD" .absent] ∧
    (listTokens sampleHost (.ok sampleDir) false "gold").Perm
      (listedRecords sampleHost "gold" sampleDir) :=
  ⟨by decide,
    listTokens_complete sampleHost sampleDir false "" (fun _ => by decide),
    by decide,
    listTokens_complete sampleHost sampleDir false "gold"
      (fun hf => absurd hf (by decide))⟩

/-! ## C30: the merge of local and on-chain data -/

/-- C30: in the result of `getTokenDetails` that is not simulated, `explorerUrl` is
always the link computed from the requested mint address; every other key of
the matching local record has the value of the record, also `supply` and
`decimals`, which then replace the values of the chain; a key that the record
lacks keeps the value written before the record; and when no local record
matches, the result holds exactly `mint`, the on-chain `supply` and `decimals`,
and `explorerUrl`. -/
theorem getTokenDetails_merge (env : ProcessEnv) (w : ViewWorld) (mintAddress : JsValue)
    (simulateOnly : Bool) (entries : List DirEntry) (key : String) (supply : TokenSupply)
    (hdir : w.readdir = .ok entries)
    (hkey : w.newPublicKey mintAddress = .ok key)
    (hsupply : w.getTokenSupply key = .ok supply)
    (hpath : simulateOnly = false ∨ findLocalToken entries mintAddress = none) :
    ∃ details,
      getTokenDetails env w mintAddress simulateOnly = ([.getTokenSupply key], .ok details) ∧
      details.field "explorerUrl" =
        some (.value (.str (EXPLORER_URL env ++ "/address/" ++ mintAddress.toText))) ∧
      (∀ info, findLocalToken entries mintAddress = some info →
        ∀ k, k ≠ "explorerUrl" →
          (∀ v, info.field k = some v → details.field k = some v) ∧
          (info.field k = none →
            details.field k =
              if k = "mint" then some (.value mintAddress)
              else if k = "supply" then some (.amount supply.uiAmount)
              else if k = "decimals" then some (.value (.num supply.decimals))
              else none)) ∧
      (findLocalToken entries mintAddress = none →
        ∀ k, details.field k =
          if k = "explorerUrl" then
            some (.value (.str (EXPLORER_URL env ++ "/address/" ++ mintAddress.toText)))
          else if k = "mint" then some (.value mintAddress)
          else if k = "supply" then some (.amount supply.uiAmount)
          else if k = "decimals" then some (.value (.num supply.decimals))
          else none) := by
  have hrun : getTokenDetails env w mintAddress simulateOnly =
      ([.getTokenSupply key],
        .ok ⟨mintAddress, supply.uiAmount, supply.decimals,
          findLocalToken entries mintAddress, none,
          EXPLORER_URL env ++ "/address/" ++ mintAddress.toText⟩) := by
    rcases hpath with hsim | hnone
    · subst hsim
      cases hlocal : findLocalToken entries mintAddress <;>
        simp [getTokenDetails, hdir, hlocal, hkey, hsupply, attempt, call, Except.mapError]
    · cases simulateOnly <;>
        simp [getTokenDetails, hdir, hnone, hkey, hsupply, attempt, call, Except.mapError]
  refine ⟨_, hrun, ?_, ?_, ?_⟩
  · simp [TokenDetails.field]
  · intro info hlocal k hk
    constructor
    · intro v hv
      simp [TokenDetails.field, hk, hlocal, hv]
    · intro hv
      simp [TokenDetails.field, hk, hlocal, hv]
  · intro hnone k
    by_cases hk : k = "explorerUrl"
    · simp [TokenDetails.field, hk]
    · simp [TokenDetails.field, hk, hnone]

/-- Witness of C30: the chain reports a supply of 5 with 9 decimals and the local
record of the mint holds `decimals = 6`, `supply = 77` and an explorer link of
its own; the result has the decimals and the supply of the record and the
recomputed link. -/
theorem getTokenDetails_merge_witness :
    ∃ details,
      getTokenDetails emptyEnv (sampleViewWorld [⟨"gold-1.json", .record localGoldRecord⟩])
          (.str "M") false = ([.getTokenSupply "M"], .ok details) ∧
      details.field "decimals" = some (.value (.num 6)) ∧
      details.field "supply" = some (.value (.num 77)) ∧
      details.field "explorerUrl" =
        some (.value (.str "https://explorer.solana.com/?cluster=devnet/address/M")) := by
  obtain ⟨details, hrun, hurl, hlocal, _⟩ :=
    getTokenDetails_merge emptyEnv (sampleViewWorld [⟨"gold-1.json", .record localGoldRecord⟩])
      (.str "M") false [⟨"gold-1.json", .record localGoldRecord⟩] "M" ⟨some 5, 9⟩
      rfl rfl rfl (Or.inl rfl)
  exact ⟨details, hrun,
    (hlocal localGoldRecord (by decide) "decimals" (by decide)).1 _ (by decide),
    (hlocal localGoldRecord (by decide) "supply" (by decide)).1 _ (by decide),
    hurl⟩

end TokenCli
